import Mathlib

/-!
# Location scoring and recommendation ranking of the real-estate platform

A shallow embedding of `services/propertyScoreService.js`,
`services/recommendationService.js` and, from `controllers/listings.js`, the
scoring guard of `createListing`, the endpoint `calculateLocationScores` and
the comparator of the index and search pages.

Conventions of the embedding

* A JavaScript number is carried as the rational it denotes; `NaN` and a
  missing/non-numeric value are `none` of an `Option ℚ`; `Infinity` as the
  initial value of a running minimum is `none` of the accumulator.
* The scorers are embedded in two readings of their arithmetic. In
  `calculateAllScores` and the functions it calls, `+`, `-`, `*`, `/` are the
  exact operations on rationals; the statements on structure, order, ranges,
  requests and fall-backs are proved on this reading. In the functions with the
  suffix `F64` (section "Double precision") every operation returns the nearest
  IEEE 754 double, as the engine computes it; the statements on the value of a
  score are proved on this reading, where a value that is a half-integer in
  exact arithmetic can be rounded the other way.
* A JavaScript function that may throw (an `async` function whose promise may
  reject) returns `Except String _`; `try`/`catch` is `tryCatch`.
* The external services (Overpass, OpenAQ) are not code of the repository: what
  they answer is an input (`World`), and every request issued is recorded in a
  list of `ExternalCall`s returned next to the result.
* The great-circle distance `haversine` is trigonometric; the distance of a
  returned feature from the scored coordinate is carried by the feature itself.
  The functions `haversine` and `calculateDistance` are embedded on their own,
  in double precision, with `Math.sin`, `Math.cos` and `Math.atan2`, whose
  values the language leaves to the engine, as a parameter (`JsMath`).
-/

namespace RealEstate

/-! ## JavaScript helpers -/

/-- `Math.round`: the nearest integer, a half rounded towards plus infinity. -/
def jsRound (x : ℚ) : ℤ := ⌊x + 1 / 2⌋

/-- A `try { body } catch (error) { handler }` block. -/
def tryCatch {α : Type} (body : Except String α) (handler : String → Except String α) :
    Except String α :=
  match body with
  | .ok a => .ok a
  | .error e => handler e

deriving instance DecidableEq for Except

/-- A JavaScript number handed in by a caller; `none` is `NaN`. -/
abbrev Coord := Option ℚ

/-! ## External services -/

/-- A request sent to an external service. -/
inductive ExternalCall where
  /-- `axios.post(OVERPASS_URL, ...)` for one amenity category (its tag filter). -/
  | overpassAmenity (tagFilter : String) (radius : ℕ) (lat lng : Coord)
  /-- `axios.post(OVERPASS_URL, ...)` of `calculateEnvironmentScore`. -/
  | overpassEnvironment (radius : ℕ) (lat lng : Coord)
  /-- `axios.post(OVERPASS_URL, ...)` of `calculateSafetyScore`. -/
  | overpassSafety (radius : ℕ) (lat lng : Coord)
  /-- `axios.get(OPENAQ_URL?...)` of `calculatePollutionScore`. -/
  | openAQ (radius : ℕ) (lat lng : Coord)
  deriving DecidableEq, Repr

/-- The outcome of one external request: it throws (network error, timeout,
non-2xx status) or it resolves with `response.data`. -/
inductive Outcome (α : Type) where
  | failure
  | response (data : α)
  deriving DecidableEq, Repr

/-- The tags of an Overpass element that the scorers read (`el.tags || {}`);
`none` is an absent tag. -/
structure Tags where
  leisure : Option String := none
  landuse : Option String := none
  natural : Option String := none
  industrial : Option String := none
  highway : Option String := none
  amenity : Option String := none
  surveillance : Option String := none
  shop : Option String := none
  deriving DecidableEq, Repr

/-- An element of `data.elements` as the scorers read it.
`nodeDist` is `haversine(lat, lng, el.lat, el.lon)`, `none` when that is not a
number (a coordinate is missing); `center` is `el.center` with
`haversine(lat, lng, el.center.lat, el.center.lon)`. -/
structure Element where
  isNode : Bool
  nodeDist : Option ℚ := none
  center : Option (Option ℚ) := none
  tags : Tags := {}
  deriving DecidableEq, Repr

/-- The `response.data` of an Overpass request. -/
inductive OverpassData where
  /-- `data` is `null` or `undefined`: reading `data.elements` throws. -/
  | null
  /-- `data.elements` is absent. -/
  | noElements
  /-- `data.elements` is an array; `none` is a `null` entry, reading a field of
  which throws. -/
  | elements (els : List (Option Element))
  deriving DecidableEq, Repr

/-- One entry of `loc.measurements` in an OpenAQ answer; `value` is `none`
when `typeof m.value` is not `'number'`. -/
structure Measurement where
  parameter : String
  value : Option ℚ
  deriving DecidableEq, Repr

/-- One entry of `data.results`; `measurements` is `none` when the field is
absent. -/
structure AQLocation where
  measurements : Option (List (Option Measurement))
  deriving DecidableEq, Repr

/-- The `response.data` of an OpenAQ request. -/
inductive AQData where
  | null
  | noResults
  | results (locs : List (Option AQLocation))
  deriving DecidableEq, Repr

/-- What the external services answer during one run of `calculateAllScores`.
The environment query is sent a second time by the pollution fall-back; the two
requests are independent. -/
structure World where
  /-- Answer to the amenity query of the category with the given name. -/
  amenity : String → Outcome OverpassData
  environment : Outcome OverpassData
  safety : Outcome OverpassData
  airQuality : Outcome AQData
  environmentRetry : Outcome OverpassData

/-! ## PropertyScoreService -/

/-- `this.MAX_RADIUS`. -/
def MAX_RADIUS : ℕ := 2000

/-- The coordinates branch shared by the three Overpass loops: a node uses
`el.lat`/`el.lon`, any other element its `center`; the value is the haversine
distance when there is one that is a number. -/
def coordDist (el : Element) : Option ℚ :=
  if el.isNode then el.nodeDist
  else match el.center with
    | some d => d
    | none => none

/-- `dist < minDist`, the running minimum starting at `Infinity` (`none`). -/
def ltMin (d : ℚ) (minDist : Option ℚ) : Bool :=
  match minDist with
  | none => true
  | some m => decide (d < m)

structure AmenityCategory where
  name : String
  query : String
  deriving DecidableEq, Repr

def getAmenityCategories : List AmenityCategory :=
  [ { name := "Hospital", query := "[\"amenity\"=\"hospital\"]" },
    { name := "School", query := "[\"amenity\"=\"school\"]" },
    { name := "College", query := "[\"amenity\"=\"college\"]" },
    { name := "Mall", query := "[\"shop\"=\"mall\"]" },
    { name := "Pharmacy", query := "[\"amenity\"=\"pharmacy\"]" },
    { name := "Police Station", query := "[\"amenity\"=\"police\"]" },
    { name := "Bus Stop", query := "[\"highway\"=\"bus_stop\"]" } ]

/-- One entry of `results` in `calculateAmenityScore`. -/
structure CategoryResult where
  category : String
  found : Bool
  distance : Option ℚ
  error : Bool := false
  deriving DecidableEq, Repr

/-- The `for (const el of data.elements)` loop of `calculateAmenityScore`;
the accumulator is `nearest.distance` (`none` while `nearest === null`). -/
def findNearest : List (Option Element) → Option ℚ → Except String (Option ℚ)
  | [], nearest => .ok nearest
  | none :: _, _ => .error "TypeError"
  | some el :: rest, nearest =>
    match coordDist el with
    | some dist => findNearest rest (if ltMin dist nearest then some dist else nearest)
    | none => findNearest rest nearest

/-- The body of the `try` block for one category. -/
def amenityCategoryBody (cat : AmenityCategory) (o : Outcome OverpassData) :
    Except String CategoryResult :=
  match o with
  | .failure => .error "request failed"
  | .response .null => .error "TypeError"
  | .response .noElements =>
    .ok { category := cat.name, found := false, distance := none }
  | .response (.elements []) =>
    .ok { category := cat.name, found := false, distance := none }
  | .response (.elements (e :: es)) =>
    match findNearest (e :: es) none with
    | .error err => .error err
    | .ok nearest =>
      .ok { category := cat.name, found := nearest.isSome, distance := nearest }

/-- One iteration of `for (const cat of categories)`: the `try` block and its
`catch`, which records the category as not found. -/
def amenityCategoryResult (cat : AmenityCategory) (o : Outcome OverpassData) :
    CategoryResult :=
  match amenityCategoryBody cat o with
  | .ok r => r
  | .error _ => { category := cat.name, found := false, distance := none, error := true }

/-- The proximity ratio `Math.max(0, 1 - Math.min(r.distance, MAX_RADIUS) / MAX_RADIUS)`. -/
def proximityRatio (distance : ℚ) : ℚ :=
  max 0 (1 - min distance (MAX_RADIUS : ℚ) / (MAX_RADIUS : ℚ))

/-- One step of the `for (const r of results)` loop that accumulates `total`. -/
def amenityStep (weight : ℚ) (total : ℚ) (r : CategoryResult) : ℚ :=
  match r.found, r.distance with
  | true, some d => total + weight * proximityRatio d
  | _, _ => total

structure AmenityResult where
  score : ℤ
  details : List CategoryResult
  deriving DecidableEq, Repr

def calculateAmenityScore (lat lng : Coord) (answer : String → Outcome OverpassData) :
    Except String AmenityResult × List ExternalCall :=
  let categories := getAmenityCategories
  let results := categories.map (fun cat => amenityCategoryResult cat (answer cat.name))
  let weight : ℚ := 100 / (categories.length : ℚ)
  let total := results.foldl (amenityStep weight) 0
  (.ok { score := jsRound total, details := results },
   categories.map (fun cat => ExternalCall.overpassAmenity cat.query MAX_RADIUS lat lng))

/-! ### Environment -/

/-- The character list `hay` begins with `needle`. -/
def startsWithChars : List Char → List Char → Bool
  | [], _ => true
  | _ :: _, [] => false
  | a :: as, b :: bs => a == b && startsWithChars as bs

/-- The character list `needle` occurs somewhere in the given one. -/
def containsChars (needle : List Char) : List Char → Bool
  | [] => needle.isEmpty
  | c :: cs => startsWithChars needle (c :: cs) || containsChars needle cs

/-- `tags.highway && /primary|secondary|tertiary|trunk/.test(tags.highway)`. -/
def isMajorRoad (tags : Tags) : Bool :=
  match tags.highway with
  | none => false
  | some h =>
    decide (h ≠ "") &&
      (containsChars "primary".toList h.toList || containsChars "secondary".toList h.toList ||
       containsChars "tertiary".toList h.toList || containsChars "trunk".toList h.toList)

/-- The test that counts an element as a green feature. -/
def isGreen (tags : Tags) : Bool :=
  tags.leisure == some "park" || tags.landuse == some "forest" ||
    tags.natural == some "wood" || tags.leisure == some "garden"

/-- The test that counts an element as an industrial feature. -/
def isIndustrial (tags : Tags) : Bool :=
  tags.landuse == some "industrial" || tags.industrial == some "yes"

structure EnvDetails where
  greenFeatures : ℕ
  industrialFeatures : ℕ
  /-- `none` is `Infinity`. -/
  nearestMajorRoad : Option ℚ
  deriving DecidableEq, Repr

structure EnvResult where
  score : ℤ
  details : EnvDetails
  deriving DecidableEq, Repr

/-- The `for (const el of data.elements)` loop of `calculateEnvironmentScore`;
the accumulator holds `greenCount`, `industrialCount` and `nearestRoadDist`. -/
def envLoop : List (Option Element) → EnvDetails → Except String EnvDetails
  | [], acc => .ok acc
  | none :: _, _ => .error "TypeError"
  | some el :: rest, acc =>
    let green := if isGreen el.tags then acc.greenFeatures + 1 else acc.greenFeatures
    let industrial :=
      if isIndustrial el.tags then acc.industrialFeatures + 1 else acc.industrialFeatures
    let road :=
      if isMajorRoad el.tags then
        match coordDist el with
        | some d => if ltMin d acc.nearestMajorRoad then some d else acc.nearestMajorRoad
        | none => acc.nearestMajorRoad
      else acc.nearestMajorRoad
    envLoop rest { greenFeatures := green, industrialFeatures := industrial,
                   nearestMajorRoad := road }

/-- The score computed from the three counters (the part after `// Calculate score`). -/
def envScoreOf (d : EnvDetails) : ℤ :=
  let greenNormalized : ℚ := min 1 ((d.greenFeatures : ℚ) / 8)
  let industrialPresent : Bool := decide (d.industrialFeatures > 0)
  let roadNormalized : ℚ :=
    match d.nearestMajorRoad with
    | none => 1
    | some dist => min 1 (dist / (MAX_RADIUS : ℚ))
  let envScoreRaw : ℚ :=
    greenNormalized * (6 / 10) + roadNormalized * (25 / 100) +
      (if industrialPresent then 0 else 1) * (15 / 100)
  jsRound (envScoreRaw * 100)

/-- The body of the `try` block of `calculateEnvironmentScore`. -/
def environmentBody (o : Outcome OverpassData) : Except String EnvResult :=
  match o with
  | .failure => .error "request failed"
  | .response .null => .error "TypeError"
  | .response .noElements =>
    let d : EnvDetails := { greenFeatures := 0, industrialFeatures := 0, nearestMajorRoad := none }
    .ok { score := envScoreOf d, details := d }
  | .response (.elements els) =>
    match envLoop els { greenFeatures := 0, industrialFeatures := 0, nearestMajorRoad := none } with
    | .error err => .error err
    | .ok d => .ok { score := envScoreOf d, details := d }

def calculateEnvironmentScore (lat lng : Coord) (o : Outcome OverpassData) :
    Except String EnvResult × List ExternalCall :=
  (tryCatch (environmentBody o) (fun _ =>
      .ok { score := 50,
            details := { greenFeatures := 0, industrialFeatures := 0,
                         nearestMajorRoad := none } }),
   [ExternalCall.overpassEnvironment MAX_RADIUS lat lng])

/-! ### Safety -/

structure SafetyDetails where
  policeStations : ℕ
  /-- `none` is `Infinity`. -/
  nearestPoliceDistance : Option ℚ
  cctvCameras : ℕ
  nightlifeSpots : ℕ
  deriving DecidableEq, Repr

structure SafetyResult where
  score : ℤ
  details : SafetyDetails
  deriving DecidableEq, Repr

/-- The test that counts an element as a nightlife venue. -/
def isNightlife (tags : Tags) : Bool :=
  tags.amenity == some "bar" || tags.amenity == some "nightclub" ||
    tags.amenity == some "pub" || tags.shop == some "alcohol"

/-- The `for (const el of data.elements)` loop of `calculateSafetyScore`. -/
def safetyLoop : List (Option Element) → SafetyDetails → Except String SafetyDetails
  | [], acc => .ok acc
  | none :: _, _ => .error "TypeError"
  | some el :: rest, acc =>
    let isPolice := el.tags.amenity == some "police"
    let police := if isPolice then acc.policeStations + 1 else acc.policeStations
    let nearest :=
      if isPolice then
        match coordDist el with
        | some d => if ltMin d acc.nearestPoliceDistance then some d
                    else acc.nearestPoliceDistance
        | none => acc.nearestPoliceDistance
      else acc.nearestPoliceDistance
    let cctv := if el.tags.surveillance == some "camera" then acc.cctvCameras + 1
                else acc.cctvCameras
    let nightlife := if isNightlife el.tags then acc.nightlifeSpots + 1 else acc.nightlifeSpots
    safetyLoop rest { policeStations := police, nearestPoliceDistance := nearest,
                      cctvCameras := cctv, nightlifeSpots := nightlife }

/-- The value of `safetyRaw` before `Math.max(0, Math.min(1, safetyRaw))`. -/
def safetyRawOf (d : SafetyDetails) : ℚ :=
  let policeProxNorm : ℚ :=
    match d.nearestPoliceDistance with
    | none => 0
    | some dist => max 0 (1 - min dist (MAX_RADIUS : ℚ) / (MAX_RADIUS : ℚ))
  let policeCountNorm : ℚ := min 1 ((d.policeStations : ℚ) / 3)
  let cctvNorm : ℚ := min 1 ((d.cctvCameras : ℚ) / 5)
  let nightlifeNorm : ℚ := min 1 ((d.nightlifeSpots : ℚ) / 5)
  0 + policeProxNorm * (4 / 10) + policeCountNorm * (2 / 10) + cctvNorm * (15 / 100)
    + (1 / 2) * (15 / 100) - nightlifeNorm * (1 / 10)

/-- The score computed from the counters (the part after `// Calculate score`). -/
def safetyScoreOf (d : SafetyDetails) : ℤ :=
  jsRound (max 0 (min 1 (safetyRawOf d)) * 100)

/-- The body of the `try` block of `calculateSafetyScore`. -/
def safetyBody (o : Outcome OverpassData) : Except String SafetyResult :=
  let start : SafetyDetails :=
    { policeStations := 0, nearestPoliceDistance := none, cctvCameras := 0, nightlifeSpots := 0 }
  match o with
  | .failure => .error "request failed"
  | .response .null => .error "TypeError"
  | .response .noElements => .ok { score := safetyScoreOf start, details := start }
  | .response (.elements els) =>
    match safetyLoop els start with
    | .error err => .error err
    | .ok d => .ok { score := safetyScoreOf d, details := d }

def calculateSafetyScore (lat lng : Coord) (o : Outcome OverpassData) :
    Except String SafetyResult × List ExternalCall :=
  (tryCatch (safetyBody o) (fun _ =>
      .ok { score := 50,
            details := { policeStations := 0, nearestPoliceDistance := none,
                         cctvCameras := 0, nightlifeSpots := 0 } }),
   [ExternalCall.overpassSafety MAX_RADIUS lat lng])

/-! ### Pollution -/

structure PollutionDetails where
  pm25Value : Option ℚ
  dataSource : String
  deriving DecidableEq, Repr

structure PollutionResult where
  score : ℤ
  details : PollutionDetails
  deriving DecidableEq, Repr

/-- `loc.measurements.find(x => x.parameter === 'pm25')`; a `null` entry met
before a match makes the callback throw. -/
def findPm25 : List (Option Measurement) → Except String (Option Measurement)
  | [] => .ok none
  | none :: _ => .error "TypeError"
  | some m :: rest => if m.parameter = "pm25" then .ok (some m) else findPm25 rest

/-- The `for (const loc of data.results)` loop: the value of `pm25Value` after
it (`none` is `null`). -/
def findReading : List (Option AQLocation) → Except String (Option ℚ)
  | [] => .ok none
  | none :: rest => findReading rest
  | some loc :: rest =>
    match loc.measurements with
    | none => findReading rest
    | some [] => findReading rest
    | some (x :: xs) =>
      match findPm25 (x :: xs) with
      | .error err => .error err
      | .ok (some m) =>
        match m.value with
        | some v => .ok (some v)
        | none => findReading rest
      | .ok none => findReading rest

/-- The value of `pm25Value` read off `response.data`. -/
def readPm25 (data : AQData) : Except String (Option ℚ) :=
  match data with
  | .null => .ok none
  | .noResults => .ok none
  | .results locs => findReading locs

/-- The score of a measured reading: `capped = Math.max(0, Math.min(250, pm25Value))`,
`Math.round((1 - capped / 250) * 100)`. -/
def measuredPollutionScore (pm25Value : ℚ) : ℤ :=
  let capped : ℚ := max 0 (min 250 pm25Value)
  jsRound ((1 - capped / 250) * 100)

/-- The body of the `try` block of `calculatePollutionScore`, with the
requests it issues. -/
def pollutionBody (lat lng : Coord) (aq : Outcome AQData) (envRetry : Outcome OverpassData) :
    Except String PollutionResult × List ExternalCall :=
  let radiusForOpenAQ : ℕ := min 50000 (MAX_RADIUS * 10)
  let call := ExternalCall.openAQ radiusForOpenAQ lat lng
  match aq with
  | .failure => (.error "request failed", [call])
  | .response data =>
    match readPm25 data with
    | .error err => (.error err, [call])
    | .ok (some pm25Value) =>
      (.ok { score := measuredPollutionScore pm25Value,
             details := { pm25Value := some pm25Value, dataSource := "measured" } }, [call])
    | .ok none =>
      let env := calculateEnvironmentScore lat lng envRetry
      match env.1 with
      | .error err => (.error err, call :: env.2)
      | .ok envResult =>
        (.ok { score := max 0 (100 - envResult.score),
               details := { pm25Value := none, dataSource := "estimated" } }, call :: env.2)

def calculatePollutionScore (lat lng : Coord) (aq : Outcome AQData)
    (envRetry : Outcome OverpassData) : Except String PollutionResult × List ExternalCall :=
  let body := pollutionBody lat lng aq envRetry
  (tryCatch body.1 (fun _ =>
      .ok { score := 50, details := { pm25Value := none, dataSource := "default" } }),
   body.2)

/-! ### Aggregation -/

/-- The characters of a string with the first space removed (`replace(' ', '')`). -/
def removeFirstSpace : List Char → List Char
  | [] => []
  | c :: cs => if c = ' ' then cs else c :: removeFirstSpace cs

/-- The key under which a category is stored:
`detail.category.toLowerCase().replace(' ', '')`. -/
def amenityKey (category : String) : String :=
  String.mk (removeFirstSpace (category.toList.map Char.toLower))

structure AmenityDetail where
  distance : Option ℚ
  found : Bool
  deriving DecidableEq, Repr

structure ScoreDetails where
  /-- The object `amenityDetails`, as its key/value pairs in insertion order. -/
  amenityDetails : List (String × AmenityDetail)
  environmentDetails : EnvDetails
  safetyDetails : SafetyDetails
  pollutionDetails : PollutionDetails
  deriving DecidableEq, Repr

/-- The object `scores` returned by `calculateAllScores`. -/
structure LocationScoreResult where
  amenityScore : ℤ
  environmentScore : ℤ
  safetyScore : ℤ
  pollutionScore : ℤ
  overallScore : ℤ
  scoreDetails : ScoreDetails
  scoresCalculatedAt : ℕ
  deriving DecidableEq, Repr

/-- The part of `calculateAllScores` after `Promise.all` has resolved. -/
def combineScores (amenityResult : AmenityResult) (environmentResult : EnvResult)
    (safetyResult : SafetyResult) (pollutionResult : PollutionResult) (now : ℕ) :
    LocationScoreResult :=
  let overallScore : ℤ :=
    jsRound ((amenityResult.score : ℚ) * (3 / 10) + (environmentResult.score : ℚ) * (25 / 100) +
      (safetyResult.score : ℚ) * (25 / 100) + (pollutionResult.score : ℚ) * (2 / 10))
  let amenityDetails := amenityResult.details.map (fun detail =>
    (amenityKey detail.category,
     ({ distance := detail.distance, found := detail.found } : AmenityDetail)))
  { amenityScore := amenityResult.score
    environmentScore := environmentResult.score
    safetyScore := safetyResult.score
    pollutionScore := pollutionResult.score
    overallScore := overallScore
    scoreDetails :=
      { amenityDetails := amenityDetails
        environmentDetails := environmentResult.details
        safetyDetails := safetyResult.details
        pollutionDetails := pollutionResult.details }
    scoresCalculatedAt := now }

/-- `calculateAllScores(lat, lng)`: the four sub-scorers are started on the
coordinates as given, `Promise.all` rejects when one of them rejects and the
outer `catch` rethrows. The requests are listed scorer by scorer (their
interleaving in time is not modelled). `now` is the value of `new Date()`. -/
def calculateAllScores (lat lng : Coord) (w : World) (now : ℕ) :
    Except String LocationScoreResult × List ExternalCall :=
  let amenity := calculateAmenityScore lat lng w.amenity
  let environment := calculateEnvironmentScore lat lng w.environment
  let safety := calculateSafetyScore lat lng w.safety
  let pollution := calculatePollutionScore lat lng w.airQuality w.environmentRetry
  let calls := amenity.2 ++ environment.2 ++ safety.2 ++ pollution.2
  match amenity.1, environment.1, safety.1, pollution.1 with
  | .ok amenityResult, .ok environmentResult, .ok safetyResult, .ok pollutionResult =>
    (.ok (combineScores amenityResult environmentResult safetyResult pollutionResult now), calls)
  | .error err, _, _, _ => (.error err, calls)
  | _, .error err, _, _ => (.error err, calls)
  | _, _, .error err, _ => (.error err, calls)
  | _, _, _, .error err => (.error err, calls)

/-- The block `// Handle location coordinates and scores` of `createListing`
in `controllers/listings.js`. `coordinates` is `none` when the form carries no
coordinates field, otherwise the components after
`split(',').map(c => parseFloat(c.trim()))`, in the order `[longitude, latitude]`.
The result is `listingData.locationScores` (`none` when it is not set). -/
def createListingScores (coordinates : Option (List Coord)) (w : World) (now : ℕ) :
    Option LocationScoreResult × List ExternalCall :=
  match coordinates with
  | some [some c0, some c1] =>
    let r := calculateAllScores (some c1) (some c0) w now
    match r.1 with
    | .ok scores => (some scores, r.2)
    | .error _ => (none, r.2)
  | _ => (none, [])

/-- Every distance carried by the elements is non-negative, as every value of
`haversine` is (`R * 2 * atan2(sqrt a, sqrt (1 - a))` with a non-negative first
argument of `atan2`). -/
def elementsNonneg (els : List (Option Element)) : Bool :=
  els.all (fun e =>
    match e with
    | none => true
    | some el =>
      match coordDist el with
      | none => true
      | some d => decide (0 ≤ d))

/-- The distances in an Overpass answer are non-negative. -/
def answerNonneg (o : Outcome OverpassData) : Bool :=
  match o with
  | .response (.elements els) => elementsNonneg els
  | _ => true

/-- The distances in all Overpass answers of a run are non-negative. -/
def World.distancesNonneg (w : World) : Bool :=
  getAmenityCategories.all (fun cat => answerNonneg (w.amenity cat.name)) &&
    answerNonneg w.environment && answerNonneg w.safety && answerNonneg w.environmentRetry

/-! ## The document store

The listings, favorites and users the recommendation service reads. The store
and its query language are a collaborator of the service; what follows is the
part of their behaviour the service relies on. -/

structure Listing where
  /-- The string form of the document identifier (`_id.toString()`). -/
  _id : String
  status : String
  propertyType : String
  /-- `address.city`, `none` when absent. -/
  city : Option String
  /-- `price.amount`. -/
  price : ℚ
  featured : Bool
  views : ℕ
  createdAt : ℕ
  /-- `locationScores.overallScore`, `none` when `null`. -/
  overallScore : Option ℚ
  /-- `bedrooms`, `none` when absent. -/
  bedrooms : Option ℚ := none
  /-- `bathrooms`, `none` when absent. -/
  bathrooms : Option ℚ := none
  deriving DecidableEq, Repr

structure Favorite where
  user : String
  /-- The identifier of the favorited listing. -/
  property : String
  addedAt : ℕ
  deriving DecidableEq, Repr

structure Bounds where
  min : ℚ := 0
  max : ℚ := 0
  deriving DecidableEq, Repr

/-- `user.propertyPreferences`. -/
structure PropertyPreferences where
  preferredTypes : List String := []
  preferredLocations : List String := []
  budgetRange : Bounds := {}
  bedrooms : Bounds := {}
  bathrooms : Bounds := {}
  deriving DecidableEq, Repr

structure User where
  _id : String
  propertyPreferences : Option PropertyPreferences
  deriving DecidableEq, Repr

structure Db where
  listings : List Listing
  favorites : List Favorite
  users : List User
  deriving Repr

/-- One alternative of a `$or` clause. -/
inductive Condition where
  /-- `{ propertyType: { $in: types } }`. -/
  | propertyTypeIn (types : List String)
  /-- `{ 'address.city': { $in: cities } }`. -/
  | cityIn (cities : List String)
  /-- `{ 'price.amount': { $gte: gte, $lte: lte } }`. -/
  | priceBetween (gte lte : ℚ)
  deriving DecidableEq, Repr

/-- A filter document passed to `Listing.find`; `none` is an absent clause. -/
structure ListingQuery where
  status : String
  /-- `_id: { $nin: ... }`. -/
  idNin : Option (List String) := none
  /-- `$or: [...]`. -/
  orConditions : Option (List Condition) := none
  /-- `'address.city': { $regex: ..., $options: 'i' }`. -/
  cityRegex : Option String := none
  /-- `'locationScores.overallScore': { $gte: ... }`. -/
  overallScoreGte : Option ℚ := none
  deriving DecidableEq, Repr

/-- A listing satisfies one alternative of a `$or` clause. -/
def Condition.holds (c : Condition) (l : Listing) : Bool :=
  match c with
  | .propertyTypeIn types => decide (l.propertyType ∈ types)
  | .cityIn cities =>
    match l.city with
    | some city => decide (city ∈ cities)
    | none => false
  | .priceBetween gte lte => decide (gte ≤ l.price) && decide (l.price ≤ lte)

/-- Case-insensitive search of a literal pattern in a text (a `$regex` whose
pattern has no metacharacter, with `$options: 'i'`). -/
def matchesIgnoreCase (pattern text : String) : Bool :=
  containsChars (pattern.toList.map Char.toLower) (text.toList.map Char.toLower)

/-- A listing is admitted by a filter document: every clause present holds. -/
def ListingQuery.admits (q : ListingQuery) (l : Listing) : Bool :=
  decide (l.status = q.status) &&
  (match q.idNin with
   | none => true
   | some ids => decide (l._id ∉ ids)) &&
  (match q.orConditions with
   | none => true
   | some conds => conds.any (fun c => c.holds l)) &&
  (match q.cityRegex with
   | none => true
   | some pattern =>
     match l.city with
     | some city => matchesIgnoreCase pattern city
     | none => false) &&
  (match q.overallScoreGte with
   | none => true
   | some bound =>
     match l.overallScore with
     | some s => decide (bound ≤ s)
     | none => false)

/-- A key of a `.sort({ key: -1, ... })` specification (all keys are used
descending). The key `'inquiries.length'` of the source names no stored field
(`inquiries` is an array of sub-documents without a `length` field) and orders
nothing; it is left out. -/
inductive SortKey where
  | featured
  | views
  | createdAt
  | overallScore
  deriving DecidableEq, Repr

/-- Comparison of two listings on one key; an absent score is the smallest. -/
def SortKey.compare (k : SortKey) (a b : Listing) : Ordering :=
  match k with
  | .featured => Ord.compare a.featured.toNat b.featured.toNat
  | .views => Ord.compare a.views b.views
  | .createdAt => Ord.compare a.createdAt b.createdAt
  | .overallScore =>
    match a.overallScore, b.overallScore with
    | none, none => .eq
    | none, some _ => .lt
    | some _, none => .gt
    | some x, some y => if x < y then .lt else if y < x then .gt else .eq

/-- `a` may stand before `b` under the descending keys, compared in order. -/
def sortsBefore : List SortKey → Listing → Listing → Bool
  | [], _, _ => true
  | k :: ks, a, b =>
    match k.compare a b with
    | .gt => true
    | .lt => false
    | .eq => sortsBefore ks a b

/-- `.limit(n)` of the store: `0` is no limit. -/
def mongoLimit {α : Type} (n : ℕ) (l : List α) : List α :=
  if n = 0 then l else l.take n

/-- `Listing.find(query).sort(keys).limit(limit)`. -/
def findListings (db : Db) (query : ListingQuery) (keys : List SortKey) (limit : ℕ) :
    List Listing :=
  mongoLimit limit
    ((db.listings.filter (fun l => query.admits l)).insertionSort
      (fun a b => sortsBefore keys a b = true))

/-- `Favorite.find({ user: userId }).sort({ addedAt: -1 }).limit(limit)`. -/
def findFavorites (db : Db) (userId : String) (limit : ℕ) : List Favorite :=
  mongoLimit limit
    ((db.favorites.filter (fun f => decide (f.user = userId))).insertionSort
      (fun a b => b.addedAt ≤ a.addedAt))

/-- `.populate('property')` on one favorite: the listing document, `none`
(`null`) when it no longer exists. -/
def populate (db : Db) (f : Favorite) : Option Listing :=
  db.listings.find? (fun l => decide (l._id = f.property))

/-- `User.findById(userId)`. -/
def findUserById (db : Db) (userId : String) : Option User :=
  db.users.find? (fun u => decide (u._id = userId))

/-! ## RecommendationService -/

/-- `getPopularListings(limit, excludeIds)`; the `$nin` clause is added only
for a non-empty `excludeIds`. -/
def getPopularListings (db : Db) (limit : ℕ) (excludeIds : List String) : List Listing :=
  let query : ListingQuery :=
    { status := "active", idNin := if excludeIds.length > 0 then some excludeIds else none }
  findListings db query [.featured, .views, .createdAt] limit

/-- `[...new Set(values)]`: the distinct values in order of first occurrence. -/
def uniqueValues : List String → List String
  | [] => []
  | x :: xs => x :: (uniqueValues xs).filter (fun y => decide (y ≠ x))

/-- `userFavorites.map(f => f.property)` after `populate`: reading a field of
a `null` property throws. -/
def favoriteProperties (db : Db) : List Favorite → Except String (List Listing)
  | [] => .ok []
  | f :: fs =>
    match populate db f with
    | none => .error "TypeError"
    | some l =>
      match favoriteProperties db fs with
      | .error err => .error err
      | .ok ls => .ok (l :: ls)

/-- `favoriteTypes` of `getSimilarToListings`. -/
def favoriteTypes (properties : List Listing) : List String :=
  uniqueValues (properties.map (fun p => p.propertyType))

/-- `favoriteCities` of `getSimilarToListings`; `filter(Boolean)` drops an
absent and an empty city. -/
def favoriteCities (properties : List Listing) : List String :=
  uniqueValues (properties.filterMap (fun p =>
    match p.city with
    | some c => if c = "" then none else some c
    | none => none))

/-- `avgPrice` of `getSimilarToListings`. -/
def avgPrice (properties : List Listing) : ℚ :=
  (properties.foldl (fun sum p => sum + p.price) 0) / (properties.length : ℚ)

/-- The filter document built by `getSimilarToListings` from the populated
properties of the favorites it loaded. -/
def similarQuery (properties : List Listing) : ListingQuery :=
  let types := favoriteTypes properties
  let cities := favoriteCities properties
  let avg := avgPrice properties
  let c1 : List Condition := if types.length > 0 then [.propertyTypeIn types] else []
  let c2 : List Condition := if cities.length > 0 then [.cityIn cities] else []
  let c3 : List Condition :=
    if avg > 0 then
      let priceRange := avg * (3 / 10)
      [.priceBetween (avg - priceRange) (avg + priceRange)]
    else []
  let similarityConditions := c1 ++ c2 ++ c3
  { status := "active"
    idNin := some (properties.map (fun p => p._id))
    orConditions := if similarityConditions.length > 0 then some similarityConditions else none }

/-- The body of the `try` block of `getSimilarToListings`. -/
def similarBody (db : Db) (userId : String) (limit : ℕ) : Except String (List Listing) :=
  let userFavorites := findFavorites db userId 5
  if userFavorites.length = 0 then .ok (getPopularListings db limit [])
  else
    match favoriteProperties db userFavorites with
    | .error err => .error err
    | .ok properties => .ok (findListings db (similarQuery properties) [.featured, .views] limit)

def getSimilarToListings (db : Db) (userId : String) (limit : ℕ) : List Listing :=
  match similarBody db userId limit with
  | .ok ls => ls
  | .error _ => getPopularListings db limit []

def getLocationBasedRecommendations (db : Db) (city : String) (limit : ℕ) : List Listing :=
  findListings db { status := "active", cityRegex := some city }
    [.featured, .views, .createdAt] limit

def getHighLocationScoreListings (db : Db) (limit : ℕ) : List Listing :=
  findListings db { status := "active", overallScoreGte := some 75 }
    [.overallScore, .featured, .createdAt] limit

/-- A listing spread into an object with `recommendationType` and `score`. -/
structure Candidate where
  listing : Listing
  recommendationType : String
  score : ℕ
  deriving DecidableEq, Repr

/-- The `filter` callback of `deduplicateRecommendations` run over the list,
`seen` being the set of identifiers met so far. -/
def dedupFilter : List Candidate → List String → List Candidate
  | [], _ => []
  | rec :: rest, seen =>
    if rec.listing._id ∈ seen then dedupFilter rest seen
    else rec :: dedupFilter rest (rec.listing._id :: seen)

def deduplicateRecommendations (recommendations : List Candidate) : List Candidate :=
  dedupFilter recommendations []

/-- `.sort((a, b) => b.score - a.score)`: a stable sort, higher score first. -/
def sortByScore (recs : List Candidate) : List Candidate :=
  recs.insertionSort (fun a b => b.score ≤ a.score)

/-- The part of `getBuyerRecommendations` after the four generators have
answered: tagging, deduplication, sorting and `slice(0, limit)`. -/
def blendRecommendations (similarToListings locationBasedRecs popularListings
    highScoreListings : List Listing) (limit : ℕ) : List Candidate :=
  let allRecommendations :=
    similarToListings.map (fun rec =>
      ({ listing := rec, recommendationType := "similar_to_favorites", score := 95 } : Candidate))
    ++ locationBasedRecs.map (fun rec =>
      ({ listing := rec, recommendationType := "location_match", score := 85 } : Candidate))
    ++ popularListings.map (fun rec =>
      ({ listing := rec, recommendationType := "trending", score := 75 } : Candidate))
    ++ highScoreListings.map (fun rec =>
      ({ listing := rec, recommendationType := "high_location_score", score := 90 } : Candidate))
  let uniqueRecommendations := deduplicateRecommendations allRecommendations
  (sortByScore uniqueRecommendations).take limit

/-- `Math.ceil(limit * share)` for a share given in tenths. -/
def quota (limit tenths : ℕ) : ℕ := ⌈(limit : ℚ) * ((tenths : ℚ) / 10)⌉₊

/-- `userPreferences.preferredLocations?.[0] || 'Pune'`. -/
def preferredCity (userPreferences : Option PropertyPreferences) : String :=
  match userPreferences with
  | none => "Pune"
  | some prefs =>
    match prefs.preferredLocations with
    | [] => "Pune"
    | c :: _ => if c = "" then "Pune" else c

/-- What `getBuyerRecommendations` returns: the ranked candidates of its
normal path, or the plain popular listings of its `catch` block. -/
inductive BuyerRecommendations where
  | ranked (candidates : List Candidate)
  | popular (listings : List Listing)
  deriving DecidableEq, Repr

/-- The body of the `try` block of `getBuyerRecommendations`; reading
`user.propertyPreferences` of a user that does not exist throws. -/
def buyerBody (db : Db) (userId : String) (limit : ℕ) : Except String (List Candidate) :=
  match findUserById db userId with
  | none => .error "TypeError"
  | some user =>
    let userPreferences := user.propertyPreferences
    let similarToListings := getSimilarToListings db userId (quota limit 4)
    let locationBasedRecs :=
      getLocationBasedRecommendations db (preferredCity userPreferences) (quota limit 3)
    let popularListings := getPopularListings db (quota limit 2) []
    let highScoreListings := getHighLocationScoreListings db (quota limit 1)
    .ok (blendRecommendations similarToListings locationBasedRecs popularListings
      highScoreListings limit)

def getBuyerRecommendations (db : Db) (userId : String) (limit : ℕ) : BuyerRecommendations :=
  match buyerBody db userId limit with
  | .ok candidates => .ranked candidates
  | .error _ => .popular (getPopularListings db limit [])

/-! ## Sample data -/

/-- An OpenAQ answer with one station reporting a PM2.5 of 0. -/
def cleanAirAnswer : AQData :=
  .results [some { measurements := some [some { parameter := "pm25", value := some 0 }] }]


/-- The distances of the elements a nearest-feature loop can use: those of
the entries that are not `null` and carry coordinates. -/
def usableDistances (els : List (Option Element)) : List ℚ :=
  els.filterMap (fun e => e.bind coordDist)

/-- The ratio `r_c` of a category, read off its entry in `results`:
`max(0, 1 - min(d, 2000)/2000)` when a nearest feature at distance `d` was
found, `0` otherwise. -/
def categoryRatio (r : CategoryResult) : ℚ :=
  match r.found, r.distance with
  | true, some d => max 0 (1 - min d 2000 / 2000)
  | _, _ => 0

/-- Overpass answers with one hospital, a node 500 m away, and nothing else. -/
def hospitalOnly (name : String) : Outcome OverpassData :=
  if name = "Hospital" then .response (.elements [some { isNode := true, nodeDist := some 500 }])
  else .response (.elements [])


/-- Every external request of a run fails. -/
def allQueriesFail : World :=
  { amenity := fun _ => .failure
    environment := .failure
    safety := .failure
    airQuality := .failure
    environmentRetry := .failure }

/-- A run with one hospital 500 m away, a park and a trunk road 300 m away, a
police station 1200 m away and a PM2.5 reading of 0. -/
def sampleWorld : World :=
  { amenity := hospitalOnly
    environment := .response (.elements
      [some { isNode := false, center := some (some 800), tags := { leisure := some "park" } },
       some { isNode := true, nodeDist := some 300, tags := { highway := some "trunk" } }])
    safety := .response (.elements
      [some { isNode := true, nodeDist := some 1200, tags := { amenity := some "police" } }])
    airQuality := .response cleanAirAnswer
    environmentRetry := .failure }


/-- An active, unfeatured listing without views and without location scores. -/
def plainListing (id propertyType city : String) (price : ℚ) (createdAt : ℕ) : Listing :=
  { _id := id, status := "active", propertyType := propertyType, city := some city,
    price := price, featured := false, views := 0, createdAt := createdAt,
    overallScore := none }

/-- A store with three active listings and a user without favorites and
without stored preferences: a featured flat in Mumbai, a flat in Pune and a
house in Delhi with an overall score of 80. -/
def newUserDb : Db :=
  { listings :=
      [ { plainListing "A" "apartment" "Mumbai" 100 3 with featured := true },
        plainListing "P" "apartment" "Pune" 100 2,
        { plainListing "H" "house" "Delhi" 100 1 with overallScore := some 80 } ]
    favorites := []
    users := [{ _id := "u1", propertyPreferences := none }] }

/-- Five apartments in Pune whose prices average 5,000,000. -/
def puneApartments : List Listing :=
  [ plainListing "F1" "apartment" "Pune" 4000000 1,
    plainListing "F2" "apartment" "Pune" 4500000 2,
    plainListing "F3" "apartment" "Pune" 5000000 3,
    plainListing "F4" "apartment" "Pune" 5500000 4,
    plainListing "F5" "apartment" "Pune" 6000000 5 ]

/-- A villa in Mumbai priced at 5,000,000. -/
def mumbaiVilla : Listing := plainListing "V" "villa" "Mumbai" 5000000 6

/-- A store in which user `u1` has favorited the five `puneApartments`. -/
def fiveFavoritesDb : Db :=
  { listings := puneApartments ++ [mumbaiVilla]
    favorites :=
      [ { user := "u1", property := "F1", addedAt := 11 },
        { user := "u1", property := "F2", addedAt := 12 },
        { user := "u1", property := "F3", addedAt := 13 },
        { user := "u1", property := "F4", addedAt := 14 },
        { user := "u1", property := "F5", addedAt := 15 } ]
    users := [{ _id := "u1", propertyPreferences := none }] }

/-- An apartment in Pune that user `u1` favorited before the five others. -/
def oldFavorite : Listing := plainListing "F0" "apartment" "Pune" 5000000 0

/-- A store in which user `u1` has six favorites, `oldFavorite` the oldest. -/
def sixFavoritesDb : Db :=
  { listings := oldFavorite :: fiveFavoritesDb.listings
    favorites := { user := "u1", property := "F0", addedAt := 10 } :: fiveFavoritesDb.favorites
    users := fiveFavoritesDb.users }


/-! ## Vocabulary of the environment and safety formulas -/

/-- The number of entries of an answer that satisfy a test on their tags. -/
def countTagged (test : Tags → Bool) (els : List (Option Element)) : ℕ :=
  els.countP (fun e =>
    match e with
    | some el => test el.tags
    | none => false)

/-- The distances of the entries that satisfy a test on their tags and carry
usable coordinates. -/
def taggedDistances (test : Tags → Bool) (els : List (Option Element)) : List ℚ :=
  els.filterMap (fun e =>
    match e with
    | some el => if test el.tags then coordDist el else none
    | none => none)

/-- `roadNormalized` of the claim: 1 when no major road with coordinates was
returned, `min(1, nearestRoadDistance / 2000)` otherwise. -/
def roadNormalized (nearestRoadDistance : Option ℚ) : ℚ :=
  match nearestRoadDistance with
  | none => 1
  | some d => min 1 (d / 2000)

/-- `policeProx` of the claim: `1 - min(d, 2000)/2000` for the nearest police
feature at distance `d`, 0 when none was located. -/
def policeProx (nearestPoliceDistance : Option ℚ) : ℚ :=
  match nearestPoliceDistance with
  | none => 0
  | some d => 1 - min d 2000 / 2000

/-- `clamp01` of the claim: clamping to the interval from 0 to 1. -/
def clamp01 (x : ℚ) : ℚ := max 0 (min 1 x)

/-- The state `m` of a nearest-distance accumulator that started at `acc`
and has met the distances `ds`: it is the start value or one of the distances,
and it is below the start value and below every distance met. -/
def LeastFrom (ds : List ℚ) (acc m : Option ℚ) : Prop :=
  (m = acc ∨ ∃ d ∈ ds, m = some d) ∧
  (∀ d ∈ ds, ∃ x, m = some x ∧ x ≤ d) ∧
  (∀ a, acc = some a → ∃ x, m = some x ∧ x ≤ a)

/-- The test on tags that counts an element as a police facility. -/
def isPolice (tags : Tags) : Bool := tags.amenity == some "police"

/-- The test on tags that counts an element as a surveillance camera. -/
def isCamera (tags : Tags) : Bool := tags.surveillance == some "camera"

/-- Overpass answers with one hospital, a node 1500 m away, and nothing else. -/
def hospitalFarther (name : String) : Outcome OverpassData :=
  if name = "Hospital" then .response (.elements [some { isNode := true, nodeDist := some 1500 }])
  else .response (.elements [])

/-- The array `allRecommendations` of `getBuyerRecommendations`: the outputs
of the four generators, tagged, in the order similar, location, popular,
high score. -/
def allRecommendations (similarToListings locationBasedRecs popularListings
    highScoreListings : List Listing) : List Candidate :=
  similarToListings.map (fun rec =>
    ({ listing := rec, recommendationType := "similar_to_favorites", score := 95 } : Candidate))
  ++ locationBasedRecs.map (fun rec =>
    ({ listing := rec, recommendationType := "location_match", score := 85 } : Candidate))
  ++ popularListings.map (fun rec =>
    ({ listing := rec, recommendationType := "trending", score := 75 } : Candidate))
  ++ highScoreListings.map (fun rec =>
    ({ listing := rec, recommendationType := "high_location_score", score := 90 } : Candidate))

/-- The subsequence made of the first occurrence of each listing identifier,
in input order. -/
def firstOccurrences : List Candidate → List Candidate
  | [] => []
  | c :: cs => c :: (firstOccurrences cs).filter (fun x => decide (x.listing._id ≠ c.listing._id))

/-- The place of a tag in the order of the fixed priors: similar (95), high
score (90), location (85), trending (75). -/
def tagRank (recommendationType : String) : ℕ :=
  if recommendationType = "similar_to_favorites" then 0
  else if recommendationType = "high_location_score" then 1
  else if recommendationType = "location_match" then 2
  else 3

/-! ## Preference updates -/

/-- `Listing.findById(listingId)`. -/
def findListingById (db : Db) (listingId : String) : Option Listing :=
  db.listings.find? (fun l => decide (l._id = listingId))

/-- `user.initializePreferences()`: the preferences of the user, created with
their defaults when absent. -/
def initializePreferences (user : User) : PropertyPreferences :=
  match user.propertyPreferences with
  | some prefs => prefs
  | none => {}

/-- The changes `updateUserPreferences` makes to `user.propertyPreferences`
between `initializePreferences()` and `findByIdAndUpdate`. A condition on a
listing field holds when the field is truthy: a non-empty string, a non-zero
number. -/
def updatedPreferences (prefs : PropertyPreferences) (listing : Listing) : PropertyPreferences :=
  let preferredTypes :=
    if listing.propertyType ≠ "" ∧ listing.propertyType ∉ prefs.preferredTypes then
      prefs.preferredTypes ++ [listing.propertyType]
    else prefs.preferredTypes
  let preferredLocations :=
    match listing.city with
    | some city =>
      if city ≠ "" ∧ city ∉ prefs.preferredLocations then prefs.preferredLocations ++ [city]
      else prefs.preferredLocations
    | none => prefs.preferredLocations
  let budgetRange : Bounds :=
    if listing.price ≠ 0 then
      let amount := listing.price
      { max := if prefs.budgetRange.max = 0 then amount else prefs.budgetRange.max
        min := if prefs.budgetRange.min = 0 then amount else prefs.budgetRange.min }
    else prefs.budgetRange
  let bedrooms : Bounds :=
    match listing.bedrooms with
    | some n => if n ≠ 0 ∧ prefs.bedrooms.max = 0 then { max := n, min := n } else prefs.bedrooms
    | none => prefs.bedrooms
  let bathrooms : Bounds :=
    match listing.bathrooms with
    | some n => if n ≠ 0 ∧ prefs.bathrooms.max = 0 then { max := n, min := n } else prefs.bathrooms
    | none => prefs.bathrooms
  { preferredTypes := preferredTypes
    preferredLocations := preferredLocations
    budgetRange := budgetRange
    bedrooms := bedrooms
    bathrooms := bathrooms }

/-- `User.findByIdAndUpdate(userId, { $set: { propertyPreferences } })` on the
stored users: the first user with the identifier is updated. -/
def setPreferences (userId : String) (prefs : PropertyPreferences) : List User → List User
  | [] => []
  | u :: us =>
    if u._id = userId then { u with propertyPreferences := some prefs } :: us
    else u :: setPreferences userId prefs us

/-- `updateUserPreferences(userId, listingId)` as a change of the store; it
returns early when the listing or the user does not exist. -/
def updateUserPreferences (db : Db) (userId listingId : String) : Db :=
  match findListingById db listingId with
  | none => db
  | some listing =>
    match findUserById db userId with
    | none => db
    | some user =>
      { db with
        users := setPreferences userId
          (updatedPreferences (initializePreferences user) listing) db.users }

/-- A user whose stored bedroom bounds are a minimum of 2 and no maximum. -/
def minimumOnlyUser : User :=
  { _id := "u2", propertyPreferences := some { bedrooms := { min := 2, max := 0 } } }

/-- A three-bedroom flat in Pune. -/
def threeBedroomFlat : Listing :=
  { plainListing "B3" "apartment" "Pune" 5000000 7 with bedrooms := some 3 }

/-- A store holding `minimumOnlyUser` and `threeBedroomFlat`. -/
def minimumOnlyDb : Db :=
  { listings := [threeBedroomFlat], favorites := [], users := [minimumOnlyUser] }

/-! ## Further sample data -/

/-- An industrial site that also carries the tag `leisure=garden`; the
environment query returns it for its `landuse=industrial` tag. -/
def gardenOnIndustrialSite : Element :=
  { isNode := true, nodeDist := some 400,
    tags := { leisure := some "garden", landuse := some "industrial" } }

/-- Five bars and nothing else: an answer to the safety query. -/
def fiveBars : Outcome OverpassData :=
  .response (.elements (List.replicate 5
    (some { isNode := true, nodeDist := some 100, tags := { amenity := some "bar" } })))

/-- Three police stations at the scored coordinate itself and five cameras:
an answer to the safety query. -/
def wellGuarded : Outcome OverpassData :=
  .response (.elements
    (List.replicate 3
      (some { isNode := true, nodeDist := some 0, tags := { amenity := some "police" } }) ++
     List.replicate 5
      (some { isNode := true, nodeDist := some 50, tags := { surveillance := some "camera" } })))

/-! ## Listing controller -/

/-- The keys declared for `locationScores.scoreDetails.amenityDetails` in the
Listing schema (`models/listing.js`). -/
def amenityDetailsSchemaKeys : List String :=
  ["hospital", "school", "college", "mall", "pharmacy", "police", "busStop"]

/-- A value of the request body: absent, a JSON number, or a string. -/
inductive JsValue where
  | undefined
  | number (q : ℚ)
  | text (s : String)
  deriving DecidableEq, Repr

/-- Truthiness, as tested by `!latitude`: an absent value, the number 0 and
the empty string are falsy. -/
def JsValue.truthy (v : JsValue) : Bool :=
  match v with
  | .undefined => false
  | .number q => decide (q ≠ 0)
  | .text s => decide (s ≠ "")

/-- `parseFloat(v)`; `parse` is `parseFloat` on strings, `none` being `NaN`. -/
def JsValue.parseFloat (parse : String → Option ℚ) (v : JsValue) : Option ℚ :=
  match v with
  | .undefined => none
  | .number q => some q
  | .text s => parse s

/-- The answer of `calculateLocationScores`. -/
inductive ScoreResponse where
  /-- `res.status(400).json({ success: false, message })`. -/
  | badRequest (message : String)
  /-- `res.json({ success: true, scores })`. -/
  | success (scores : LocationScoreResult)
  /-- `res.status(500).json(...)` of the `catch` block. -/
  | serverError
  deriving DecidableEq, Repr

/-- `calculateLocationScores` of `controllers/listings.js`, with the external
requests it causes. -/
def calculateLocationScores (parse : String → Option ℚ) (latitude longitude : JsValue)
    (w : World) (now : ℕ) : ScoreResponse × List ExternalCall :=
  if !latitude.truthy || !longitude.truthy then
    (.badRequest "Latitude and longitude are required", [])
  else
    match latitude.parseFloat parse, longitude.parseFloat parse with
    | some lat, some lng =>
      if lat < -90 ∨ lat > 90 ∨ lng < -180 ∨ lng > 180 then
        (.badRequest "Invalid coordinates provided", [])
      else
        let r := calculateAllScores (some lat) (some lng) w now
        match r.1 with
        | .ok scores => (.success scores, r.2)
        | .error _ => (.serverError, r.2)
    | _, _ => (.badRequest "Invalid coordinates provided", [])

/-- The populated `owner` of a listing on the index and search pages. -/
structure Owner where
  isSpecialOwner : Bool
  deriving DecidableEq, Repr

/-- A listing as the comparator of the index and search pages reads it;
`createdAt` is the time value of `new Date(createdAt)`. -/
structure PageListing where
  owner : Option Owner
  featured : Bool
  createdAt : ℤ
  deriving DecidableEq, Repr

/-- `a.owner && a.owner.isSpecialOwner`, as a condition. -/
def PageListing.isSpecial (a : PageListing) : Bool :=
  match a.owner with
  | some o => o.isSpecialOwner
  | none => false

/-- The comparator passed to `sort` in `index` and `searchListings`; a
negative value puts `a` first. -/
def compareListings (a b : PageListing) : ℤ :=
  let aIsSpecial := a.isSpecial
  let bIsSpecial := b.isSpecial
  if aIsSpecial && bIsSpecial then b.createdAt - a.createdAt
  else if aIsSpecial && !bIsSpecial then -1
  else if !aIsSpecial && bIsSpecial then 1
  else if a.featured != b.featured then (b.featured.toNat : ℤ) - (a.featured.toNat : ℤ)
  else b.createdAt - a.createdAt

/-- `listings.sort(compareListings)`, a stable sort. -/
def sortListings (listings : List PageListing) : List PageListing :=
  listings.insertionSort (fun a b => compareListings a b ≤ 0)

/-- The order of the claim: lexicographic by special owner, featured and
creation time, each descending; `a` stands strictly before `b`. -/
def lexBefore (a b : PageListing) : Bool :=
  (a.isSpecial && !b.isSpecial) ||
  (a.isSpecial == b.isSpecial &&
    ((a.featured && !b.featured) ||
     (a.featured == b.featured && decide (b.createdAt < a.createdAt))))

/-- A featured listing of a special owner, created at time 1. -/
def olderFeatured : PageListing :=
  { owner := some { isSpecialOwner := true }, featured := true, createdAt := 1 }

/-- A listing of a special owner that is not featured, created at time 2. -/
def newerPlain : PageListing :=
  { owner := some { isSpecialOwner := true }, featured := false, createdAt := 2 }

/-! ## Double precision

The arithmetic of the four scorers in IEEE 754 binary64, as the engine performs
it: every `+`, `-`, `*`, `/` returns the double nearest to the exact result, a
tie going to the even significand. A double is carried as the rational it
denotes. `Math.min`, `Math.max` and `Math.round` are exact on doubles. Every
divisor in the code is a non-zero constant, and no operation of the scorers
reaches the overflow threshold `2 ^ 1024`, so neither `Infinity` nor `NaN`
occurs as a result. The values read from an answer are doubles; the functions
below are defined on all rationals and compute, on doubles, what the engine
computes. -/

/-- The position of the leading binary digit of `n` (`fuel` bounds the number
of halvings; `bitLog n n` is the integer part of the binary logarithm). -/
def bitLog : ℕ → ℕ → ℕ
  | 0, _ => 0
  | fuel + 1, n => if n < 2 then 0 else bitLog fuel (n / 2) + 1

/-- The binade of a non-zero rational: the `b` with `2 ^ b ≤ |x| < 2 ^ (b + 1)`. -/
def binade (x : ℚ) : ℤ :=
  let g : ℤ := (bitLog x.num.natAbs x.num.natAbs : ℤ) - (bitLog x.den x.den : ℤ)
  if (2 : ℚ) ^ g ≤ |x| then g else g - 1

/-- The integer nearest to `q`, a tie going to the even one. -/
def roundHalfEven (q : ℚ) : ℤ :=
  let f := ⌊q⌋
  if q - f < 1 / 2 then f
  else if 1 / 2 < q - f then f + 1
  else if f % 2 = 0 then f else f + 1

/-- The double nearest to `x` (round to nearest, ties to even): 53 significant
bits in the binade of `x`, multiples of `2 ^ (-1074)` in the subnormal range. -/
def toF64 (x : ℚ) : ℚ :=
  if x = 0 then 0
  else
    let e : ℤ := max (binade x - 52) (-1074)
    (roundHalfEven (x / (2 : ℚ) ^ e) : ℚ) * (2 : ℚ) ^ e

/-- The operator `+` on doubles. -/
def addF64 (a b : ℚ) : ℚ := toF64 (a + b)

/-- The operator `-` on doubles. -/
def subF64 (a b : ℚ) : ℚ := toF64 (a - b)

/-- The operator `*` on doubles. -/
def mulF64 (a b : ℚ) : ℚ := toF64 (a * b)

/-- The operator `/` on doubles. -/
def divF64 (a b : ℚ) : ℚ := toF64 (a / b)

/-! ### The scorers in double precision

The functions of `PropertyScoreService` with their arithmetic carried out in
doubles. The loops over the answer compare and count only, so they are the ones
above; the literals `0.3`, `0.6`, ... are the doubles nearest to them. -/

/-- `Math.max(0, 1 - Math.min(r.distance, MAX_RADIUS) / MAX_RADIUS)` in doubles. -/
def proximityRatioF64 (distance : ℚ) : ℚ :=
  max 0 (subF64 1 (divF64 (min distance (MAX_RADIUS : ℚ)) (MAX_RADIUS : ℚ)))

/-- One step of the loop `for (const r of results)`: `total += weight * ratio`. -/
def amenityStepF64 (weight : ℚ) (total : ℚ) (r : CategoryResult) : ℚ :=
  match r.found, r.distance with
  | true, some d => addF64 total (mulF64 weight (proximityRatioF64 d))
  | _, _ => total

/-- `calculateAmenityScore` with `weight` and `total` computed in doubles. -/
def calculateAmenityScoreF64 (lat lng : Coord) (answer : String → Outcome OverpassData) :
    Except String AmenityResult × List ExternalCall :=
  let categories := getAmenityCategories
  let results := categories.map (fun cat => amenityCategoryResult cat (answer cat.name))
  let weight : ℚ := divF64 100 (categories.length : ℚ)
  let total := results.foldl (amenityStepF64 weight) 0
  (.ok { score := jsRound total, details := results },
   categories.map (fun cat => ExternalCall.overpassAmenity cat.query MAX_RADIUS lat lng))

/-- The value of `envScoreRaw` in doubles:
`greenNormalized * W_GREEN + roadNormalized * W_ROAD + (industrialPresent ? 0 : 1) * W_INDUSTRY`. -/
def envRawOfF64 (d : EnvDetails) : ℚ :=
  let greenNormalized : ℚ := min 1 (divF64 (d.greenFeatures : ℚ) 8)
  let industrialPresent : Bool := decide (d.industrialFeatures > 0)
  let roadNormalized : ℚ :=
    match d.nearestMajorRoad with
    | none => 1
    | some dist => min 1 (divF64 dist (MAX_RADIUS : ℚ))
  addF64 (addF64 (mulF64 greenNormalized (toF64 (6 / 10))) (mulF64 roadNormalized (1 / 4)))
    (mulF64 (if industrialPresent then 0 else 1) (toF64 (15 / 100)))

/-- `Math.round(envScoreRaw * 100)` in doubles. -/
def envScoreOfF64 (d : EnvDetails) : ℤ :=
  jsRound (mulF64 (envRawOfF64 d) 100)

/-- The body of the `try` block of `calculateEnvironmentScore`, scored in doubles. -/
def environmentBodyF64 (o : Outcome OverpassData) : Except String EnvResult :=
  match o with
  | .failure => .error "request failed"
  | .response .null => .error "TypeError"
  | .response .noElements =>
    let d : EnvDetails := { greenFeatures := 0, industrialFeatures := 0, nearestMajorRoad := none }
    .ok { score := envScoreOfF64 d, details := d }
  | .response (.elements els) =>
    match envLoop els { greenFeatures := 0, industrialFeatures := 0, nearestMajorRoad := none } with
    | .error err => .error err
    | .ok d => .ok { score := envScoreOfF64 d, details := d }

def calculateEnvironmentScoreF64 (lat lng : Coord) (o : Outcome OverpassData) :
    Except String EnvResult × List ExternalCall :=
  (tryCatch (environmentBodyF64 o) (fun _ =>
      .ok { score := 50,
            details := { greenFeatures := 0, industrialFeatures := 0,
                         nearestMajorRoad := none } }),
   [ExternalCall.overpassEnvironment MAX_RADIUS lat lng])

/-- The value of `safetyRaw` before the clamp, accumulated in doubles by the
five statements `safetyRaw += ...` and `safetyRaw -= ...`. -/
def safetyRawOfF64 (d : SafetyDetails) : ℚ :=
  let policeProxNorm : ℚ :=
    match d.nearestPoliceDistance with
    | none => 0
    | some dist => max 0 (subF64 1 (divF64 (min dist (MAX_RADIUS : ℚ)) (MAX_RADIUS : ℚ)))
  let policeCountNorm : ℚ := min 1 (divF64 (d.policeStations : ℚ) 3)
  let cctvNorm : ℚ := min 1 (divF64 (d.cctvCameras : ℚ) 5)
  let nightlifeNorm : ℚ := min 1 (divF64 (d.nightlifeSpots : ℚ) 5)
  let s1 : ℚ := addF64 0 (mulF64 policeProxNorm (toF64 (4 / 10)))
  let s2 : ℚ := addF64 s1 (mulF64 policeCountNorm (toF64 (2 / 10)))
  let s3 : ℚ := addF64 s2 (mulF64 cctvNorm (toF64 (15 / 100)))
  let s4 : ℚ := addF64 s3 (mulF64 (1 / 2) (toF64 (15 / 100)))
  subF64 s4 (mulF64 nightlifeNorm (toF64 (1 / 10)))

/-- `Math.round(Math.max(0, Math.min(1, safetyRaw)) * 100)` in doubles. -/
def safetyScoreOfF64 (d : SafetyDetails) : ℤ :=
  jsRound (mulF64 (max 0 (min 1 (safetyRawOfF64 d))) 100)

/-- The body of the `try` block of `calculateSafetyScore`, scored in doubles. -/
def safetyBodyF64 (o : Outcome OverpassData) : Except String SafetyResult :=
  let start : SafetyDetails :=
    { policeStations := 0, nearestPoliceDistance := none, cctvCameras := 0, nightlifeSpots := 0 }
  match o with
  | .failure => .error "request failed"
  | .response .null => .error "TypeError"
  | .response .noElements => .ok { score := safetyScoreOfF64 start, details := start }
  | .response (.elements els) =>
    match safetyLoop els start with
    | .error err => .error err
    | .ok d => .ok { score := safetyScoreOfF64 d, details := d }

def calculateSafetyScoreF64 (lat lng : Coord) (o : Outcome OverpassData) :
    Except String SafetyResult × List ExternalCall :=
  (tryCatch (safetyBodyF64 o) (fun _ =>
      .ok { score := 50,
            details := { policeStations := 0, nearestPoliceDistance := none,
                         cctvCameras := 0, nightlifeSpots := 0 } }),
   [ExternalCall.overpassSafety MAX_RADIUS lat lng])

/-- The score of a measured reading in doubles:
`Math.round((1 - capped / 250) * 100)` with `capped = Math.max(0, Math.min(250, pm25Value))`. -/
def measuredPollutionScoreF64 (pm25Value : ℚ) : ℤ :=
  let capped : ℚ := max 0 (min 250 pm25Value)
  jsRound (mulF64 (subF64 1 (divF64 capped 250)) 100)

/-- The body of the `try` block of `calculatePollutionScore`, scored in doubles. -/
def pollutionBodyF64 (lat lng : Coord) (aq : Outcome AQData) (envRetry : Outcome OverpassData) :
    Except String PollutionResult × List ExternalCall :=
  let radiusForOpenAQ : ℕ := min 50000 (MAX_RADIUS * 10)
  let call := ExternalCall.openAQ radiusForOpenAQ lat lng
  match aq with
  | .failure => (.error "request failed", [call])
  | .response data =>
    match readPm25 data with
    | .error err => (.error err, [call])
    | .ok (some pm25Value) =>
      (.ok { score := measuredPollutionScoreF64 pm25Value,
             details := { pm25Value := some pm25Value, dataSource := "measured" } }, [call])
    | .ok none =>
      let env := calculateEnvironmentScoreF64 lat lng envRetry
      match env.1 with
      | .error err => (.error err, call :: env.2)
      | .ok envResult =>
        (.ok { score := max 0 (100 - envResult.score),
               details := { pm25Value := none, dataSource := "estimated" } }, call :: env.2)

def calculatePollutionScoreF64 (lat lng : Coord) (aq : Outcome AQData)
    (envRetry : Outcome OverpassData) : Except String PollutionResult × List ExternalCall :=
  let body := pollutionBodyF64 lat lng aq envRetry
  (tryCatch body.1 (fun _ =>
      .ok { score := 50, details := { pm25Value := none, dataSource := "default" } }),
   body.2)

/-- The weighted sum of `calculateAllScores` in doubles, evaluated from left to
right: `amenity * 0.3 + environment * 0.25 + safety * 0.25 + pollution * 0.2`. -/
def weightedSumF64 (amenity environment safety pollution : ℤ) : ℚ :=
  addF64 (addF64 (addF64 (mulF64 (amenity : ℚ) (toF64 (3 / 10)))
      (mulF64 (environment : ℚ) (1 / 4))) (mulF64 (safety : ℚ) (1 / 4)))
    (mulF64 (pollution : ℚ) (toF64 (2 / 10)))

/-- `overallScore`: `Math.round` of the weighted sum. -/
def overallScoreF64 (amenity environment safety pollution : ℤ) : ℤ :=
  jsRound (weightedSumF64 amenity environment safety pollution)

/-- The part of `calculateAllScores` after `Promise.all` has resolved, the
overall score computed in doubles. -/
def combineScoresF64 (amenityResult : AmenityResult) (environmentResult : EnvResult)
    (safetyResult : SafetyResult) (pollutionResult : PollutionResult) (now : ℕ) :
    LocationScoreResult :=
  let amenityDetails := amenityResult.details.map (fun detail =>
    (amenityKey detail.category,
     ({ distance := detail.distance, found := detail.found } : AmenityDetail)))
  { amenityScore := amenityResult.score
    environmentScore := environmentResult.score
    safetyScore := safetyResult.score
    pollutionScore := pollutionResult.score
    overallScore := overallScoreF64 amenityResult.score environmentResult.score
      safetyResult.score pollutionResult.score
    scoreDetails :=
      { amenityDetails := amenityDetails
        environmentDetails := environmentResult.details
        safetyDetails := safetyResult.details
        pollutionDetails := pollutionResult.details }
    scoresCalculatedAt := now }

/-- `calculateAllScores(lat, lng)` with the four scorers and the weighted sum in
doubles. -/
def calculateAllScoresF64 (lat lng : Coord) (w : World) (now : ℕ) :
    Except String LocationScoreResult × List ExternalCall :=
  let amenity := calculateAmenityScoreF64 lat lng w.amenity
  let environment := calculateEnvironmentScoreF64 lat lng w.environment
  let safety := calculateSafetyScoreF64 lat lng w.safety
  let pollution := calculatePollutionScoreF64 lat lng w.airQuality w.environmentRetry
  let calls := amenity.2 ++ environment.2 ++ safety.2 ++ pollution.2
  match amenity.1, environment.1, safety.1, pollution.1 with
  | .ok amenityResult, .ok environmentResult, .ok safetyResult, .ok pollutionResult =>
    (.ok (combineScoresF64 amenityResult environmentResult safetyResult pollutionResult now),
     calls)
  | .error err, _, _, _ => (.error err, calls)
  | _, .error err, _, _ => (.error err, calls)
  | _, _, .error err, _ => (.error err, calls)
  | _, _, _, .error err => (.error err, calls)

/-- An air-quality answer with the one PM2.5 reading `v`. -/
def readingAnswer (v : ℚ) : AQData :=
  .results [some { measurements := some [some { parameter := "pm25", value := some v }] }]

/-- An Overpass answer with one node of the given tags at the given distance. -/
def oneNode (tags : Tags) (dist : ℚ) : Outcome OverpassData :=
  .response (.elements [some { isNode := true, nodeDist := some dist, tags := tags }])

/-- The amenity answers with one hospital 1370 m away and nothing else. -/
def hospitalAt1370 (name : String) : Outcome OverpassData :=
  if name = "Hospital" then oneNode { amenity := some "hospital" } 1370
  else .response (.elements [])

/-- An environment answer with one park and a major road at distance 0. -/
def parkOnMainRoad : Outcome OverpassData :=
  .response (.elements
    [some { isNode := true, nodeDist := some 700, tags := { leisure := some "park" } },
     some { isNode := true, nodeDist := some 0, tags := { highway := some "primary" } }])

/-- A run in which a hospital, a school, a college and a mall stand at the
scored point, the environment and safety queries fail and the air-quality
source reports a PM2.5 reading of 245. -/
def tieWorld : World :=
  { amenity := fun name =>
      if name = "Hospital" ∨ name = "School" ∨ name = "College" ∨ name = "Mall" then
        oneNode {} 0
      else .response (.elements [])
    environment := .failure
    safety := .failure
    airQuality := .response (readingAnswer 245)
    environmentRetry := .failure }

/-- A safety answer with one bar and nothing else. -/
def oneBar : Outcome OverpassData := oneNode { amenity := some "bar" } 300

/-- The stored city of a new listing, `city: address.city || ''` in
`createListing`: the empty string when the form carries no city. -/
def storedCity (formCity : Option String) : String :=
  match formCity with
  | some city => city
  | none => ""

/-- A plot created from a form without a city. -/
def plotWithoutCity : Listing := plainListing "N" "plot" (storedCity none) 900000 7

/-- A store in which user `u1`, without preferences, meets `plotWithoutCity`. -/
def plotDb : Db :=
  { listings := [plotWithoutCity]
    favorites := []
    users := [{ _id := "u1", propertyPreferences := none }] }

/-! ### The distance functions in double precision

`Math.PI` and `Math.sqrt` are fixed by the language: the double nearest to π
and the correctly rounded square root, `NaN` on a negative argument. The values
of `Math.sin`, `Math.cos` and `Math.atan2` are left to the engine, so these
three functions are a parameter (`JsMath`). `NaN` is `none`. A coordinate so
large that its conversion to radians overflows makes the argument of
`Math.sin` or `Math.cos` infinite and their value `NaN`; the values of
`Math.sin` and `Math.cos` lie between -1 and 1 and those of `Math.atan2`
between -π and π, so no later operation overflows. -/

/-- `Math.PI`. -/
def mathPI : ℚ := toF64 3.141592653589793

/-- A result that did not overflow; `none` when the double would be infinite. -/
def finiteF64 (x : ℚ) : Option ℚ := if |x| < 2 ^ 1024 then some x else none

/-- Newton's iteration for the integer square root, descending from `x`. -/
def isqrtAux : ℕ → ℕ → ℕ → ℕ
  | 0, _, x => x
  | fuel + 1, n, x =>
    let y := (x + n / x) / 2
    if y < x then isqrtAux fuel n y else x

/-- The integer part of the square root of `n`. -/
def isqrt (n : ℕ) : ℕ :=
  if n = 0 then 0 else isqrtAux (bitLog n n + 10) n (2 ^ (bitLog n n / 2 + 1))

/-- `Math.sqrt`: `NaN` on a negative argument, otherwise the double nearest to
the square root. The argument is scaled by a power of 4 to an integer part `n`
of more than 128 bits; the root lies between `isqrt n` and `isqrt n + 1`, an
interval that holds no double and no midpoint of two doubles except possibly
its lower end, so the root rounds as `isqrt n` when it is that integer and as
`isqrt n + 1/2` otherwise. -/
def sqrtF64 (x : ℚ) : Option ℚ :=
  if x < 0 then none
  else if x = 0 then some 0
  else
    let k : ℤ := 64 - binade x / 2
    let s : ℚ := x * (4 : ℚ) ^ k
    let r : ℕ := isqrt ⌊s⌋.toNat
    let v : ℚ := ((r : ℚ) + (if (r : ℚ) * (r : ℚ) = s then 0 else 1 / 2)) / (2 : ℚ) ^ k
    some (toF64 v)

/-- The members of `Math` whose values the language leaves to the engine. -/
structure JsMath where
  sin : ℚ → ℚ
  cos : ℚ → ℚ
  atan2 : ℚ → ℚ → ℚ

/-- `x * Math.PI / 180`; `none` when the product overflows. -/
def toRad (x : ℚ) : Option ℚ :=
  match finiteF64 (mulF64 x mathPI) with
  | some p => some (divF64 p 180)
  | none => none

/-- The value of `a` computed from the four angles in radians:
`Math.sin(dLat/2) * Math.sin(dLat/2) + Math.cos(r1) * Math.cos(r2) *
Math.sin(dLon/2) * Math.sin(dLon/2)`. -/
def haversineA (m : JsMath) (dLat dLon r1 r2 : ℚ) : ℚ :=
  addF64 (mulF64 (m.sin (divF64 dLat 2)) (m.sin (divF64 dLat 2)))
    (mulF64 (mulF64 (mulF64 (m.cos r1) (m.cos r2)) (m.sin (divF64 dLon 2)))
      (m.sin (divF64 dLon 2)))

/-- `PropertyScoreService.haversine`: the distance in metres, `none` when the
result is `NaN`. -/
def haversine (m : JsMath) (lat1 lon1 lat2 lon2 : ℚ) : Option ℚ :=
  let R : ℚ := 6371000
  match (finiteF64 (subF64 lat2 lat1)).bind toRad, (finiteF64 (subF64 lon2 lon1)).bind toRad,
      toRad lat1, toRad lat2 with
  | some dLat, some dLon, some r1, some r2 =>
    let a := haversineA m dLat dLon r1 r2
    match sqrtF64 a, sqrtF64 (subF64 1 a) with
    | some y, some x =>
      let c := mulF64 2 (m.atan2 y x)
      some (mulF64 R c)
    | _, _ => none
  | _, _, _, _ => none

/-- `RecommendationService.calculateDistance`: the distance in kilometres,
`none` when the result is `NaN`. -/
def calculateDistance (m : JsMath) (lat1 lon1 lat2 lon2 : ℚ) : Option ℚ :=
  let R : ℚ := 6371
  match finiteF64 (subF64 lat2 lat1), finiteF64 (subF64 lon2 lon1),
      finiteF64 (mulF64 lat1 mathPI), finiteF64 (mulF64 lat2 mathPI) with
  | some latDiff, some lonDiff, some p1, some p2 =>
    match finiteF64 (mulF64 latDiff mathPI), finiteF64 (mulF64 lonDiff mathPI) with
    | some pLat, some pLon =>
      let dLat := divF64 pLat 180
      let dLon := divF64 pLon 180
      let a :=
        addF64 (mulF64 (m.sin (divF64 dLat 2)) (m.sin (divF64 dLat 2)))
          (mulF64 (mulF64 (mulF64 (m.cos (divF64 p1 180)) (m.cos (divF64 p2 180)))
            (m.sin (divF64 dLon 2))) (m.sin (divF64 dLon 2)))
      match sqrtF64 a, sqrtF64 (subF64 1 a) with
      | some y, some x =>
        let c := mulF64 2 (m.atan2 y x)
        some (mulF64 R c)
      | _, _ => none
    | _, _ => none
  | _, _, _, _ => none

/-- The values of `Math.sin`, `Math.cos` and `Math.atan2` at the arguments that
occur in the two runs `haversine(81.71, 0, -81.71, 180)` and
`haversine(0, 0, 0, 0.25)`, as a double-precision library returns them (the
doubles nearest to the exact values); the functions are not called elsewhere in
these runs. -/
def sampleMath : JsMath :=
  { sin := fun x =>
      if x = toF64 0.002181661564992912 then toF64 0.0021816598343367697
      else if x = -(toF64 1.4261085318045668) then -(toF64 0.9895509689075334)
      else if x = toF64 1.5707963267948966 then 1
      else 0
    cos := fun x =>
      if x = 0 then 1
      else if x = toF64 1.4261085318045668 ∨ x = -(toF64 1.4261085318045668) then
        toF64 0.14418349397265282
      else 0
    atan2 := fun y x =>
      if y = toF64 0.0021816598343367697 ∧ x = toF64 0.9999976201773518 then
        toF64 0.002181661564992912
      else 0 }

/-! # Theorems -/

/-! ## Rounding -/

theorem jsRound_eq_round (x : ℚ) : jsRound x = round x := by
  unfold jsRound
  rw [round_eq]

theorem jsRound_nonneg {x : ℚ} (h : 0 ≤ x) : 0 ≤ jsRound x := by
  unfold jsRound
  apply Int.floor_nonneg.mpr
  linarith

theorem jsRound_le_hundred {x : ℚ} (h : x ≤ 100) : jsRound x ≤ 100 := by
  unfold jsRound
  have h1 : ⌊x + 1 / 2⌋ < (101 : ℤ) := by
    apply Int.floor_lt.mpr
    push_cast
    linarith
  omega

/-! ## Totality of the sub-scorers -/

theorem tryCatch_ok {α : Type} (body : Except String α) (dflt : α) :
    ∃ r, tryCatch body (fun _ => .ok dflt) = .ok r ∧
      ((body = .ok r) ∨ ((∃ e, body = .error e) ∧ r = dflt)) := by
  cases body with
  | ok a => exact ⟨a, rfl, Or.inl rfl⟩
  | error e => exact ⟨dflt, rfl, Or.inr ⟨⟨e, rfl⟩, rfl⟩⟩

theorem calculateEnvironmentScore_ok (lat lng : Coord) (o : Outcome OverpassData) :
    ∃ r, (calculateEnvironmentScore lat lng o).1 = .ok r := by
  obtain ⟨r, hr, _⟩ := tryCatch_ok (environmentBody o)
    { score := 50,
      details := { greenFeatures := 0, industrialFeatures := 0, nearestMajorRoad := none } }
  exact ⟨r, hr⟩

theorem calculateSafetyScore_ok (lat lng : Coord) (o : Outcome OverpassData) :
    ∃ r, (calculateSafetyScore lat lng o).1 = .ok r := by
  obtain ⟨r, hr, _⟩ := tryCatch_ok (safetyBody o)
    { score := 50,
      details := { policeStations := 0, nearestPoliceDistance := none,
                   cctvCameras := 0, nightlifeSpots := 0 } }
  exact ⟨r, hr⟩

theorem calculatePollutionScore_ok (lat lng : Coord) (aq : Outcome AQData)
    (envRetry : Outcome OverpassData) :
    ∃ r, (calculatePollutionScore lat lng aq envRetry).1 = .ok r := by
  obtain ⟨r, hr, _⟩ := tryCatch_ok (pollutionBody lat lng aq envRetry).1
    { score := 50, details := { pm25Value := none, dataSource := "default" } }
  exact ⟨r, hr⟩

theorem calculateAmenityScore_ok (lat lng : Coord) (answer : String → Outcome OverpassData) :
    ∃ r, (calculateAmenityScore lat lng answer).1 = .ok r :=
  ⟨_, rfl⟩

/-- The aggregation succeeds with the combination of the four sub-results. -/
theorem calculateAllScores_combine (lat lng : Coord) (w : World) (now : ℕ) :
    ∃ a e s p,
      (calculateAmenityScore lat lng w.amenity).1 = .ok a ∧
      (calculateEnvironmentScore lat lng w.environment).1 = .ok e ∧
      (calculateSafetyScore lat lng w.safety).1 = .ok s ∧
      (calculatePollutionScore lat lng w.airQuality w.environmentRetry).1 = .ok p ∧
      (calculateAllScores lat lng w now).1 = .ok (combineScores a e s p now) := by
  obtain ⟨a, ha⟩ := calculateAmenityScore_ok lat lng w.amenity
  obtain ⟨e, he⟩ := calculateEnvironmentScore_ok lat lng w.environment
  obtain ⟨s, hs⟩ := calculateSafetyScore_ok lat lng w.safety
  obtain ⟨p, hp⟩ := calculatePollutionScore_ok lat lng w.airQuality w.environmentRetry
  refine ⟨a, e, s, p, ha, he, hs, hp, ?_⟩
  simp only [calculateAllScores, ha, he, hs, hp]

/-- C3: for every pair of coordinates and whatever the external queries do,
`calculateAllScores` returns a result and raises no error. -/
theorem C3_calculateAllScores_never_throws (lat lng : Coord) (w : World) (now : ℕ) :
    ∃ r, (calculateAllScores lat lng w now).1 = .ok r := by
  obtain ⟨a, e, s, p, -, -, -, -, h⟩ := calculateAllScores_combine lat lng w now
  exact ⟨_, h⟩


theorem capped_eq (v : ℚ) : max 0 (min 250 v) = min (max v 0) 250 := by
  rcases le_total v 0 with h | h
  · rw [min_eq_right (by linarith : v ≤ 250), max_eq_left h, max_eq_right h,
      min_eq_left (by norm_num)]
  · rcases le_total v 250 with h2 | h2
    · rw [min_eq_right h2, max_eq_right h, max_eq_left h, min_eq_left h2]
    · rw [min_eq_left h2, max_eq_left h, min_eq_right h2, max_eq_right (by norm_num)]

/-! ## Amenity score -/

theorem amenityStep_foldl (weight : ℚ) (results : List CategoryResult) (total : ℚ) :
    results.foldl (amenityStep weight) total =
      total + (results.map (fun r => weight * categoryRatio r)).sum := by
  induction results generalizing total with
  | nil => simp
  | cons r rs ih =>
    rw [List.foldl_cons, ih, List.map_cons, List.sum_cons]
    have : amenityStep weight total r = total + weight * categoryRatio r := by
      unfold amenityStep categoryRatio proximityRatio MAX_RADIUS
      rcases r with ⟨c, f, d, e⟩
      cases f <;> cases d <;> simp
    rw [this]
    ring

/-- The running minimum of the nearest-feature loop. -/
theorem findNearest_spec (els : List (Option Element)) :
    ∀ (acc m : Option ℚ), findNearest els acc = .ok m →
      (m = acc ∨ ∃ d ∈ usableDistances els, m = some d) ∧
      (∀ d ∈ usableDistances els, ∃ x, m = some x ∧ x ≤ d) ∧
      (∀ a, acc = some a → ∃ x, m = some x ∧ x ≤ a) := by
  induction els with
  | nil =>
    intro acc m h
    simp only [findNearest, Except.ok.injEq] at h
    subst h
    refine ⟨Or.inl rfl, by simp [usableDistances], fun a ha => ⟨a, ha, le_refl a⟩⟩
  | cons e es ih =>
    intro acc m h
    cases e with
    | none => simp [findNearest] at h
    | some el =>
      cases hd : coordDist el with
      | none =>
        simp only [findNearest, hd] at h
        obtain ⟨h1, h2, h3⟩ := ih acc m h
        have hu : usableDistances (some el :: es) = usableDistances es := by
          simp [usableDistances, hd]
        rw [hu]
        exact ⟨h1, h2, h3⟩
      | some d =>
        simp only [findNearest, hd] at h
        have hu : usableDistances (some el :: es) = d :: usableDistances es := by
          simp [usableDistances, hd]
        rw [hu]
        obtain ⟨h1, h2, h3⟩ := ih _ m h
        have hacc : ∃ x, m = some x ∧ x ≤ d ∧ ∀ a, acc = some a → x ≤ a := by
          cases acc with
          | none =>
            obtain ⟨x, hx, hle⟩ := h3 d (by simp [ltMin])
            exact ⟨x, hx, hle, by simp⟩
          | some a =>
            by_cases hlt : d < a
            · obtain ⟨x, hx, hle⟩ := h3 d (by simp [ltMin, hlt])
              exact ⟨x, hx, hle, fun a' ha' => by
                simp only [Option.some.injEq] at ha'
                subst ha'
                exact le_trans hle (le_of_lt hlt)⟩
            · obtain ⟨x, hx, hle⟩ := h3 a (by simp [ltMin, hlt])
              exact ⟨x, hx, le_trans hle (not_lt.mp hlt), fun a' ha' => by
                simp only [Option.some.injEq] at ha'
                subst ha'
                exact hle⟩
        obtain ⟨x, hx, hxd, hxa⟩ := hacc
        refine ⟨?_, ?_, ?_⟩
        · rcases h1 with h1 | ⟨d', hd', hm⟩
          · by_cases hlt : ltMin d acc = true
            · right
              exact ⟨d, by simp, by simpa [hlt] using h1⟩
            · left
              simpa [hlt] using h1
          · right
            exact ⟨d', by simp [hd'], hm⟩
        · intro d' hd'
          rcases List.mem_cons.mp hd' with rfl | hd'
          · exact ⟨x, hx, hxd⟩
          · exact h2 d' hd'
        · intro a ha
          exact ⟨x, hx, hxa a ha⟩


theorem amenityCategoryResult_failure (c : AmenityCategory) :
    amenityCategoryResult c .failure =
      { category := c.name, found := false, distance := none, error := true } := rfl

/-- What a found distance of a category means in terms of the answer. -/
theorem amenityCategoryResult_distance (c : AmenityCategory) (o : Outcome OverpassData) (d : ℚ)
    (h : (amenityCategoryResult c o).distance = some d) :
    (amenityCategoryResult c o).found = true ∧
      ∃ els, o = .response (.elements els) ∧ d ∈ usableDistances els ∧
        ∀ d' ∈ usableDistances els, d ≤ d' := by
  unfold amenityCategoryResult amenityCategoryBody at h ⊢
  match o with
  | .failure => simp at h
  | .response .null => simp at h
  | .response .noElements => simp at h
  | .response (.elements []) => simp at h
  | .response (.elements (e :: es)) =>
    cases hf : findNearest (e :: es) none with
    | error err => simp [hf] at h
    | ok m =>
      simp only [hf] at h ⊢
      subst h
      obtain ⟨h1, h2, -⟩ := findNearest_spec (e :: es) none (some d) hf
      refine ⟨rfl, e :: es, rfl, ?_, ?_⟩
      · rcases h1 with h1 | ⟨d', hd', hm⟩
        · simp at h1
        · simp only [Option.some.injEq] at hm
          subst hm
          exact hd'
      · intro d' hd'
        obtain ⟨x, hx, hle⟩ := h2 d' hd'
        simp only [Option.some.injEq] at hx
        subst hx
        exact hle

theorem findNearest_ok_of_no_null (els : List (Option Element)) (hnull : none ∉ els)
    (acc : Option ℚ) : ∃ m, findNearest els acc = .ok m := by
  induction els generalizing acc with
  | nil => exact ⟨acc, rfl⟩
  | cons e es ih =>
    cases e with
    | none => simp at hnull
    | some el =>
      have hes : none ∉ es := fun hmem => hnull (List.mem_cons_of_mem _ hmem)
      cases hd : coordDist el with
      | none => simpa [findNearest, hd] using ih hes acc
      | some d => simpa [findNearest, hd] using ih hes _

/-- A well-formed answer with a usable feature yields a found distance. -/
theorem amenityCategoryResult_found (c : AmenityCategory) (els : List (Option Element))
    (hnull : none ∉ els) (hne : usableDistances els ≠ []) :
    ∃ d, (amenityCategoryResult c (.response (.elements els))).distance = some d ∧
      (amenityCategoryResult c (.response (.elements els))).found = true := by
  cases els with
  | nil => simp [usableDistances] at hne
  | cons e es =>
    obtain ⟨m, hm⟩ := findNearest_ok_of_no_null (e :: es) hnull none
    obtain ⟨-, h2, -⟩ := findNearest_spec (e :: es) none m hm
    obtain ⟨d0, hd0⟩ := List.exists_mem_of_ne_nil _ hne
    obtain ⟨x, hx, -⟩ := h2 d0 hd0
    subst hx
    exact ⟨x, by simp [amenityCategoryResult, amenityCategoryBody, hm],
      by simp [amenityCategoryResult, amenityCategoryBody, hm]⟩

theorem categoryRatio_of_distance_none (r : CategoryResult) (h : r.distance = none) :
    categoryRatio r = 0 := by
  unfold categoryRatio
  rw [h]
  cases r.found <;> rfl

/-! ## Score ranges -/

theorem usableDistances_nonneg (els : List (Option Element)) (h : elementsNonneg els = true) :
    ∀ d ∈ usableDistances els, 0 ≤ d := by
  intro d hd
  simp only [usableDistances, List.mem_filterMap] at hd
  obtain ⟨e, he, hed⟩ := hd
  simp only [elementsNonneg, List.all_eq_true] at h
  have := h e he
  cases e with
  | none => simp at hed
  | some el =>
    simp only [Option.bind] at hed
    simp only [hed, decide_eq_true_eq] at this
    exact this

theorem categoryRatio_nonneg (r : CategoryResult) : 0 ≤ categoryRatio r := by
  unfold categoryRatio
  rcases r with ⟨c, f, d, e⟩
  cases f <;> cases d <;> simp

theorem categoryRatio_le_one (r : CategoryResult) (h : ∀ d, r.distance = some d → 0 ≤ d) :
    categoryRatio r ≤ 1 := by
  unfold categoryRatio
  rcases r with ⟨c, f, d, e⟩
  cases f with
  | false => cases d <;> simp
  | true =>
    cases d with
    | none => simp
    | some x =>
      have hx : 0 ≤ x := h x rfl
      have hmin : 0 ≤ min x 2000 := le_min hx (by norm_num)
      have hdiv : 0 ≤ min x 2000 / 2000 := div_nonneg hmin (by norm_num)
      simp only
      apply max_le (by norm_num)
      linarith

theorem amenityCategoryResult_nonneg (c : AmenityCategory) (o : Outcome OverpassData)
    (h : answerNonneg o = true) :
    ∀ d, (amenityCategoryResult c o).distance = some d → 0 ≤ d := by
  intro d hd
  obtain ⟨-, els, rfl, hmem, -⟩ := amenityCategoryResult_distance c o d hd
  exact usableDistances_nonneg els h d hmem

theorem amenity_score_range (lat lng : Coord) (answer : String → Outcome OverpassData)
    (h : ∀ c ∈ getAmenityCategories, answerNonneg (answer c.name) = true) (r : AmenityResult)
    (hr : (calculateAmenityScore lat lng answer).1 = .ok r) : 0 ≤ r.score ∧ r.score ≤ 100 := by
  simp only [calculateAmenityScore, Except.ok.injEq] at hr
  subst hr
  simp only [amenityStep_foldl, zero_add, List.map_map]
  have hlen : ((getAmenityCategories.length : ℕ) : ℚ) = 7 := by simp [getAmenityCategories]
  rw [hlen]
  constructor
  · apply jsRound_nonneg
    apply List.sum_nonneg
    intro x hx
    simp only [List.mem_map, Function.comp] at hx
    obtain ⟨c, -, rfl⟩ := hx
    exact mul_nonneg (by norm_num) (categoryRatio_nonneg _)
  · apply jsRound_le_hundred
    have hb : ∀ x ∈ getAmenityCategories.map ((fun r => (100 / 7 : ℚ) * categoryRatio r) ∘
        fun cat => amenityCategoryResult cat (answer cat.name)), x ≤ (100 / 7 : ℚ) := by
      intro x hx
      simp only [List.mem_map, Function.comp] at hx
      obtain ⟨c, hc, rfl⟩ := hx
      have := categoryRatio_le_one (amenityCategoryResult c (answer c.name))
        (amenityCategoryResult_nonneg c _ (h c hc))
      linarith
    have := List.sum_le_card_nsmul _ _ hb
    simp only [List.length_map, nsmul_eq_mul] at this
    have h7 : ((getAmenityCategories.length : ℕ) : ℚ) * (100 / 7) = 100 := by
      rw [hlen]; norm_num
    linarith

theorem envLoop_road_nonneg (els : List (Option Element)) (h : elementsNonneg els = true) :
    ∀ acc d, envLoop els acc = .ok d → (∀ x, acc.nearestMajorRoad = some x → 0 ≤ x) →
      ∀ x, d.nearestMajorRoad = some x → 0 ≤ x := by
  induction els with
  | nil =>
    intro acc d hd hacc
    simp only [envLoop, Except.ok.injEq] at hd
    subst hd
    exact hacc
  | cons e es ih =>
    intro acc d hd hacc
    have hes : elementsNonneg es = true := by
      simp only [elementsNonneg, List.all_cons, Bool.and_eq_true] at h ⊢
      exact h.2
    cases e with
    | none => simp [envLoop] at hd
    | some el =>
      simp only [envLoop] at hd
      refine ih hes _ d hd ?_
      intro x hx
      simp only at hx
      have hel : ∀ y, coordDist el = some y → 0 ≤ y := by
        intro y hy
        simp only [elementsNonneg, List.all_cons, Bool.and_eq_true, hy, decide_eq_true_eq] at h
        exact h.1
      split_ifs at hx with h1
      · cases hc : coordDist el with
        | none =>
          rw [hc] at hx
          exact hacc x hx
        | some y =>
          rw [hc] at hx
          simp only at hx
          split_ifs at hx with h2
          · simp only [Option.some.injEq] at hx
            subst hx
            exact hel _ hc
          · exact hacc x hx
      · exact hacc x hx

theorem envScoreOf_range (d : EnvDetails) (h : ∀ x, d.nearestMajorRoad = some x → 0 ≤ x) :
    0 ≤ envScoreOf d ∧ envScoreOf d ≤ 100 := by
  unfold envScoreOf
  simp only
  have hg0 : (0 : ℚ) ≤ min 1 ((d.greenFeatures : ℚ) / 8) :=
    le_min (by norm_num) (div_nonneg (Nat.cast_nonneg _) (by norm_num))
  have hg1 : min 1 ((d.greenFeatures : ℚ) / 8) ≤ 1 := min_le_left _ _
  have hr : (0 : ℚ) ≤ (match d.nearestMajorRoad with
      | none => (1 : ℚ)
      | some dist => min 1 (dist / (MAX_RADIUS : ℚ))) ∧
      (match d.nearestMajorRoad with
      | none => (1 : ℚ)
      | some dist => min 1 (dist / (MAX_RADIUS : ℚ))) ≤ 1 := by
    cases hn : d.nearestMajorRoad with
    | none => simp
    | some x =>
      simp only
      exact ⟨le_min (by norm_num) (div_nonneg (h x hn) (by simp [MAX_RADIUS])), min_le_left _ _⟩
  have hi : (0 : ℚ) ≤ (if decide (d.industrialFeatures > 0) = true then (0 : ℚ) else 1) ∧
      (if decide (d.industrialFeatures > 0) = true then (0 : ℚ) else 1) ≤ 1 := by
    split_ifs <;> norm_num
  constructor
  · apply jsRound_nonneg
    nlinarith [hg0, hr.1, hi.1]
  · apply jsRound_le_hundred
    nlinarith [hg1, hr.2, hi.2]

theorem environment_score_range (lat lng : Coord) (o : Outcome OverpassData)
    (h : answerNonneg o = true) (r : EnvResult)
    (hr : (calculateEnvironmentScore lat lng o).1 = .ok r) : 0 ≤ r.score ∧ r.score ≤ 100 := by
  simp only [calculateEnvironmentScore] at hr
  match o, h with
  | .failure, _ =>
    simp only [environmentBody, tryCatch, Except.ok.injEq] at hr
    subst hr; simp
  | .response .null, _ =>
    simp only [environmentBody, tryCatch, Except.ok.injEq] at hr
    subst hr; simp
  | .response .noElements, _ =>
    simp only [environmentBody, tryCatch, Except.ok.injEq] at hr
    subst hr
    exact envScoreOf_range _ (by simp)
  | .response (.elements els), h =>
    simp only [environmentBody] at hr
    split at hr
    · simp only [tryCatch, Except.ok.injEq] at hr
      subst hr; simp
    · rename_i d hl
      simp only [tryCatch, Except.ok.injEq] at hr
      subst hr
      exact envScoreOf_range d (envLoop_road_nonneg els h _ d hl (by simp))

theorem safetyScoreOf_range (d : SafetyDetails) :
    0 ≤ safetyScoreOf d ∧ safetyScoreOf d ≤ 100 := by
  unfold safetyScoreOf
  have h0 : (0 : ℚ) ≤ max 0 (min 1 (safetyRawOf d)) := le_max_left _ _
  have h1 : max 0 (min 1 (safetyRawOf d)) ≤ 1 := max_le (by norm_num) (min_le_left _ _)
  exact ⟨jsRound_nonneg (by linarith), jsRound_le_hundred (by linarith)⟩

theorem safety_score_range (lat lng : Coord) (o : Outcome OverpassData) (r : SafetyResult)
    (hr : (calculateSafetyScore lat lng o).1 = .ok r) : 0 ≤ r.score ∧ r.score ≤ 100 := by
  simp only [calculateSafetyScore] at hr
  cases hb : safetyBody o with
  | error err =>
    simp only [hb, tryCatch, Except.ok.injEq] at hr
    subst hr; simp
  | ok s =>
    simp only [hb, tryCatch, Except.ok.injEq] at hr
    subst hr
    unfold safetyBody at hb
    match o with
    | .failure => simp at hb
    | .response .null => simp at hb
    | .response .noElements =>
      simp only [Except.ok.injEq] at hb
      subst hb
      exact safetyScoreOf_range _
    | .response (.elements els) =>
      simp only at hb
      split at hb
      · simp at hb
      · simp only [Except.ok.injEq] at hb
        subst hb
        exact safetyScoreOf_range _

theorem measuredPollutionScore_range (v : ℚ) :
    0 ≤ measuredPollutionScore v ∧ measuredPollutionScore v ≤ 100 := by
  unfold measuredPollutionScore
  simp only
  have h0 : (0 : ℚ) ≤ max 0 (min 250 v) := le_max_left _ _
  have h1 : max 0 (min 250 v) ≤ 250 := max_le (by norm_num) (min_le_left _ _)
  constructor
  · apply jsRound_nonneg
    have : max 0 (min 250 v) / 250 ≤ 1 := by
      rw [div_le_one (by norm_num)]; exact h1
    nlinarith
  · apply jsRound_le_hundred
    have : 0 ≤ max 0 (min 250 v) / 250 := div_nonneg h0 (by norm_num)
    nlinarith

theorem pollution_score_range (lat lng : Coord) (aq : Outcome AQData)
    (envRetry : Outcome OverpassData) (h : answerNonneg envRetry = true) (r : PollutionResult)
    (hr : (calculatePollutionScore lat lng aq envRetry).1 = .ok r) :
    0 ≤ r.score ∧ r.score ≤ 100 := by
  simp only [calculatePollutionScore] at hr
  cases hb : (pollutionBody lat lng aq envRetry).1 with
  | error err =>
    simp only [hb, tryCatch, Except.ok.injEq] at hr
    subst hr; simp
  | ok s =>
    simp only [hb, tryCatch, Except.ok.injEq] at hr
    subst hr
    unfold pollutionBody at hb
    match aq with
    | .failure => simp at hb
    | .response data =>
      simp only at hb
      cases hp : readPm25 data with
      | error err => simp [hp] at hb
      | ok reading =>
        cases reading with
        | some v =>
          simp only [hp, Except.ok.injEq] at hb
          subst hb
          exact measuredPollutionScore_range v
        | none =>
          simp only [hp] at hb
          obtain ⟨e, he⟩ := calculateEnvironmentScore_ok lat lng envRetry
          simp only [he, Except.ok.injEq] at hb
          subst hb
          have := environment_score_range lat lng envRetry h e he
          simp only
          constructor
          · exact le_max_left _ _
          · apply max_le (by norm_num)
            linarith [this.1]

theorem overall_score_range (a e s p : ℤ) (ha : 0 ≤ a ∧ a ≤ 100) (he : 0 ≤ e ∧ e ≤ 100)
    (hs : 0 ≤ s ∧ s ≤ 100) (hp : 0 ≤ p ∧ p ≤ 100) :
    0 ≤ jsRound ((a : ℚ) * (3 / 10) + (e : ℚ) * (25 / 100) + (s : ℚ) * (25 / 100) +
        (p : ℚ) * (2 / 10)) ∧
      jsRound ((a : ℚ) * (3 / 10) + (e : ℚ) * (25 / 100) + (s : ℚ) * (25 / 100) +
        (p : ℚ) * (2 / 10)) ≤ 100 := by
  have ha0 : (0 : ℚ) ≤ a := by exact_mod_cast ha.1
  have ha1 : (a : ℚ) ≤ 100 := by exact_mod_cast ha.2
  have he0 : (0 : ℚ) ≤ e := by exact_mod_cast he.1
  have he1 : (e : ℚ) ≤ 100 := by exact_mod_cast he.2
  have hs0 : (0 : ℚ) ≤ s := by exact_mod_cast hs.1
  have hs1 : (s : ℚ) ≤ 100 := by exact_mod_cast hs.2
  have hp0 : (0 : ℚ) ≤ p := by exact_mod_cast hp.1
  have hp1 : (p : ℚ) ≤ 100 := by exact_mod_cast hp.2
  exact ⟨jsRound_nonneg (by linarith), jsRound_le_hundred (by linarith)⟩

/-- C2: whatever the external queries answer (any payload or a failure), each
of `amenityScore`, `environmentScore`, `safetyScore`, `pollutionScore` and
`overallScore` returned by `calculateAllScores` is an integer between 0 and 100;
the distances in the answers are values of `haversine`, hence non-negative. -/
theorem C2_scores_in_range (lat lng : Coord) (w : World) (now : ℕ)
    (hw : w.distancesNonneg = true) :
    ∃ r, (calculateAllScores lat lng w now).1 = .ok r ∧
      (0 ≤ r.amenityScore ∧ r.amenityScore ≤ 100) ∧
      (0 ≤ r.environmentScore ∧ r.environmentScore ≤ 100) ∧
      (0 ≤ r.safetyScore ∧ r.safetyScore ≤ 100) ∧
      (0 ≤ r.pollutionScore ∧ r.pollutionScore ≤ 100) ∧
      (0 ≤ r.overallScore ∧ r.overallScore ≤ 100) := by
  obtain ⟨a, e, s, p, ha, he, hs, hp, h⟩ := calculateAllScores_combine lat lng w now
  simp only [World.distancesNonneg, Bool.and_eq_true, List.all_eq_true] at hw
  obtain ⟨⟨⟨hwa, hwe⟩, -⟩, hwr⟩ := hw
  have hA := amenity_score_range lat lng w.amenity hwa a ha
  have hE := environment_score_range lat lng w.environment hwe e he
  have hS := safety_score_range lat lng w.safety s hs
  have hP := pollution_score_range lat lng w.airQuality w.environmentRetry hwr p hp
  exact ⟨_, h, hA, hE, hS, hP, overall_score_range _ _ _ _ hA hE hS hP⟩

/-- C2 at `sampleWorld`, scored at latitude 18.5204 and longitude 73.8567. -/
theorem C2_scores_in_range_witness :
    sampleWorld.distancesNonneg = true ∧
    ∃ r, (calculateAllScores (some (185204 / 10000)) (some (738567 / 10000)) sampleWorld 0).1
        = .ok r ∧
      (0 ≤ r.amenityScore ∧ r.amenityScore ≤ 100) ∧
      (0 ≤ r.environmentScore ∧ r.environmentScore ≤ 100) ∧
      (0 ≤ r.safetyScore ∧ r.safetyScore ≤ 100) ∧
      (0 ≤ r.pollutionScore ∧ r.pollutionScore ≤ 100) ∧
      (0 ≤ r.overallScore ∧ r.overallScore ≤ 100) :=
  ⟨by decide!, C2_scores_in_range _ _ sampleWorld 0 (by decide!)⟩

/-- The requests of a run start with the seven amenity queries, the
environment query, the safety query and the air-quality query. -/
theorem calculateAllScores_calls (lat lng : Coord) (w : World) (now : ℕ) :
    (calculateAllScores lat lng w now).2.take 10 =
      getAmenityCategories.map (fun c => ExternalCall.overpassAmenity c.query 2000 lat lng) ++
        [ExternalCall.overpassEnvironment 2000 lat lng, ExternalCall.overpassSafety 2000 lat lng,
         ExternalCall.openAQ 20000 lat lng] := by
  have hp : ∃ rest, (calculatePollutionScore lat lng w.airQuality w.environmentRetry).2 =
      ExternalCall.openAQ 20000 lat lng :: rest := by
    simp only [calculatePollutionScore, pollutionBody, MAX_RADIUS]
    cases w.airQuality with
    | failure => exact ⟨[], rfl⟩
    | response data =>
      simp only
      cases readPm25 data with
      | error err => exact ⟨[], rfl⟩
      | ok reading =>
        cases reading with
        | some v => exact ⟨[], rfl⟩
        | none =>
          simp only
          split <;> exact ⟨_, rfl⟩
  obtain ⟨rest, hrest⟩ := hp
  have hcalls : (calculateAllScores lat lng w now).2 =
      (calculateAmenityScore lat lng w.amenity).2 ++
        (calculateEnvironmentScore lat lng w.environment).2 ++
        (calculateSafetyScore lat lng w.safety).2 ++
        (calculatePollutionScore lat lng w.airQuality w.environmentRetry).2 := by
    simp only [calculateAllScores]
    split <;> rfl
  rw [hcalls, hrest]
  simp [calculateAmenityScore, calculateEnvironmentScore, calculateSafetyScore,
    getAmenityCategories, MAX_RADIUS]

/-- C4 fails: at latitude 95, and at a non-numeric latitude, `calculateAllScores`
does not fail with a validation error; it sends its ten requests and returns a
result (here every request fails, so the defaults are combined). -/
theorem C4_latitude_95_is_scored :
    ((calculateAllScores (some 95) (some (738567 / 10000)) allQueriesFail 0).1.toOption.map
        (fun r => r.overallScore) = some 35 ∧
      (calculateAllScores (some 95) (some (738567 / 10000)) allQueriesFail 0).2.length = 10) ∧
    ((calculateAllScores none (some (738567 / 10000)) allQueriesFail 0).1.toOption.map
        (fun r => r.overallScore) = some 35 ∧
      (calculateAllScores none (some (738567 / 10000)) allQueriesFail 0).2.length = 10) := by
  decide!

/-- C4 as amended: `calculateAllScores` validates nothing. For every pair of
coordinates, in range or not and numeric or not, it sends the seven amenity
queries, the environment, safety and air-quality queries with the coordinates
as given and returns a result. In `createListing` a coordinates field that is
not exactly two numbers skips the call, so no request is sent, and every pair
of numbers is passed on unchecked. -/
theorem C4_amended_no_validation_in_service (lat lng : Coord) (w : World) (now : ℕ) :
    (∃ r, (calculateAllScores lat lng w now).1 = .ok r) ∧
    (calculateAllScores lat lng w now).2.take 10 =
      getAmenityCategories.map (fun c => ExternalCall.overpassAmenity c.query 2000 lat lng) ++
        [ExternalCall.overpassEnvironment 2000 lat lng, ExternalCall.overpassSafety 2000 lat lng,
         ExternalCall.openAQ 20000 lat lng] ∧
    (∀ coordinates : Option (List Coord),
      (∀ a b : ℚ, coordinates ≠ some [some a, some b]) →
        createListingScores coordinates w now = (none, [])) ∧
    (∀ a b : ℚ, createListingScores (some [some a, some b]) w now =
      ((calculateAllScores (some b) (some a) w now).1.toOption,
       (calculateAllScores (some b) (some a) w now).2)) := by
  refine ⟨?_, calculateAllScores_calls lat lng w now, ?_, ?_⟩
  · obtain ⟨a, e, s, p, -, -, -, -, h⟩ := calculateAllScores_combine lat lng w now
    exact ⟨_, h⟩
  · intro coordinates hc
    unfold createListingScores
    split
    · rename_i c0 c1
      exact absurd rfl (hc c0 c1)
    · rfl
  · intro a b
    obtain ⟨a', e, s, p, -, -, -, -, h⟩ := calculateAllScores_combine (some b) (some a) w now
    simp only [createListingScores, h, Except.toOption]


/-! ## Recommendation blender -/

theorem mem_of_mem_mongoLimit {α : Type} {n : ℕ} {l : List α} {x : α}
    (h : x ∈ mongoLimit n l) : x ∈ l := by
  unfold mongoLimit at h
  split_ifs at h
  · exact h
  · exact List.mem_of_mem_take h

theorem mem_findListings {db : Db} {q : ListingQuery} {keys : List SortKey} {n : ℕ}
    {l : Listing} (h : l ∈ findListings db q keys n) :
    l ∈ db.listings ∧ q.admits l = true := by
  have h1 := mem_of_mem_mongoLimit h
  have h2 := (List.perm_insertionSort _ _).mem_iff.mp h1
  simpa [List.mem_filter] using h2

theorem dedupFilter_subset (recs : List Candidate) :
    ∀ seen c, c ∈ dedupFilter recs seen → c ∈ recs ∧ c.listing._id ∉ seen := by
  induction recs with
  | nil => intro seen c h; simp [dedupFilter] at h
  | cons r rs ih =>
    intro seen c h
    simp only [dedupFilter] at h
    split_ifs at h with hs
    · obtain ⟨h1, h2⟩ := ih seen c h
      exact ⟨List.mem_cons_of_mem _ h1, h2⟩
    · rcases List.mem_cons.mp h with rfl | h
      · exact ⟨List.mem_cons_self _ _, hs⟩
      · obtain ⟨h1, h2⟩ := ih _ c h
        exact ⟨List.mem_cons_of_mem _ h1, fun hmem => h2 (List.mem_cons_of_mem _ hmem)⟩

theorem dedupFilter_nodup (recs : List Candidate) :
    ∀ seen, ((dedupFilter recs seen).map (fun c => c.listing._id)).Nodup := by
  induction recs with
  | nil => intro seen; simp [dedupFilter]
  | cons r rs ih =>
    intro seen
    simp only [dedupFilter]
    split_ifs with hs
    · exact ih seen
    · rw [List.map_cons, List.nodup_cons]
      refine ⟨?_, ih _⟩
      intro hmem
      obtain ⟨c, hc, hid⟩ := List.mem_map.mp hmem
      have := (dedupFilter_subset rs _ c hc).2
      exact this (by simp [hid])

theorem blendRecommendations_nodup (similar location popular high : List Listing)
    (limit : ℕ) :
    ((blendRecommendations similar location popular high limit).map
      (fun c => c.listing._id)).Nodup := by
  unfold blendRecommendations sortByScore deduplicateRecommendations
  refine List.Nodup.sublist ((List.take_sublist _ _).map _) ?_
  exact ((List.perm_insertionSort _ _).map _).nodup_iff.mpr (dedupFilter_nodup _ [])

theorem mem_blendRecommendations {similar location popular high : List Listing} {limit : ℕ}
    {c : Candidate} (h : c ∈ blendRecommendations similar location popular high limit) :
    (c.recommendationType = "similar_to_favorites" ∧ c.score = 95 ∧ c.listing ∈ similar) ∨
    (c.recommendationType = "location_match" ∧ c.score = 85 ∧ c.listing ∈ location) ∨
    (c.recommendationType = "trending" ∧ c.score = 75 ∧ c.listing ∈ popular) ∨
    (c.recommendationType = "high_location_score" ∧ c.score = 90 ∧ c.listing ∈ high) := by
  unfold blendRecommendations sortByScore deduplicateRecommendations at h
  have h1 := List.mem_of_mem_take h
  have h2 := (List.perm_insertionSort _ _).mem_iff.mp h1
  have h3 := (dedupFilter_subset _ _ _ h2).1
  simp only [List.mem_append, List.mem_map] at h3
  rcases h3 with ((⟨x, hx, rfl⟩ | ⟨x, hx, rfl⟩) | ⟨x, hx, rfl⟩) | ⟨x, hx, rfl⟩
  · exact Or.inl ⟨rfl, rfl, hx⟩
  · exact Or.inr (Or.inl ⟨rfl, rfl, hx⟩)
  · exact Or.inr (Or.inr (Or.inl ⟨rfl, rfl, hx⟩))
  · exact Or.inr (Or.inr (Or.inr ⟨rfl, rfl, hx⟩))

/-- C5: for every user, every limit and every output of the four
generators, the list returned by `getBuyerRecommendations` on its normal path
holds no two candidates with the same listing identifier. -/
theorem C5_no_duplicate_listing_ids (similar location popular high : List Listing)
    (db : Db) (userId : String) (limit : ℕ) :
    ((blendRecommendations similar location popular high limit).map
      (fun c => c.listing._id)).Nodup ∧
    (match getBuyerRecommendations db userId limit with
     | .ranked candidates => (candidates.map (fun c => c.listing._id)).Nodup
     | .popular _ => True) := by
  refine ⟨blendRecommendations_nodup _ _ _ _ _, ?_⟩
  unfold getBuyerRecommendations buyerBody
  cases findUserById db userId with
  | none => simp
  | some user => exact blendRecommendations_nodup _ _ _ _ _


theorem findFavorites_of_no_favorite (db : Db) (userId : String) (n : ℕ)
    (h : ∀ f ∈ db.favorites, f.user ≠ userId) : findFavorites db userId n = [] := by
  have hf : db.favorites.filter (fun f => decide (f.user = userId)) = [] := by
    rw [List.filter_eq_nil_iff]
    intro f hf
    simpa using h f hf
  simp [findFavorites, hf, mongoLimit]

theorem getSimilarToListings_of_no_favorite (db : Db) (userId : String) (n : ℕ)
    (h : ∀ f ∈ db.favorites, f.user ≠ userId) :
    getSimilarToListings db userId n = getPopularListings db n [] := by
  simp [getSimilarToListings, similarBody, findFavorites_of_no_favorite db userId 5 h]

theorem mem_getPopularListings {db : Db} {n : ℕ} {l : Listing}
    (h : l ∈ getPopularListings db n []) : l ∈ db.listings ∧ l.status = "active" := by
  obtain ⟨h1, h2⟩ := mem_findListings h
  refine ⟨h1, ?_⟩
  simpa [ListingQuery.admits] using h2

/-- C8 fails: for a user without favorites and without preferences the
blender returns a popular listing tagged `similar_to_favorites` and a listing
tagged `high_location_score`; no candidate is tagged `trending`. -/
theorem C8_new_user_gets_other_tags :
    getBuyerRecommendations newUserDb "u1" 2 =
      .ranked
        [ { listing := { plainListing "A" "apartment" "Mumbai" 100 3 with featured := true },
            recommendationType := "similar_to_favorites", score := 95 },
          { listing := { plainListing "H" "house" "Delhi" 100 1 with overallScore := some 80 },
            recommendationType := "high_location_score", score := 90 } ] ∧
    findFavorites newUserDb "u1" 10 = [] ∧
    (findUserById newUserDb "u1").map (fun u => u.propertyPreferences) = some none := by
  decide!

/-! ## Similar-to-favorites query -/

theorem mem_uniqueValues (xs : List String) (x : String) : x ∈ uniqueValues xs ↔ x ∈ xs := by
  induction xs with
  | nil => simp [uniqueValues]
  | cons y ys ih =>
    simp only [uniqueValues, List.mem_cons, List.mem_filter, decide_eq_true_eq, ih]
    constructor
    · rintro (h | ⟨h, -⟩)
      · exact Or.inl h
      · exact Or.inr h
    · intro h
      by_cases hxy : x = y
      · exact Or.inl hxy
      · rcases h with h | h
        · exact Or.inl h
        · exact Or.inr ⟨h, hxy⟩

theorem mem_favoriteTypes (properties : List Listing) (t : String) :
    t ∈ favoriteTypes properties ↔ ∃ p ∈ properties, p.propertyType = t := by
  simp [favoriteTypes, mem_uniqueValues]

theorem mem_favoriteCities (properties : List Listing) (c : String) :
    c ∈ favoriteCities properties ↔ ∃ p ∈ properties, p.city = some c ∧ c ≠ "" := by
  simp only [favoriteCities, mem_uniqueValues, List.mem_filterMap]
  constructor
  · rintro ⟨p, hp, h⟩
    refine ⟨p, hp, ?_⟩
    cases hc : p.city with
    | none => simp [hc] at h
    | some c' =>
      simp only [hc] at h
      split_ifs at h with he
      simp only [Option.some.injEq] at h
      subst h
      exact ⟨rfl, he⟩
  · rintro ⟨p, hp, hc, hne⟩
    exact ⟨p, hp, by simp [hc, hne]⟩

/-- The filter built from a non-empty list of favorites with a positive average price. -/
theorem similarQuery_admits (properties : List Listing) (hne : properties ≠ [])
    (hp : 0 < avgPrice properties) (l : Listing) :
    (similarQuery properties).admits l = true ↔
      l.status = "active" ∧ l._id ∉ properties.map (fun p => p._id) ∧
        (l.propertyType ∈ favoriteTypes properties ∨
         (∃ c, l.city = some c ∧ c ∈ favoriteCities properties) ∨
         (avgPrice properties * (7 / 10) ≤ l.price ∧
            l.price ≤ avgPrice properties * (13 / 10))) := by
  have htypes : (favoriteTypes properties).length > 0 := by
    cases properties with
    | nil => exact absurd rfl hne
    | cons p ps => simp [favoriteTypes, uniqueValues]
  have hlo : avgPrice properties - avgPrice properties * (3 / 10) =
      avgPrice properties * (7 / 10) := by ring
  have hhi : avgPrice properties + avgPrice properties * (3 / 10) =
      avgPrice properties * (13 / 10) := by ring
  have hq : ∃ cs : List Condition,
      (cs = [] ∧ favoriteCities properties = [] ∨ cs = [.cityIn (favoriteCities properties)]) ∧
      similarQuery properties =
        { status := "active"
          idNin := some (properties.map (fun p => p._id))
          orConditions := some (.propertyTypeIn (favoriteTypes properties) :: (cs ++
            [.priceBetween (avgPrice properties * (7 / 10))
              (avgPrice properties * (13 / 10))])) } := by
    by_cases hc : (favoriteCities properties).length > 0
    · exact ⟨[.cityIn (favoriteCities properties)], Or.inr rfl, by
        simp [similarQuery, htypes, hc, hp, hlo, hhi]⟩
    · have hnil : favoriteCities properties = [] := by
        cases hfc : favoriteCities properties with
        | nil => rfl
        | cons a as => simp [hfc] at hc
      exact ⟨[], Or.inl ⟨rfl, hnil⟩, by simp [similarQuery, htypes, hnil, hp, hlo, hhi]⟩
  obtain ⟨cs, hcs, hq⟩ := hq
  rw [hq]
  have hcity : (Condition.cityIn (favoriteCities properties)).holds l = true ↔
      ∃ c, l.city = some c ∧ c ∈ favoriteCities properties := by
    unfold Condition.holds
    cases l.city <;> simp
  have hany : (cs.any fun c => c.holds l) = true ↔
      ∃ c, l.city = some c ∧ c ∈ favoriteCities properties := by
    rcases hcs with ⟨rfl, hnil⟩ | rfl
    · simp [hnil]
    · simp [hcity]
  have hprice : (Condition.priceBetween (avgPrice properties * (7 / 10))
      (avgPrice properties * (13 / 10))).holds l = true ↔
      (avgPrice properties * (7 / 10) ≤ l.price ∧
        l.price ≤ avgPrice properties * (13 / 10)) := by
    simp [Condition.holds]
  have htype : (Condition.propertyTypeIn (favoriteTypes properties)).holds l = true ↔
      l.propertyType ∈ favoriteTypes properties := by
    simp [Condition.holds]
  simp only [ListingQuery.admits, Bool.and_eq_true, decide_eq_true_eq, Bool.and_true,
    List.any_cons, List.any_append, List.any_nil, Bool.or_eq_true, Bool.or_false,
    hany, hprice, htype]
  exact and_assoc

/-- C9 fails: with five favorited apartments in Pune averaging 5,000,000 the
generator returns a villa in Mumbai, admitted by the price band alone. -/
theorem C9_villa_in_mumbai_is_admitted :
    avgPrice puneApartments = 5000000 ∧
    mumbaiVilla ∈ getSimilarToListings fiveFavoritesDb "u1" 6 ∧
    (similarQuery puneApartments).admits mumbaiVilla = true ∧
    mumbaiVilla.propertyType ∉ favoriteTypes puneApartments ∧
    mumbaiVilla.city ≠ some "Pune" := by
  decide!

/-- C9 as amended: the filter built by `getSimilarToListings` joins its
similarity conditions with `$or`. With favorites of property types `T`, cities
`C` and average price `p > 0` it admits exactly the active listings that are
none of the loaded favorites and have a property type in `T`, or a city in `C`,
or a price in `[0.7p, 1.3p]`; for five apartments in Pune averaging 5,000,000
the alternatives are type in {apartment}, city in {Pune}, price in
[3,500,000, 6,500,000]. -/
theorem C9_amended_similar_query_is_a_disjunction (properties : List Listing)
    (hne : properties ≠ []) (hp : 0 < avgPrice properties) (l : Listing) :
    ((similarQuery properties).admits l = true ↔
      l.status = "active" ∧ l._id ∉ properties.map (fun p => p._id) ∧
        (l.propertyType ∈ favoriteTypes properties ∨
         (∃ c, l.city = some c ∧ c ∈ favoriteCities properties) ∨
         (avgPrice properties * (7 / 10) ≤ l.price ∧
            l.price ≤ avgPrice properties * (13 / 10)))) ∧
    (∀ t, t ∈ favoriteTypes properties ↔ ∃ p ∈ properties, p.propertyType = t) ∧
    (∀ c, c ∈ favoriteCities properties ↔ ∃ p ∈ properties, p.city = some c ∧ c ≠ "") ∧
    similarQuery puneApartments =
      { status := "active"
        idNin := some ["F1", "F2", "F3", "F4", "F5"]
        orConditions := some [.propertyTypeIn ["apartment"], .cityIn ["Pune"],
          .priceBetween 3500000 6500000] } := by
  exact ⟨similarQuery_admits properties hne hp l, mem_favoriteTypes properties,
    mem_favoriteCities properties, by decide!⟩

/-- C9 as amended, at the five apartments in Pune and the villa in Mumbai. -/
theorem C9_amended_similar_query_is_a_disjunction_witness :
    puneApartments ≠ [] ∧ 0 < avgPrice puneApartments ∧
    ((similarQuery puneApartments).admits mumbaiVilla = true ↔
      mumbaiVilla.status = "active" ∧
        mumbaiVilla._id ∉ puneApartments.map (fun p => p._id) ∧
        (mumbaiVilla.propertyType ∈ favoriteTypes puneApartments ∨
         (∃ c, mumbaiVilla.city = some c ∧ c ∈ favoriteCities puneApartments) ∨
         (avgPrice puneApartments * (7 / 10) ≤ mumbaiVilla.price ∧
            mumbaiVilla.price ≤ avgPrice puneApartments * (13 / 10)))) :=
  ⟨by decide, by decide!,
    (C9_amended_similar_query_is_a_disjunction puneApartments (by decide) (by decide!)
      mumbaiVilla).1⟩

/-- C10, the code at the failing input: user `u1` has six favorites, and the
generator returns the oldest of them, `oldFavorite`, because only the five
most recent favorites are loaded and excluded. -/
theorem C10_sixth_favorite_is_recommended :
    (sixFavoritesDb.favorites.filter (fun f => decide (f.user = "u1"))).length = 6 ∧
    { user := "u1", property := oldFavorite._id, addedAt := 10 } ∈ sixFavoritesDb.favorites ∧
    (findFavorites sixFavoritesDb "u1" 5).map (fun f => f.property) =
      ["F5", "F4", "F3", "F2", "F1"] ∧
    oldFavorite ∈ getSimilarToListings sixFavoritesDb "u1" 6 := by
  decide!


/-! ## Defaults and fall-backs -/

theorem calculatePollutionScore_cases (lat lng : Coord) (aq : Outcome AQData)
    (envRetry : Outcome OverpassData) :
    (∃ data v, aq = .response data ∧ readPm25 data = .ok (some v) ∧
      (calculatePollutionScore lat lng aq envRetry).1 =
        .ok { score := measuredPollutionScore v,
              details := { pm25Value := some v, dataSource := "measured" } }) ∨
    (∃ data e, aq = .response data ∧ readPm25 data = .ok none ∧
      (calculateEnvironmentScore lat lng envRetry).1 = .ok e ∧
      (calculatePollutionScore lat lng aq envRetry).1 =
        .ok { score := max 0 (100 - e.score),
              details := { pm25Value := none, dataSource := "estimated" } }) ∨
    ((aq = .failure ∨ ∃ data err, aq = .response data ∧ readPm25 data = .error err) ∧
      (calculatePollutionScore lat lng aq envRetry).1 =
        .ok { score := 50, details := { pm25Value := none, dataSource := "default" } }) := by
  cases aq with
  | failure =>
    exact Or.inr (Or.inr ⟨Or.inl rfl, rfl⟩)
  | response data =>
    cases hp : readPm25 data with
    | error err =>
      refine Or.inr (Or.inr ⟨Or.inr ⟨data, err, rfl, hp⟩, ?_⟩)
      simp only [calculatePollutionScore, pollutionBody, hp, tryCatch]
    | ok reading =>
      cases reading with
      | some v =>
        refine Or.inl ⟨data, v, rfl, hp, ?_⟩
        simp only [calculatePollutionScore, pollutionBody, hp, tryCatch]
      | none =>
        obtain ⟨e, he⟩ := calculateEnvironmentScore_ok lat lng envRetry
        refine Or.inr (Or.inl ⟨data, e, rfl, hp, he, ?_⟩)
        simp only [calculatePollutionScore, pollutionBody, hp, he, tryCatch]

/-- C11 fails for the amenity scorer: when all seven amenity queries fail the
amenity score is 0, not 50. -/
theorem C11_amenity_failure_scores_zero :
    (calculateAmenityScore (some 18) (some 73) allQueriesFail.amenity).1.toOption.map
      (fun r => r.score) = some 0 ∧
    getAmenityCategories.all (fun c => allQueriesFail.amenity c.name == .failure) = true := by
  decide!

/-- C11 as amended: when its external query fails, the environment scorer,
the safety scorer and the pollution scorer each return the default 50; the
amenity scorer has no default, a category whose query fails counts as not
found and contributes 0, so the amenity score is 0 when all seven queries
fail. All four sub-scores are numbers, and the overall score is computed. -/
theorem C11_amended_defaults_on_failure (lat lng : Coord) (w : World) (now : ℕ) :
    (∃ r, (calculateEnvironmentScore lat lng .failure).1 = .ok r ∧ r.score = 50) ∧
    (∃ r, (calculateSafetyScore lat lng .failure).1 = .ok r ∧ r.score = 50) ∧
    (∃ r, (calculatePollutionScore lat lng .failure w.environmentRetry).1 = .ok r ∧
      r.score = 50) ∧
    (∀ c : AmenityCategory,
      categoryRatio (amenityCategoryResult c .failure) = 0) ∧
    (∃ r, (calculateAmenityScore lat lng (fun _ => .failure)).1 = .ok r ∧ r.score = 0) ∧
    (∃ r, (calculateAllScores lat lng w now).1 = .ok r) := by
  refine ⟨⟨_, rfl, rfl⟩, ⟨_, rfl, rfl⟩, ⟨_, rfl, rfl⟩, fun c => rfl, ⟨_, rfl, ?_⟩, ?_⟩
  · decide!
  · obtain ⟨a, e, s, p, -, -, -, -, h⟩ := calculateAllScores_combine lat lng w now
    exact ⟨_, h⟩

/-- C12 fails: when the air-quality source cannot be reached the result is
the default (50, `default`) although the environment scorer yields 40, for
which the claim announces 60 and `estimated`. -/
theorem C12_unreachable_source_gives_default :
    (calculateEnvironmentScore (some 18) (some 73) (.response .noElements)).1.toOption.map
      (fun r => r.score) = some 40 ∧
    (calculatePollutionScore (some 18) (some 73) .failure (.response .noElements)).1.toOption =
      some { score := 50, details := { pm25Value := none, dataSource := "default" } } := by
  decide!

/-- C12 as amended: when the air-quality request is answered without a
numeric pm25 measurement and the environment scorer, asked again, yields `e`,
the pollution score is `100 - e` with data source `estimated` (50 when that
environment query fails); when the air-quality request itself fails, or
reading its answer throws, the result is 50 with data source `default`
whatever the environment query does. -/
theorem C12_amended_estimate_and_default (lat lng : Coord) (envRetry : Outcome OverpassData) :
    (∀ data, readPm25 data = .ok none →
      ∃ e, (calculateEnvironmentScore lat lng envRetry).1 = .ok e ∧
        (calculatePollutionScore lat lng (.response data) envRetry).1 =
          .ok { score := max 0 (100 - e.score),
                details := { pm25Value := none, dataSource := "estimated" } } ∧
        (answerNonneg envRetry = true → max 0 (100 - e.score) = 100 - e.score) ∧
        (envRetry = .failure → e.score = 50)) ∧
    (calculatePollutionScore lat lng .failure envRetry).1 =
      .ok { score := 50, details := { pm25Value := none, dataSource := "default" } } ∧
    (∀ data err, readPm25 data = .error err →
      (calculatePollutionScore lat lng (.response data) envRetry).1 =
        .ok { score := 50, details := { pm25Value := none, dataSource := "default" } }) := by
  refine ⟨?_, rfl, ?_⟩
  · intro data hd
    obtain ⟨e, he⟩ := calculateEnvironmentScore_ok lat lng envRetry
    refine ⟨e, he, ?_, ?_, ?_⟩
    · simp only [calculatePollutionScore, pollutionBody, hd, he, tryCatch]
    · intro hn
      have := (environment_score_range lat lng envRetry hn e he).2
      exact max_eq_right (by linarith)
    · intro hf
      subst hf
      simp only [calculateEnvironmentScore, environmentBody, tryCatch, Except.ok.injEq] at he
      subst he
      rfl
  · intro data err hd
    simp only [calculatePollutionScore, pollutionBody, hd, tryCatch]

/-- C19: in every result of `calculatePollutionScore` the data source is
`measured` exactly when a numeric PM2.5 reading of the answer was used for the
score (`pm25Value` is not `null`); in the `estimated` and `default` results
`pm25Value` is `null`. -/
theorem C19_measured_iff_reading_used (lat lng : Coord) (aq : Outcome AQData)
    (envRetry : Outcome OverpassData) :
    ∃ r, (calculatePollutionScore lat lng aq envRetry).1 = .ok r ∧
      (r.details.dataSource = "measured" ↔ r.details.pm25Value ≠ none) ∧
      (∀ v, r.details.pm25Value = some v →
        (∃ data, aq = .response data ∧ readPm25 data = .ok (some v)) ∧
          r.score = measuredPollutionScore v) ∧
      (r.details.dataSource = "estimated" → r.details.pm25Value = none) ∧
      (r.details.dataSource = "default" → r.details.pm25Value = none) ∧
      (r.details.dataSource = "measured" ∨ r.details.dataSource = "estimated" ∨
        r.details.dataSource = "default") := by
  rcases calculatePollutionScore_cases lat lng aq envRetry with
    ⟨data, v, haq, hp, h⟩ | ⟨data, e, haq, hp, he, h⟩ | ⟨hf, h⟩
  · refine ⟨_, h, by simp, ?_, by simp, by simp, Or.inl rfl⟩
    intro v' hv'
    simp only [Option.some.injEq] at hv'
    subst hv'
    exact ⟨⟨data, haq, hp⟩, rfl⟩
  · exact ⟨_, h, by simp, by simp, by simp, by simp, Or.inr (Or.inl rfl)⟩
  · exact ⟨_, h, by simp, by simp, by simp, by simp, Or.inr (Or.inr rfl)⟩

/-! ## Environment and safety formulas -/

theorem ltMin_update (acc : Option ℚ) (d : ℚ) :
    ∃ x, (if ltMin d acc = true then some d else acc) = some x ∧ x ≤ d ∧
      (∀ a, acc = some a → x ≤ a) ∧ (x = d ∨ acc = some x) := by
  cases acc with
  | none => exact ⟨d, by simp [ltMin], le_refl d, by simp, Or.inl rfl⟩
  | some a =>
    by_cases hlt : d < a
    · refine ⟨d, by simp [ltMin, hlt], le_refl d, ?_, Or.inl rfl⟩
      intro a' ha'
      simp only [Option.some.injEq] at ha'
      subst ha'
      exact le_of_lt hlt
    · refine ⟨a, by simp [ltMin, hlt], not_lt.mp hlt, ?_, Or.inr rfl⟩
      intro a' ha'
      simp only [Option.some.injEq] at ha'
      subst ha'
      exact le_refl _

theorem leastFrom_nil (acc : Option ℚ) : LeastFrom [] acc acc :=
  ⟨Or.inl rfl, by simp, fun a ha => ⟨a, ha, le_refl a⟩⟩

theorem leastFrom_cons {ds : List ℚ} {acc m : Option ℚ} {d : ℚ}
    (h : LeastFrom ds (if ltMin d acc = true then some d else acc) m) :
    LeastFrom (d :: ds) acc m := by
  obtain ⟨x, hx, hxd, hxa, hor⟩ := ltMin_update acc d
  rw [hx] at h
  obtain ⟨h1, h2, h3⟩ := h
  obtain ⟨y, hy, hyx⟩ := h3 x rfl
  refine ⟨?_, ?_, ?_⟩
  · rcases h1 with h1 | ⟨d', hd', hm⟩
    · rcases hor with hor | hor
      · exact Or.inr ⟨d, by simp, by rw [h1, hor]⟩
      · exact Or.inl (by rw [h1, hor])
    · exact Or.inr ⟨d', by simp [hd'], hm⟩
  · intro d' hd'
    rcases List.mem_cons.mp hd' with rfl | hd'
    · exact ⟨y, hy, le_trans hyx hxd⟩
    · exact h2 d' hd'
  · intro a ha
    exact ⟨y, hy, le_trans hyx (hxa a ha)⟩

/-- From `Infinity`: none found exactly when no distance was met, otherwise
the least distance met. -/
theorem leastFrom_none {ds : List ℚ} {m : Option ℚ} (h : LeastFrom ds none m) :
    (m = none ↔ ds = []) ∧ (∀ d, m = some d → d ∈ ds ∧ ∀ d' ∈ ds, d ≤ d') := by
  obtain ⟨h1, h2, -⟩ := h
  constructor
  · constructor
    · intro hm
      cases ds with
      | nil => rfl
      | cons d ds =>
        obtain ⟨x, hx, -⟩ := h2 d (by simp)
        rw [hm] at hx
        exact absurd hx (by simp)
    · intro hds
      subst hds
      rcases h1 with h1 | ⟨d, hd, -⟩
      · exact h1
      · simp at hd
  · intro d hd
    constructor
    · rcases h1 with h1 | ⟨d', hd', hm⟩
      · rw [hd] at h1
        exact absurd h1 (by simp)
      · rw [hd] at hm
        simp only [Option.some.injEq] at hm
        rw [hm]
        exact hd'
    · intro d' hd'
      obtain ⟨x, hx, hle⟩ := h2 d' hd'
      rw [hd] at hx
      simp only [Option.some.injEq] at hx
      rw [hx]
      exact hle

theorem envLoop_spec (els : List (Option Element)) :
    ∀ acc r, envLoop els acc = .ok r →
      r.greenFeatures = acc.greenFeatures + countTagged isGreen els ∧
      r.industrialFeatures = acc.industrialFeatures + countTagged isIndustrial els ∧
      LeastFrom (taggedDistances isMajorRoad els) acc.nearestMajorRoad r.nearestMajorRoad := by
  induction els with
  | nil =>
    intro acc r h
    simp only [envLoop, Except.ok.injEq] at h
    subst h
    exact ⟨by simp [countTagged], by simp [countTagged], leastFrom_nil _⟩
  | cons e es ih =>
    intro acc r h
    cases e with
    | none => simp [envLoop] at h
    | some el =>
      simp only [envLoop] at h
      obtain ⟨hg, hi, hr⟩ := ih _ r h
      refine ⟨?_, ?_, ?_⟩
      · rw [hg]
        by_cases hgreen : isGreen el.tags = true
        · simp [countTagged, hgreen, List.countP_cons]; omega
        · simp [countTagged, hgreen, List.countP_cons]
      · rw [hi]
        by_cases hind : isIndustrial el.tags = true
        · simp [countTagged, hind, List.countP_cons]; omega
        · simp [countTagged, hind, List.countP_cons]
      · simp only at hr
        by_cases hroad : isMajorRoad el.tags = true
        · cases hc : coordDist el with
          | none =>
            simpa [taggedDistances, hroad, hc] using hr
          | some d =>
            have : taggedDistances isMajorRoad (some el :: es) =
                d :: taggedDistances isMajorRoad es := by
              simp [taggedDistances, hroad, hc]
            rw [this]
            apply leastFrom_cons
            simpa [hroad, hc] using hr
        · simpa [taggedDistances, hroad] using hr

theorem safetyLoop_spec (els : List (Option Element)) :
    ∀ acc r, safetyLoop els acc = .ok r →
      r.policeStations = acc.policeStations + countTagged isPolice els ∧
      r.cctvCameras = acc.cctvCameras + countTagged isCamera els ∧
      r.nightlifeSpots = acc.nightlifeSpots + countTagged isNightlife els ∧
      LeastFrom (taggedDistances isPolice els) acc.nearestPoliceDistance
        r.nearestPoliceDistance := by
  induction els with
  | nil =>
    intro acc r h
    simp only [safetyLoop, Except.ok.injEq] at h
    subst h
    exact ⟨by simp [countTagged], by simp [countTagged], by simp [countTagged],
      leastFrom_nil _⟩
  | cons e es ih =>
    intro acc r h
    cases e with
    | none => simp [safetyLoop] at h
    | some el =>
      simp only [safetyLoop] at h
      have e1 : (el.tags.amenity == some "police") = isPolice el.tags := rfl
      have e2 : (el.tags.surveillance == some "camera") = isCamera el.tags := rfl
      rw [e1, e2] at h
      obtain ⟨hp, hc, hn, hr⟩ := ih _ r h
      refine ⟨?_, ?_, ?_, ?_⟩
      · rw [hp]
        by_cases hpol : isPolice el.tags = true
        · simp [countTagged, hpol, List.countP_cons]; omega
        · simp [countTagged, hpol, List.countP_cons]
      · rw [hc]
        by_cases hcam : isCamera el.tags = true
        · simp [countTagged, hcam, List.countP_cons]; omega
        · simp [countTagged, hcam, List.countP_cons]
      · rw [hn]
        by_cases hnl : isNightlife el.tags = true
        · simp [countTagged, hnl, List.countP_cons]; omega
        · simp [countTagged, hnl, List.countP_cons]
      · simp only at hr
        by_cases hpol : isPolice el.tags = true
        · cases hd : coordDist el with
          | none =>
            simpa [taggedDistances, hpol, hd] using hr
          | some d =>
            have : taggedDistances isPolice (some el :: es) =
                d :: taggedDistances isPolice es := by
              simp [taggedDistances, hpol, hd]
            rw [this]
            apply leastFrom_cons
            simpa [hpol, hd] using hr
        · simpa [taggedDistances, hpol] using hr

/-! ## Monotonicity of the amenity score -/

theorem jsRound_mono {x y : ℚ} (h : x ≤ y) : jsRound x ≤ jsRound y := by
  unfold jsRound
  exact Int.floor_mono (by linarith)

theorem categoryRatio_of_distance (r : CategoryResult) (d : ℚ) (hf : r.found = true)
    (hd : r.distance = some d) : categoryRatio r = max 0 (1 - min d 2000 / 2000) := by
  unfold categoryRatio
  rw [hf, hd]

theorem proximity_antitone {d d' : ℚ} (h : d ≤ d') :
    max 0 (1 - min d' 2000 / 2000) ≤ max 0 (1 - min d 2000 / 2000) := by
  apply max_le_max (le_refl 0)
  have hmin : min d 2000 ≤ min d' 2000 := min_le_min h (le_refl _)
  have : min d 2000 / 2000 ≤ min d' 2000 / 2000 :=
    div_le_div_of_nonneg_right hmin (by norm_num)
  linarith

/-- C15: the amenity score does not increase with the distance to the
nearest feature of one category: if two runs differ only in the answer for
category `c`, whose nearest feature is at distance `d` in the first and
`d' >= d` in the second, the first score is at least the second. -/
theorem C15_amenity_score_antitone (lat lng : Coord) (a1 a2 : String → Outcome OverpassData)
    (c : String) (d d' : ℚ)
    (hsame : ∀ cat ∈ getAmenityCategories, cat.name ≠ c → a1 cat.name = a2 cat.name)
    (h1 : ∀ cat ∈ getAmenityCategories, cat.name = c →
      (amenityCategoryResult cat (a1 cat.name)).distance = some d)
    (h2 : ∀ cat ∈ getAmenityCategories, cat.name = c →
      (amenityCategoryResult cat (a2 cat.name)).distance = some d')
    (hle : d ≤ d') :
    ∃ r1 r2, (calculateAmenityScore lat lng a1).1 = .ok r1 ∧
      (calculateAmenityScore lat lng a2).1 = .ok r2 ∧ r2.score ≤ r1.score := by
  refine ⟨_, _, rfl, rfl, ?_⟩
  simp only [amenityStep_foldl, zero_add, List.map_map]
  apply jsRound_mono
  apply List.sum_le_sum
  intro cat hcat
  simp only [Function.comp]
  apply mul_le_mul_of_nonneg_left _ (by positivity)
  by_cases hc : cat.name = c
  · have hd1 := h1 cat hcat hc
    have hd2 := h2 cat hcat hc
    rw [categoryRatio_of_distance _ d (amenityCategoryResult_distance cat _ d hd1).1 hd1,
      categoryRatio_of_distance _ d' (amenityCategoryResult_distance cat _ d' hd2).1 hd2]
    exact proximity_antitone hle
  · rw [hsame cat hcat hc]

/-- C15 for the hospital category, at 500 m against 1500 m. -/
theorem C15_amenity_score_antitone_witness :
    (500 : ℚ) ≤ 1500 ∧
    ∃ r1 r2, (calculateAmenityScore (some 18) (some 73) hospitalOnly).1 = .ok r1 ∧
      (calculateAmenityScore (some 18) (some 73) hospitalFarther).1 = .ok r2 ∧
      r2.score ≤ r1.score :=
  ⟨by norm_num, C15_amenity_score_antitone (some 18) (some 73) hospitalOnly hospitalFarther
    "Hospital" 500 1500 (by decide) (by decide!) (by decide!) (by norm_num)⟩

/-! ## Deduplication, ranking and truncation -/

theorem blendRecommendations_eq (similar location popular high : List Listing) (limit : ℕ) :
    blendRecommendations similar location popular high limit =
      (sortByScore (deduplicateRecommendations
        (allRecommendations similar location popular high))).take limit := rfl

theorem dedupFilter_eq_firstOccurrences (recs : List Candidate) :
    ∀ seen, dedupFilter recs seen =
      (firstOccurrences recs).filter (fun x => decide (x.listing._id ∉ seen)) := by
  induction recs with
  | nil => intro seen; rfl
  | cons c cs ih =>
    intro seen
    simp only [dedupFilter, firstOccurrences]
    split_ifs with hs
    · rw [ih seen, List.filter_cons_of_neg (by simpa using hs), List.filter_filter]
      apply List.filter_congr
      intro x _
      by_cases hx : x.listing._id ∈ seen
      · simp [hx]
      · have : x.listing._id ≠ c.listing._id := fun h => hx (h ▸ hs)
        simp [hx, this]
    · rw [ih, List.filter_cons_of_pos (by simpa using hs), List.filter_filter]
      congr 1
      apply List.filter_congr
      intro x _
      simp only [List.mem_cons, not_or, ne_eq, Bool.decide_and, Bool.and_comm]

theorem dedupFilter_sublist (recs : List Candidate) :
    ∀ seen, List.Sublist (dedupFilter recs seen) recs := by
  induction recs with
  | nil => intro seen; exact List.Sublist.slnil
  | cons c cs ih =>
    intro seen
    simp only [dedupFilter]
    split_ifs
    · exact (ih seen).cons c
    · exact (ih _).cons₂ c

theorem dedupFilter_covers (recs : List Candidate) :
    ∀ seen, ∀ c ∈ recs, c.listing._id ∉ seen →
      ∃ k ∈ dedupFilter recs seen, k.listing._id = c.listing._id := by
  induction recs with
  | nil => intro seen c hc; simp at hc
  | cons r rs ih =>
    intro seen c hc hs
    simp only [dedupFilter]
    split_ifs with hr
    · rcases List.mem_cons.mp hc with rfl | hc
      · exact absurd hr hs
      · exact ih seen c hc hs
    · by_cases hid : c.listing._id = r.listing._id
      · exact ⟨r, List.mem_cons_self _ _, hid.symm⟩
      · rcases List.mem_cons.mp hc with rfl | hc
        · exact absurd rfl hid
        · obtain ⟨k, hk, hkid⟩ := ih (r.listing._id :: seen) c hc (by simp [hid, hs])
          exact ⟨k, List.mem_cons_of_mem _ hk, hkid⟩

theorem dedupFilter_first (recs : List Candidate) :
    ∀ seen, ∀ k ∈ dedupFilter recs seen,
      recs.find? (fun x => x.listing._id == k.listing._id) = some k := by
  induction recs with
  | nil => intro seen k hk; simp [dedupFilter] at hk
  | cons r rs ih =>
    intro seen k hk
    simp only [dedupFilter] at hk
    split_ifs at hk with hr
    · have hks := (dedupFilter_subset rs seen k hk).2
      have hne : (r.listing._id == k.listing._id) = false := by
        simp only [beq_eq_false_iff_ne, ne_eq]
        exact fun h => hks (h ▸ hr)
      rw [List.find?_cons, hne]
      exact ih seen k hk
    · rcases List.mem_cons.mp hk with rfl | hk
      · simp [List.find?_cons]
      · have hks := (dedupFilter_subset rs _ k hk).2
        have hne : (r.listing._id == k.listing._id) = false := by
          simp only [beq_eq_false_iff_ne, ne_eq]
          exact fun h => hks (by simp [h])
        rw [List.find?_cons, hne]
        exact ih _ k hk

theorem find?_append_cases {α : Type} {p : α → Bool} {l1 l2 : List α} {c : α}
    (h : (l1 ++ l2).find? p = some c) :
    c ∈ l1 ∨ ((∀ x ∈ l1, p x = false) ∧ l2.find? p = some c) := by
  rw [List.find?_append] at h
  cases h1 : l1.find? p with
  | some y =>
    rw [h1] at h
    simp only [Option.or_some, Option.some.injEq] at h
    subst h
    exact Or.inl (List.mem_of_find?_eq_some h1)
  | none =>
    rw [h1] at h
    simp only [Option.none_or] at h
    refine Or.inr ⟨?_, h⟩
    intro x hx
    have := List.find?_eq_none.mp h1 x hx
    simpa using this

/-- C16: `deduplicateRecommendations` returns exactly the subsequence made of
the first occurrence of each listing identifier, in input order, every kept
candidate being the first one of the input with its identifier (so it keeps
that one's type and score); a listing produced by several generators keeps the
tag of the earliest one in the order similar, location, popular, high score. -/
theorem C16_dedup_keeps_first_occurrence (recs : List Candidate)
    (similar location popular high : List Listing) (limit : ℕ) :
    deduplicateRecommendations recs = firstOccurrences recs ∧
    List.Sublist (deduplicateRecommendations recs) recs ∧
    ((deduplicateRecommendations recs).map (fun c => c.listing._id)).Nodup ∧
    (∀ c ∈ recs, ∃ k ∈ deduplicateRecommendations recs, k.listing._id = c.listing._id) ∧
    (∀ k ∈ deduplicateRecommendations recs,
      recs.find? (fun x => x.listing._id == k.listing._id) = some k) ∧
    (∀ c ∈ blendRecommendations similar location popular high limit,
      ((∃ x ∈ similar, x._id = c.listing._id) →
        c.recommendationType = "similar_to_favorites" ∧ c.score = 95) ∧
      ((∀ x ∈ similar, x._id ≠ c.listing._id) → (∃ x ∈ location, x._id = c.listing._id) →
        c.recommendationType = "location_match" ∧ c.score = 85) ∧
      ((∀ x ∈ similar, x._id ≠ c.listing._id) → (∀ x ∈ location, x._id ≠ c.listing._id) →
        (∃ x ∈ popular, x._id = c.listing._id) →
        c.recommendationType = "trending" ∧ c.score = 75) ∧
      ((∀ x ∈ similar, x._id ≠ c.listing._id) → (∀ x ∈ location, x._id ≠ c.listing._id) →
        (∀ x ∈ popular, x._id ≠ c.listing._id) →
        c.recommendationType = "high_location_score" ∧ c.score = 90)) := by
  refine ⟨?_, dedupFilter_sublist recs [], dedupFilter_nodup recs [], ?_,
    dedupFilter_first recs [], ?_⟩
  · unfold deduplicateRecommendations
    rw [dedupFilter_eq_firstOccurrences]
    simp
  · intro c hc
    exact dedupFilter_covers recs [] c hc (by simp)
  · intro c hc
    rw [blendRecommendations_eq] at hc
    have h1 := List.mem_of_mem_take hc
    have h2 : c ∈ deduplicateRecommendations (allRecommendations similar location popular high) :=
      (List.perm_insertionSort _ _).mem_iff.mp h1
    have hfind := dedupFilter_first _ [] c h2
    unfold allRecommendations at hfind
    rw [List.append_assoc, List.append_assoc] at hfind
    rcases find?_append_cases hfind with hin | ⟨hno1, hfind⟩
    · obtain ⟨x, hx, rfl⟩ := List.mem_map.mp hin
      exact ⟨fun _ => ⟨rfl, rfl⟩, fun hn _ => absurd rfl (hn x hx),
        fun hn _ _ => absurd rfl (hn x hx), fun hn _ _ => absurd rfl (hn x hx)⟩
    · have hs : ∀ x ∈ similar, x._id ≠ c.listing._id := by
        intro x hx
        have := hno1 _ (List.mem_map.mpr ⟨x, hx, rfl⟩)
        simpa using this
      rcases find?_append_cases hfind with hin | ⟨hno2, hfind⟩
      · obtain ⟨x, hx, rfl⟩ := List.mem_map.mp hin
        exact ⟨fun ⟨y, hy, hid⟩ => absurd hid (hs y hy), fun _ _ => ⟨rfl, rfl⟩,
          fun _ hn _ => absurd rfl (hn x hx), fun _ hn _ => absurd rfl (hn x hx)⟩
      · have hl : ∀ x ∈ location, x._id ≠ c.listing._id := by
          intro x hx
          have := hno2 _ (List.mem_map.mpr ⟨x, hx, rfl⟩)
          simpa using this
        rcases find?_append_cases hfind with hin | ⟨hno3, hfind⟩
        · obtain ⟨x, hx, rfl⟩ := List.mem_map.mp hin
          exact ⟨fun ⟨y, hy, hid⟩ => absurd hid (hs y hy),
            fun _ ⟨y, hy, hid⟩ => absurd hid (hl y hy), fun _ _ _ => ⟨rfl, rfl⟩,
            fun _ _ hn => absurd rfl (hn x hx)⟩
        · have hp : ∀ x ∈ popular, x._id ≠ c.listing._id := by
            intro x hx
            have := hno3 _ (List.mem_map.mpr ⟨x, hx, rfl⟩)
            simpa using this
          obtain ⟨x, hx, rfl⟩ := List.mem_map.mp (List.mem_of_find?_eq_some hfind)
          exact ⟨fun ⟨y, hy, hid⟩ => absurd hid (hs y hy),
            fun _ ⟨y, hy, hid⟩ => absurd hid (hl y hy),
            fun _ _ ⟨y, hy, hid⟩ => absurd hid (hp y hy), fun _ _ _ => ⟨rfl, rfl⟩⟩

theorem sortByScore_sorted (recs : List Candidate) :
    (sortByScore recs).Pairwise (fun a b => b.score ≤ a.score) := by
  haveI : IsTotal Candidate (fun a b => b.score ≤ a.score) :=
    ⟨fun a b => le_total b.score a.score⟩
  haveI : IsTrans Candidate (fun a b => b.score ≤ a.score) :=
    ⟨fun a b c hab hbc => le_trans hbc hab⟩
  exact List.sorted_insertionSort _ recs

theorem sortByScore_perm (recs : List Candidate) : (sortByScore recs).Perm recs :=
  List.perm_insertionSort _ recs

/-- The sort is stable: candidates of equal score keep their relative order. -/
theorem sortByScore_stable (recs : List Candidate) (k : ℕ) :
    (sortByScore recs).filter (fun c => decide (c.score = k)) =
      recs.filter (fun c => decide (c.score = k)) := by
  have hpw : (recs.filter (fun c => decide (c.score = k))).Pairwise
      (fun a b => b.score ≤ a.score) := by
    rw [List.pairwise_iff_forall_sublist]
    intro a b hab
    have ha : a ∈ recs.filter (fun c => decide (c.score = k)) := hab.subset (by simp)
    have hb : b ∈ recs.filter (fun c => decide (c.score = k)) := hab.subset (by simp)
    simp only [List.mem_filter, decide_eq_true_eq] at ha hb
    rw [ha.2, hb.2]
  have hsub : List.Sublist (recs.filter (fun c => decide (c.score = k))) (sortByScore recs) :=
    List.sublist_insertionSort hpw (List.filter_sublist recs)
  have hsub2 := hsub.filter (fun c => decide (c.score = k))
  rw [List.filter_filter] at hsub2
  simp only [Bool.and_self] at hsub2
  have hlen : ((sortByScore recs).filter (fun c => decide (c.score = k))).length =
      (recs.filter (fun c => decide (c.score = k))).length :=
    ((sortByScore_perm recs).filter _).length_eq
  exact (hsub2.eq_of_length hlen.symm).symm

theorem tagRank_of_blend {similar location popular high : List Listing} {limit : ℕ}
    {c : Candidate} (h : c ∈ blendRecommendations similar location popular high limit) :
    (c.score = 95 ∧ tagRank c.recommendationType = 0) ∨
    (c.score = 90 ∧ tagRank c.recommendationType = 1) ∨
    (c.score = 85 ∧ tagRank c.recommendationType = 2) ∨
    (c.score = 75 ∧ tagRank c.recommendationType = 3) := by
  rcases mem_blendRecommendations h with ⟨ht, hs, -⟩ | ⟨ht, hs, -⟩ | ⟨ht, hs, -⟩ | ⟨ht, hs, -⟩
  · left; rw [ht, hs]; exact ⟨rfl, by decide⟩
  · right; right; left; rw [ht, hs]; exact ⟨rfl, by decide⟩
  · right; right; right; rw [ht, hs]; exact ⟨rfl, by decide⟩
  · right; left; rw [ht, hs]; exact ⟨rfl, by decide⟩

/-- C17: the list returned by `getBuyerRecommendations` on its normal path is
the prefix of a stable sort of the deduplicated candidates by score, highest
first: scores do not increase along the list and candidates of equal score
keep the order they have after deduplication; with the priors 95, 90, 85, 75
every `similar_to_favorites` candidate stands before every
`high_location_score` one, those before every `location_match` one and those
before every `trending` one. -/
theorem C17_sorted_by_score_stable (similar location popular high : List Listing)
    (limit : ℕ) :
    (blendRecommendations similar location popular high limit).Pairwise
      (fun a b => b.score ≤ a.score) ∧
    blendRecommendations similar location popular high limit =
      (sortByScore (deduplicateRecommendations
        (allRecommendations similar location popular high))).take limit ∧
    (sortByScore (deduplicateRecommendations
        (allRecommendations similar location popular high))).Pairwise
      (fun a b => b.score ≤ a.score) ∧
    (sortByScore (deduplicateRecommendations
        (allRecommendations similar location popular high))).Perm
      (deduplicateRecommendations (allRecommendations similar location popular high)) ∧
    (∀ k : ℕ,
      (sortByScore (deduplicateRecommendations
          (allRecommendations similar location popular high))).filter
        (fun c => decide (c.score = k)) =
      (deduplicateRecommendations (allRecommendations similar location popular high)).filter
        (fun c => decide (c.score = k))) ∧
    (blendRecommendations similar location popular high limit).Pairwise
      (fun a b => tagRank a.recommendationType ≤ tagRank b.recommendationType) ∧
    (tagRank "similar_to_favorites" < tagRank "high_location_score" ∧
      tagRank "high_location_score" < tagRank "location_match" ∧
      tagRank "location_match" < tagRank "trending") := by
  have hsorted : (blendRecommendations similar location popular high limit).Pairwise
      (fun a b => b.score ≤ a.score) := by
    rw [blendRecommendations_eq]
    exact (sortByScore_sorted _).sublist (List.take_sublist _ _)
  refine ⟨hsorted, rfl, sortByScore_sorted _, sortByScore_perm _, sortByScore_stable _, ?_,
    by decide⟩
  rw [List.pairwise_iff_forall_sublist] at hsorted ⊢
  intro a b hab
  have hle := hsorted hab
  have ha : a ∈ blendRecommendations similar location popular high limit :=
    hab.subset (by simp)
  have hb : b ∈ blendRecommendations similar location popular high limit :=
    hab.subset (by simp)
  rcases tagRank_of_blend ha with ha | ha | ha | ha <;>
    rcases tagRank_of_blend hb with hb | hb | hb | hb <;> omega

/-- C18: for every limit the list returned by `getBuyerRecommendations` on
its normal path is the prefix of length `limit` of the sorted deduplicated
list; its length is the minimum of `limit` and the number of distinct listing
identifiers generated, hence at most `limit`. -/
theorem C18_truncated_to_limit (similar location popular high : List Listing) (limit : ℕ)
    (db : Db) (userId : String) :
    blendRecommendations similar location popular high limit =
      (sortByScore (deduplicateRecommendations
        (allRecommendations similar location popular high))).take limit ∧
    (blendRecommendations similar location popular high limit).length =
      min limit (((allRecommendations similar location popular high).map
        (fun c => c.listing._id)).toFinset.card) ∧
    (blendRecommendations similar location popular high limit).length ≤ limit ∧
    (match getBuyerRecommendations db userId limit with
     | .ranked candidates => candidates.length ≤ limit
     | .popular _ => True) := by
  have hcard : (deduplicateRecommendations
      (allRecommendations similar location popular high)).length =
      ((allRecommendations similar location popular high).map
        (fun c => c.listing._id)).toFinset.card := by
    unfold deduplicateRecommendations
    rw [← List.length_map (dedupFilter _ []) (fun c => c.listing._id),
      ← List.toFinset_card_of_nodup (dedupFilter_nodup _ [])]
    congr 1
    ext i
    simp only [List.mem_toFinset, List.mem_map]
    constructor
    · rintro ⟨k, hk, rfl⟩
      exact ⟨k, (dedupFilter_subset _ _ k hk).1, rfl⟩
    · rintro ⟨c, hc, rfl⟩
      obtain ⟨k, hk, hid⟩ := dedupFilter_covers _ [] c hc (by simp)
      exact ⟨k, hk, hid⟩
  have hlen : (blendRecommendations similar location popular high limit).length =
      min limit (((allRecommendations similar location popular high).map
        (fun c => c.listing._id)).toFinset.card) := by
    rw [blendRecommendations_eq, List.length_take, sortByScore, List.length_insertionSort,
      hcard]
  refine ⟨rfl, hlen, by rw [hlen]; exact min_le_left _ _, ?_⟩
  unfold getBuyerRecommendations buyerBody
  cases findUserById db userId with
  | none => simp
  | some user =>
    simp only [blendRecommendations_eq, List.length_take]
    exact min_le_left _ _

/-! ## Preference updates -/

theorem find_setPreferences (userId : String) (prefs : PropertyPreferences) (users : List User)
    (user : User) (h : users.find? (fun u => decide (u._id = userId)) = some user) :
    (setPreferences userId prefs users).find? (fun u => decide (u._id = userId)) =
      some { user with propertyPreferences := some prefs } := by
  induction users with
  | nil => simp at h
  | cons u us ih =>
    by_cases hu : u._id = userId
    · simp only [List.find?_cons, hu, decide_True, Option.some.injEq] at h
      subst h
      simp [setPreferences, hu, List.find?_cons]
    · simp only [List.find?_cons, hu, decide_False] at h
      simp only [setPreferences, hu, if_false, List.find?_cons, decide_False]
      exact ih h

theorem updateUserPreferences_user (db : Db) (userId listingId : String) (user : User)
    (listing : Listing) (hu : findUserById db userId = some user)
    (hl : findListingById db listingId = some listing) :
    findUserById (updateUserPreferences db userId listingId) userId =
      some { user with
        propertyPreferences :=
          some (updatedPreferences (initializePreferences user) listing) } := by
  simp only [updateUserPreferences, hl, hu]
  exact find_setPreferences userId _ db.users user hu

theorem setPreferences_idem (userId : String) (prefs : PropertyPreferences)
    (users : List User) :
    setPreferences userId prefs (setPreferences userId prefs users) =
      setPreferences userId prefs users := by
  induction users with
  | nil => rfl
  | cons u us ih =>
    by_cases hu : u._id = userId
    · simp [setPreferences, hu]
    · simp [setPreferences, hu, ih]

/-- What the update keeps: both budget bounds and the two maxima are kept
when non-zero, and a bedroom or bathroom minimum is kept when its maximum is
non-zero. -/
theorem updatedPreferences_keeps (prefs : PropertyPreferences) (listing : Listing) :
    (prefs.budgetRange.min ≠ 0 →
      (updatedPreferences prefs listing).budgetRange.min = prefs.budgetRange.min) ∧
    (prefs.budgetRange.max ≠ 0 →
      (updatedPreferences prefs listing).budgetRange.max = prefs.budgetRange.max) ∧
    (prefs.bedrooms.max ≠ 0 → (updatedPreferences prefs listing).bedrooms = prefs.bedrooms) ∧
    (prefs.bathrooms.max ≠ 0 →
      (updatedPreferences prefs listing).bathrooms = prefs.bathrooms) := by
  refine ⟨?_, ?_, ?_, ?_⟩
  · intro h
    simp only [updatedPreferences]
    split_ifs <;> simp_all
  · intro h
    simp only [updatedPreferences]
    split_ifs <;> simp_all
  · intro h
    simp only [updatedPreferences]
    cases listing.bedrooms with
    | none => rfl
    | some n => simp [h]
  · intro h
    simp only [updatedPreferences]
    cases listing.bathrooms with
    | none => rfl
    | some n => simp [h]

/-- C21, the code at the failing input: the stored bedroom minimum 2 (with the
maximum still 0) is overwritten by 3 when the user favorites a three-bedroom
listing, because the update of both bedroom bounds is guarded by the maximum
alone; the budget bounds are guarded one by one and keep a non-zero value. -/
theorem C21_bedroom_minimum_is_overwritten :
    (initializePreferences minimumOnlyUser).bedrooms.min = 2 ∧
    (updatedPreferences (initializePreferences minimumOnlyUser) threeBedroomFlat).bedrooms.min
      = 3 ∧
    ((findUserById (updateUserPreferences minimumOnlyDb "u2" "B3") "u2").bind
        (fun u => u.propertyPreferences)).map (fun p => p.bedrooms) =
      some { min := 3, max := 3 } ∧
    (∀ (prefs : PropertyPreferences) (listing : Listing),
      (prefs.budgetRange.min ≠ 0 →
        (updatedPreferences prefs listing).budgetRange.min = prefs.budgetRange.min) ∧
      (prefs.budgetRange.max ≠ 0 →
        (updatedPreferences prefs listing).budgetRange.max = prefs.budgetRange.max) ∧
      (prefs.bedrooms.max ≠ 0 →
        (updatedPreferences prefs listing).bedrooms = prefs.bedrooms) ∧
      (prefs.bathrooms.max ≠ 0 →
        (updatedPreferences prefs listing).bathrooms = prefs.bathrooms)) :=
  ⟨by decide!, by decide!, by decide!, updatedPreferences_keeps⟩

theorem preferences_eq_of_fields (a b : PropertyPreferences)
    (h1 : a.preferredTypes = b.preferredTypes) (h2 : a.preferredLocations = b.preferredLocations)
    (h3 : a.budgetRange = b.budgetRange) (h4 : a.bedrooms = b.bedrooms)
    (h5 : a.bathrooms = b.bathrooms) : a = b := by
  cases a
  cases b
  simp_all

theorem updateUserPreferences_eq (db : Db) (userId listingId : String) (user : User)
    (listing : Listing) (hu : findUserById db userId = some user)
    (hl : findListingById db listingId = some listing) :
    updateUserPreferences db userId listingId =
      { db with
        users := setPreferences userId
          (updatedPreferences (initializePreferences user) listing) db.users } := by
  simp only [updateUserPreferences, hl, hu]

theorem updatedPreferences_idem (prefs : PropertyPreferences) (listing : Listing) :
    updatedPreferences (updatedPreferences prefs listing) listing =
      updatedPreferences prefs listing := by
  have htypes : (updatedPreferences (updatedPreferences prefs listing) listing).preferredTypes =
      (updatedPreferences prefs listing).preferredTypes := by
    simp only [updatedPreferences]
    by_cases h1 : listing.propertyType = ""
    · simp [h1]
    · by_cases h2 : listing.propertyType ∈ prefs.preferredTypes
      · simp [h1, h2]
      · simp [h1, h2]
  have hlocs : (updatedPreferences (updatedPreferences prefs listing) listing).preferredLocations
      = (updatedPreferences prefs listing).preferredLocations := by
    simp only [updatedPreferences]
    cases listing.city with
    | none => rfl
    | some city =>
      by_cases h1 : city = ""
      · simp [h1]
      · by_cases h2 : city ∈ prefs.preferredLocations
        · simp [h1, h2]
        · simp [h1, h2]
  have hbudget : (updatedPreferences (updatedPreferences prefs listing) listing).budgetRange =
      (updatedPreferences prefs listing).budgetRange := by
    simp only [updatedPreferences]
    by_cases h0 : listing.price = 0
    · simp [h0]
    · by_cases h1 : prefs.budgetRange.max = 0 <;> by_cases h2 : prefs.budgetRange.min = 0 <;>
        simp [h0, h1, h2]
  have hbed : (updatedPreferences (updatedPreferences prefs listing) listing).bedrooms =
      (updatedPreferences prefs listing).bedrooms := by
    simp only [updatedPreferences]
    cases listing.bedrooms with
    | none => rfl
    | some n =>
      by_cases h0 : n = 0
      · simp [h0]
      · by_cases h1 : prefs.bedrooms.max = 0 <;> simp [h0, h1]
  have hbath : (updatedPreferences (updatedPreferences prefs listing) listing).bathrooms =
      (updatedPreferences prefs listing).bathrooms := by
    simp only [updatedPreferences]
    cases listing.bathrooms with
    | none => rfl
    | some n =>
      by_cases h0 : n = 0
      · simp [h0]
      · by_cases h1 : prefs.bathrooms.max = 0 <;> simp [h0, h1]
  exact preferences_eq_of_fields _ _ htypes hlocs hbudget hbed hbath

/-- C29: `updateUserPreferences` is idempotent on the stored profile: run a
second time with the same user and listing it leaves the store, and so the
`propertyPreferences` of the user, as the first run left them. -/
theorem C29_updateUserPreferences_idempotent (db : Db) (userId listingId : String) :
    updateUserPreferences (updateUserPreferences db userId listingId) userId listingId =
      updateUserPreferences db userId listingId ∧
    (∀ prefs listing, updatedPreferences (updatedPreferences prefs listing) listing =
      updatedPreferences prefs listing) := by
  refine ⟨?_, updatedPreferences_idem⟩
  cases hl : findListingById db listingId with
  | none => simp [updateUserPreferences, hl]
  | some listing =>
    cases hu : findUserById db userId with
    | none => simp [updateUserPreferences, hl, hu]
    | some user =>
      have h1 := updateUserPreferences_eq db userId listingId user listing hu hl
      have hl2 : findListingById (updateUserPreferences db userId listingId) listingId =
          some listing := by
        rw [h1]
        exact hl
      have hu2 := updateUserPreferences_user db userId listingId user listing hu hl
      have h2 := updateUserPreferences_eq (updateUserPreferences db userId listingId) userId
        listingId _ listing hu2 hl2
      have hinit : initializePreferences
          { user with
            propertyPreferences :=
              some (updatedPreferences (initializePreferences user) listing) } =
          updatedPreferences (initializePreferences user) listing := rfl
      rw [h2, hinit, updatedPreferences_idem, h1]
      simp only [setPreferences_idem]

/-! ## Green features, quotas and the safety ceiling -/

theorem environmentBody_details (o : Outcome OverpassData) (r : EnvResult)
    (h : environmentBody o = .ok r) :
    ∃ els, (o = .response (.elements els) ∨ (o = .response .noElements ∧ els = [])) ∧
      r.score = envScoreOf r.details ∧
      r.details.greenFeatures = countTagged isGreen els ∧
      r.details.industrialFeatures = countTagged isIndustrial els := by
  unfold environmentBody at h
  match o with
  | .failure => simp at h
  | .response .null => simp at h
  | .response .noElements =>
    simp only [Except.ok.injEq] at h
    subst h
    exact ⟨[], Or.inr ⟨rfl, rfl⟩, rfl, by simp [countTagged], by simp [countTagged]⟩
  | .response (.elements els) =>
    simp only at h
    split at h
    · simp at h
    · rename_i d hl
      simp only [Except.ok.injEq] at h
      subst h
      obtain ⟨hg, hi, -⟩ := envLoop_spec els _ d hl
      exact ⟨els, Or.inl rfl, rfl, by simpa using hg, by simpa using hi⟩

theorem isGreen_iff (tags : Tags) :
    isGreen tags = true ↔
      tags.leisure = some "park" ∨ tags.landuse = some "forest" ∨
        tags.natural = some "wood" ∨ tags.leisure = some "garden" := by
  simp [isGreen, or_assoc]

/-- C24 fails: an element tagged `leisure=garden` that is neither a park nor
a forest nor a wood is counted as a green feature. -/
theorem C24_garden_is_counted_green :
    environmentBody (.response (.elements [some gardenOnIndustrialSite])) =
      .ok { score := 33,
            details := { greenFeatures := 1, industrialFeatures := 1,
                         nearestMajorRoad := none } } ∧
    gardenOnIndustrialSite.tags.leisure ≠ some "park" ∧
    gardenOnIndustrialSite.tags.landuse ≠ some "forest" ∧
    gardenOnIndustrialSite.tags.natural ≠ some "wood" := by
  decide!

/-- C24 as amended: the `greenFeatures` count reported by
`calculateEnvironmentScore` is the number of returned elements tagged
`leisure=park`, `landuse=forest`, `natural=wood` or `leisure=garden` whenever
the query succeeds, and 0 in the default result; no element without one of
these four tags is counted. -/
theorem C24_amended_green_count (lat lng : Coord) (o : Outcome OverpassData) :
    (∃ r, (calculateEnvironmentScore lat lng o).1 = .ok r ∧
      ((∃ els, (o = .response (.elements els) ∨ (o = .response .noElements ∧ els = [])) ∧
          environmentBody o = .ok r ∧
          r.details.greenFeatures = countTagged isGreen els) ∨
        ((∃ err, environmentBody o = .error err) ∧ r.details.greenFeatures = 0))) ∧
    (∀ tags : Tags, isGreen tags = true ↔
      tags.leisure = some "park" ∨ tags.landuse = some "forest" ∨
        tags.natural = some "wood" ∨ tags.leisure = some "garden") ∧
    (∀ els : List (Option Element), countTagged isGreen els =
      els.countP (fun e =>
        match e with
        | some el => isGreen el.tags
        | none => false)) := by
  refine ⟨?_, isGreen_iff, fun els => rfl⟩
  cases hb : environmentBody o with
  | error err =>
    refine ⟨{ score := 50,
              details := { greenFeatures := 0, industrialFeatures := 0,
                           nearestMajorRoad := none } }, ?_, Or.inr ⟨⟨err, rfl⟩, rfl⟩⟩
    simp only [calculateEnvironmentScore, hb, tryCatch]
  | ok r =>
    obtain ⟨els, ho, -, hg, -⟩ := environmentBody_details o r hb
    exact ⟨r, by simp only [calculateEnvironmentScore, hb, tryCatch],
      Or.inl ⟨els, ho, rfl, hg⟩⟩

theorem quota_bounds (limit tenths : ℕ) :
    (limit : ℚ) * ((tenths : ℚ) / 10) ≤ (quota limit tenths : ℚ) ∧
      (quota limit tenths : ℚ) < (limit : ℚ) * ((tenths : ℚ) / 10) + 1 := by
  unfold quota
  exact ⟨Nat.le_ceil _, Nat.ceil_lt_add_one (by positivity)⟩

/-- C25: `getBuyerRecommendations` asks the similar-to-favorites, location,
popular and high-score generators for `ceil(0.4 L)`, `ceil(0.3 L)`,
`ceil(0.2 L)` and `ceil(0.1 L)` candidates; the four quotas add up to at least
`L` and at most `L + 3`. -/
theorem C25_generator_quotas (db : Db) (userId : String) (limit : ℕ) :
    (∀ user, findUserById db userId = some user →
      buyerBody db userId limit =
        .ok (blendRecommendations
          (getSimilarToListings db userId ⌈(limit : ℚ) * (4 / 10)⌉₊)
          (getLocationBasedRecommendations db (preferredCity user.propertyPreferences)
            ⌈(limit : ℚ) * (3 / 10)⌉₊)
          (getPopularListings db ⌈(limit : ℚ) * (2 / 10)⌉₊ [])
          (getHighLocationScoreListings db ⌈(limit : ℚ) * (1 / 10)⌉₊) limit)) ∧
    limit ≤ quota limit 4 + quota limit 3 + quota limit 2 + quota limit 1 ∧
    quota limit 4 + quota limit 3 + quota limit 2 + quota limit 1 ≤ limit + 3 ∧
    (quota limit 4 = ⌈(limit : ℚ) * (4 / 10)⌉₊ ∧ quota limit 3 = ⌈(limit : ℚ) * (3 / 10)⌉₊ ∧
      quota limit 2 = ⌈(limit : ℚ) * (2 / 10)⌉₊ ∧ quota limit 1 = ⌈(limit : ℚ) * (1 / 10)⌉₊) := by
  have e4 : quota limit 4 = ⌈(limit : ℚ) * (4 / 10)⌉₊ := by simp [quota]
  have e3 : quota limit 3 = ⌈(limit : ℚ) * (3 / 10)⌉₊ := by simp [quota]
  have e2 : quota limit 2 = ⌈(limit : ℚ) * (2 / 10)⌉₊ := by simp [quota]
  have e1 : quota limit 1 = ⌈(limit : ℚ) * (1 / 10)⌉₊ := by simp [quota]
  obtain ⟨l4, u4⟩ := quota_bounds limit 4
  obtain ⟨l3, u3⟩ := quota_bounds limit 3
  obtain ⟨l2, u2⟩ := quota_bounds limit 2
  obtain ⟨l1, u1⟩ := quota_bounds limit 1
  push_cast at l4 u4 l3 u3 l2 u2 l1 u1
  refine ⟨?_, ?_, ?_, e4, e3, e2, e1⟩
  · intro user hu
    simp only [buyerBody, hu, e4, e3, e2, e1]
  · have : (limit : ℚ) ≤ ((quota limit 4 + quota limit 3 + quota limit 2 + quota limit 1 : ℕ) : ℚ) := by
      push_cast
      linarith
    exact_mod_cast this
  · have : ((quota limit 4 + quota limit 3 + quota limit 2 + quota limit 1 : ℕ) : ℚ) <
        ((limit + 4 : ℕ) : ℚ) := by
      push_cast
      linarith
    have h := Nat.cast_lt.mp this
    omega

theorem taggedDistances_subset (test : Tags → Bool) (els : List (Option Element)) :
    ∀ d ∈ taggedDistances test els, d ∈ usableDistances els := by
  intro d hd
  simp only [taggedDistances, List.mem_filterMap] at hd
  obtain ⟨e, he, hed⟩ := hd
  simp only [usableDistances, List.mem_filterMap]
  refine ⟨e, he, ?_⟩
  cases e with
  | none => simp at hed
  | some el =>
    simp only at hed
    split_ifs at hed
    simpa [Option.bind] using hed

theorem safetyBody_details (o : Outcome OverpassData) (r : SafetyResult)
    (h : safetyBody o = .ok r) (hn : answerNonneg o = true) :
    r.score = safetyScoreOf r.details ∧
      ∀ d, r.details.nearestPoliceDistance = some d → 0 ≤ d := by
  unfold safetyBody at h
  match o, hn with
  | .failure, _ => simp at h
  | .response .null, _ => simp at h
  | .response .noElements, _ =>
    simp only [Except.ok.injEq] at h
    subst h
    exact ⟨rfl, by simp⟩
  | .response (.elements els), hn =>
    simp only at h
    split at h
    · simp at h
    · rename_i d hl
      simp only [Except.ok.injEq] at h
      subst h
      refine ⟨rfl, ?_⟩
      intro x hx
      obtain ⟨-, -, -, hr⟩ := safetyLoop_spec els _ d hl
      have hmem := ((leastFrom_none hr).2 x hx).1
      exact usableDistances_nonneg els hn x (taggedDistances_subset _ els x hmem)

theorem safetyRawOf_le (d : SafetyDetails) (h : ∀ x, d.nearestPoliceDistance = some x → 0 ≤ x) :
    safetyRawOf d ≤ 825 / 1000 := by
  unfold safetyRawOf
  simp only [MAX_RADIUS, Nat.cast_ofNat]
  have hp : (match d.nearestPoliceDistance with
      | none => (0 : ℚ)
      | some dist => max 0 (1 - min dist 2000 / 2000)) ≤ 1 := by
    cases hd : d.nearestPoliceDistance with
    | none => simp
    | some x =>
      simp only
      have hx : 0 ≤ x := h x hd
      have hmin : 0 ≤ min x 2000 := le_min hx (by norm_num)
      have : 0 ≤ min x 2000 / 2000 := div_nonneg hmin (by norm_num)
      exact max_le (by norm_num) (by linarith)
  have hc : min 1 ((d.policeStations : ℚ) / 3) ≤ 1 := min_le_left _ _
  have hv : min 1 ((d.cctvCameras : ℚ) / 5) ≤ 1 := min_le_left _ _
  have hnl : (0 : ℚ) ≤ min 1 ((d.nightlifeSpots : ℚ) / 5) :=
    le_min (by norm_num) (div_nonneg (Nat.cast_nonneg _) (by norm_num))
  linarith

/-- C28: for every response to the safety query the raw safety value is at
most 0.825, so the upper clamp to 1 never changes it and `calculateSafetyScore`
never returns more than 83; the lower clamp can change it (five bars and no
police give a raw value of -0.025, score 0), and 83 is reached. The distances
in the response are values of `haversine`, hence non-negative. -/
theorem C28_safety_ceiling (lat lng : Coord) (o : Outcome OverpassData)
    (hn : answerNonneg o = true) :
    (∃ r, (calculateSafetyScore lat lng o).1 = .ok r ∧ r.score ≤ 83) ∧
    (∀ r, safetyBody o = .ok r →
      safetyRawOf r.details ≤ 825 / 1000 ∧
      min 1 (safetyRawOf r.details) = safetyRawOf r.details ∧
      r.score = jsRound (max 0 (safetyRawOf r.details) * 100)) ∧
    ((safetyBody fiveBars).toOption.map
        (fun r => (safetyRawOf r.details, max 0 (safetyRawOf r.details), r.score)) =
      some (-(25 / 1000), 0, 0)) ∧
    ((safetyBody wellGuarded).toOption.map (fun r => (safetyRawOf r.details, r.score)) =
      some (825 / 1000, 83)) := by
  have hbody : ∀ r, safetyBody o = .ok r →
      safetyRawOf r.details ≤ 825 / 1000 ∧
      min 1 (safetyRawOf r.details) = safetyRawOf r.details ∧
      r.score = jsRound (max 0 (safetyRawOf r.details) * 100) := by
    intro r hr
    obtain ⟨hs, hd⟩ := safetyBody_details o r hr hn
    have hle := safetyRawOf_le r.details hd
    have hmin : min 1 (safetyRawOf r.details) = safetyRawOf r.details :=
      min_eq_right (by linarith)
    refine ⟨hle, hmin, ?_⟩
    rw [hs, safetyScoreOf, hmin]
  refine ⟨?_, hbody, by decide!, by decide!⟩
  cases hb : safetyBody o with
  | error err =>
    refine ⟨{ score := 50,
              details := { policeStations := 0, nearestPoliceDistance := none,
                           cctvCameras := 0, nightlifeSpots := 0 } }, ?_, by norm_num⟩
    simp only [calculateSafetyScore, hb, tryCatch]
  | ok r =>
    refine ⟨r, by simp only [calculateSafetyScore, hb, tryCatch], ?_⟩
    obtain ⟨hle, -, hs⟩ := hbody r hb
    rw [hs]
    have h1 : max 0 (safetyRawOf r.details) * 100 ≤ 825 / 10 := by
      have : max 0 (safetyRawOf r.details) ≤ 825 / 1000 := max_le (by norm_num) hle
      linarith
    have h2 := jsRound_mono h1
    have h3 : jsRound (825 / 10) = 83 := by decide!
    rw [h3] at h2
    exact h2

/-- C28 at the answer `wellGuarded`, where the ceiling is reached. -/
theorem C28_safety_ceiling_witness :
    answerNonneg wellGuarded = true ∧
    ∃ r, (calculateSafetyScore (some 18) (some 73) wellGuarded).1 = .ok r ∧ r.score ≤ 83 :=
  ⟨by decide!, (C28_safety_ceiling (some 18) (some 73) wellGuarded (by decide!)).1⟩

/-! ## Listing controller -/

/-- C26 fails: of two listings of special owners the comparator puts the
newer one first although the older one is featured; the lexicographic order
puts the featured one first. -/
theorem C26_special_owners_ignore_featured :
    compareListings olderFeatured newerPlain = 1 ∧
    sortListings [olderFeatured, newerPlain] = [newerPlain, olderFeatured] ∧
    lexBefore olderFeatured newerPlain = true := by
  decide

/-- C26 as amended: the comparator puts listings of special owners first;
two listings of special owners are ordered by creation time alone, newer
first, whatever their featured flags; two listings of other owners are ordered
featured first and, with the same featured flag, newer first. For every pair
that is not a pair of two special owners this is the lexicographic order by
special owner, featured and creation time. -/
theorem C26_amended_comparator (a b : PageListing) :
    (compareListings a b < 0 ↔
      (a.isSpecial = true ∧ b.isSpecial = false) ∨
      (a.isSpecial = true ∧ b.isSpecial = true ∧ b.createdAt < a.createdAt) ∨
      (a.isSpecial = false ∧ b.isSpecial = false ∧
        ((a.featured = true ∧ b.featured = false) ∨
         (a.featured = b.featured ∧ b.createdAt < a.createdAt)))) ∧
    (compareListings a b < 0 ↔ 0 < compareListings b a) ∧
    ((a.isSpecial && b.isSpecial) = false →
      (compareListings a b < 0 ↔ lexBefore a b = true)) := by
  unfold compareListings lexBefore
  cases ha : a.isSpecial <;> cases hb : b.isSpecial <;>
    cases hfa : a.featured <;> cases hfb : b.featured <;> simp

theorem amenityCategoryResult_category (cat : AmenityCategory) (o : Outcome OverpassData) :
    (amenityCategoryResult cat o).category = cat.name := by
  unfold amenityCategoryResult amenityCategoryBody
  match o with
  | .failure => rfl
  | .response .null => rfl
  | .response .noElements => rfl
  | .response (.elements []) => rfl
  | .response (.elements (e :: es)) =>
    simp only
    cases findNearest (e :: es) none <;> rfl

/-- C27, the code on every input: the keys written to
`scoreDetails.amenityDetails` are `hospital`, `school`, `college`, `mall`,
`pharmacy`, `policestation` and `busstop`; the last two are not among the keys
the Listing schema declares, and the declared keys `police` and `busStop` are
never written. -/
theorem C27_amenity_keys_miss_the_schema (lat lng : Coord) (w : World) (now : ℕ) :
    (∃ r, (calculateAllScores lat lng w now).1 = .ok r ∧
      r.scoreDetails.amenityDetails.map (fun kv => kv.1) =
        ["hospital", "school", "college", "mall", "pharmacy", "policestation", "busstop"]) ∧
    "policestation" ∉ amenityDetailsSchemaKeys ∧ "busstop" ∉ amenityDetailsSchemaKeys ∧
    "police" ∉ getAmenityCategories.map (fun c => amenityKey c.name) ∧
    "busStop" ∉ getAmenityCategories.map (fun c => amenityKey c.name) ∧
    amenityKey "Police Station" = "policestation" ∧ amenityKey "Bus Stop" = "busstop" := by
  refine ⟨?_, by decide, by decide, by decide, by decide, by decide, by decide⟩
  obtain ⟨a, e, s, p, ha, -, -, -, h⟩ := calculateAllScores_combine lat lng w now
  refine ⟨_, h, ?_⟩
  simp only [calculateAmenityScore, Except.ok.injEq] at ha
  subst ha
  simp only [combineScores, List.map_map, Function.comp, amenityCategoryResult_category,
    getAmenityCategories, List.map_cons, List.map_nil]
  decide

theorem calculateLocationScores_falsy (parse : String → Option ℚ) (latitude longitude : JsValue)
    (w : World) (now : ℕ) (h : latitude.truthy = false ∨ longitude.truthy = false) :
    calculateLocationScores parse latitude longitude w now =
      (.badRequest "Latitude and longitude are required", []) := by
  unfold calculateLocationScores
  rcases h with h | h <;> simp [h]

/-- C23, the code at the failing input: a latitude given as the number 0
(with any longitude), or a longitude given as the number 0, is answered with
400 `Latitude and longitude are required` and `calculateAllScores` is not
called, although 0 is numeric and in range. Truthy values that parse to an
in-range pair are passed on, the string `"0"` included; values that do not
parse or are out of range are answered with 400 and no request is sent. -/
theorem C23_zero_coordinate_is_rejected (parse : String → Option ℚ) (other : JsValue)
    (w : World) (now : ℕ) :
    calculateLocationScores parse (.number 0) other w now =
      (.badRequest "Latitude and longitude are required", []) ∧
    calculateLocationScores parse other (.number 0) w now =
      (.badRequest "Latitude and longitude are required", []) ∧
    ((-90 : ℚ) ≤ 0 ∧ (0 : ℚ) ≤ 90 ∧ (-180 : ℚ) ≤ 0 ∧ (0 : ℚ) ≤ 180) ∧
    (∀ (latitude longitude : JsValue) (lat lng : ℚ),
      latitude.truthy = true → longitude.truthy = true →
      latitude.parseFloat parse = some lat → longitude.parseFloat parse = some lng →
      -90 ≤ lat → lat ≤ 90 → -180 ≤ lng → lng ≤ 180 →
      ∃ scores, (calculateAllScores (some lat) (some lng) w now).1 = .ok scores ∧
        calculateLocationScores parse latitude longitude w now =
          (.success scores, (calculateAllScores (some lat) (some lng) w now).2)) ∧
    (∀ (latitude longitude : JsValue),
      (latitude.parseFloat parse = none ∨ longitude.parseFloat parse = none ∨
        (∃ lat, latitude.parseFloat parse = some lat ∧ (lat < -90 ∨ 90 < lat)) ∨
        (∃ lng, longitude.parseFloat parse = some lng ∧ (lng < -180 ∨ 180 < lng))) →
      ∃ message, calculateLocationScores parse latitude longitude w now =
        (.badRequest message, [])) := by
  refine ⟨calculateLocationScores_falsy parse _ _ w now (Or.inl rfl),
    calculateLocationScores_falsy parse _ _ w now (Or.inr rfl), by norm_num, ?_, ?_⟩
  · intro latitude longitude lat lng ht1 ht2 hp1 hp2 h1 h2 h3 h4
    obtain ⟨a, e, s, p, -, -, -, -, h⟩ := calculateAllScores_combine (some lat) (some lng) w now
    refine ⟨_, h, ?_⟩
    have hr : ¬ (lat < -90 ∨ lat > 90 ∨ lng < -180 ∨ lng > 180) := by
      push_neg
      exact ⟨h1, h2, h3, h4⟩
    simp only [calculateLocationScores, ht1, ht2, hp1, hp2, hr, h, Bool.not_true, Bool.or_self,
      Bool.false_eq_true, if_false]
  · intro latitude longitude hbad
    by_cases ht : latitude.truthy = false ∨ longitude.truthy = false
    · exact ⟨_, calculateLocationScores_falsy parse _ _ w now ht⟩
    · have ht1 : latitude.truthy = true := by
        cases h : latitude.truthy
        · exact absurd (Or.inl h) ht
        · rfl
      have ht2 : longitude.truthy = true := by
        cases h : longitude.truthy
        · exact absurd (Or.inr h) ht
        · rfl
      cases hp1 : latitude.parseFloat parse with
      | none =>
        exact ⟨"Invalid coordinates provided", by simp only [calculateLocationScores, ht1, ht2, hp1, Bool.not_true,
          Bool.or_self, Bool.false_eq_true, if_false]⟩
      | some lat =>
        cases hp2 : longitude.parseFloat parse with
        | none =>
          exact ⟨"Invalid coordinates provided", by simp only [calculateLocationScores, ht1, ht2, hp1, hp2, Bool.not_true,
            Bool.or_self, Bool.false_eq_true, if_false]⟩
        | some lng =>
          have hr : lat < -90 ∨ lat > 90 ∨ lng < -180 ∨ lng > 180 := by
            rcases hbad with h | h | ⟨x, hx, h⟩ | ⟨x, hx, h⟩
            · rw [hp1] at h; exact absurd h (by simp)
            · rw [hp2] at h; exact absurd h (by simp)
            · rw [hp1] at hx
              simp only [Option.some.injEq] at hx
              subst hx
              rcases h with h | h
              · exact Or.inl h
              · exact Or.inr (Or.inl h)
            · rw [hp2] at hx
              simp only [Option.some.injEq] at hx
              subst hx
              rcases h with h | h
              · exact Or.inr (Or.inr (Or.inl h))
              · exact Or.inr (Or.inr (Or.inr h))
          exact ⟨"Invalid coordinates provided", by simp only [calculateLocationScores, ht1, ht2, hp1, hp2, hr,
            Bool.not_true, Bool.or_self, Bool.false_eq_true, if_false, if_true]⟩

/-! ## Double precision: rounding error -/

theorem bitLog_eq_log (fuel : ℕ) : ∀ n, n ≤ fuel → bitLog fuel n = Nat.log 2 n := by
  induction fuel with
  | zero =>
    intro n h
    have : n = 0 := by omega
    subst this
    simp [bitLog]
  | succ k ih =>
    intro n h
    show (if n < 2 then 0 else bitLog k (n / 2) + 1) = Nat.log 2 n
    split_ifs with h2
    · exact (Nat.log_of_lt h2).symm
    · rw [ih (n / 2) (by omega), @Nat.log_of_one_lt_of_le 2 n (by norm_num) (by omega)]

theorem bitLog_spec (n : ℕ) (hn : n ≠ 0) :
    2 ^ bitLog n n ≤ n ∧ n < 2 ^ (bitLog n n + 1) := by
  rw [bitLog_eq_log n n le_rfl]
  exact ⟨Nat.pow_log_le_self 2 hn, Nat.lt_pow_succ_log_self (by norm_num) n⟩

theorem binade_spec (x : ℚ) (hx : x ≠ 0) :
    (2 : ℚ) ^ binade x ≤ |x| ∧ |x| < (2 : ℚ) ^ (binade x + 1) := by
  have hn : x.num.natAbs ≠ 0 := by
    simpa using hx
  obtain ⟨ha1, ha2⟩ := bitLog_spec x.num.natAbs hn
  obtain ⟨hb1, hb2⟩ := bitLog_spec x.den x.den_nz
  set a := bitLog x.num.natAbs x.num.natAbs
  set b := bitLog x.den x.den
  have hd : (0 : ℚ) < x.den := by exact_mod_cast x.den_pos
  have habs : |x| = (x.num.natAbs : ℚ) / (x.den : ℚ) := by
    conv_lhs => rw [← Rat.num_div_den x]
    rw [abs_div, Nat.abs_cast]
    congr 1
    rw [Nat.cast_natAbs]
    simp
  have ha1q : (2 : ℚ) ^ a ≤ (x.num.natAbs : ℚ) := by exact_mod_cast ha1
  have ha2q : (x.num.natAbs : ℚ) < (2 : ℚ) ^ (a + 1) := by exact_mod_cast ha2
  have hb1q : (2 : ℚ) ^ b ≤ (x.den : ℚ) := by exact_mod_cast hb1
  have hb2q : (x.den : ℚ) < (2 : ℚ) ^ (b + 1) := by exact_mod_cast hb2
  have h2a : (0 : ℚ) < 2 ^ a := by positivity
  have h2b : (0 : ℚ) < 2 ^ b := by positivity
  have hg : (2 : ℚ) ^ ((a : ℤ) - (b : ℤ)) = (2 : ℚ) ^ a / (2 : ℚ) ^ b := by
    rw [zpow_sub₀ (by norm_num), zpow_natCast, zpow_natCast]
  have hup : |x| < (2 : ℚ) ^ ((a : ℤ) - (b : ℤ) + 1) := by
    rw [zpow_add_one₀ (by norm_num), hg, habs, div_lt_iff₀ hd]
    have : (2 : ℚ) ^ a / 2 ^ b * 2 * (x.den : ℚ) = (2 : ℚ) ^ (a + 1) * ((x.den : ℚ) / 2 ^ b) := by
      rw [pow_succ]; field_simp
    rw [this]
    have h1 : (1 : ℚ) ≤ (x.den : ℚ) / 2 ^ b := by
      rw [le_div_iff₀ h2b]; linarith
    nlinarith [pow_pos (by norm_num : (0:ℚ) < 2) (a + 1)]
  have hlow : (2 : ℚ) ^ ((a : ℤ) - (b : ℤ) - 1) ≤ |x| := by
    rw [zpow_sub_one₀ (by norm_num), hg, habs, le_div_iff₀ hd]
    have : (2 : ℚ) ^ a / 2 ^ b * 2⁻¹ * (x.den : ℚ) = (2 : ℚ) ^ a * ((x.den : ℚ) / 2 ^ (b + 1)) := by
      rw [pow_succ]; field_simp
    rw [this]
    have h1 : (x.den : ℚ) / 2 ^ (b + 1) ≤ 1 := by
      rw [div_le_iff₀ (by positivity)]; linarith
    nlinarith
  unfold binade
  simp only []
  split_ifs with h
  · exact ⟨h, hup⟩
  · refine ⟨hlow, ?_⟩
    rw [sub_add_cancel]
    exact lt_of_not_le h

theorem roundHalfEven_err (q : ℚ) : |(roundHalfEven q : ℚ) - q| ≤ 1 / 2 := by
  have h1 := Int.floor_le q
  have h2 := Int.lt_floor_add_one q
  unfold roundHalfEven
  simp only []
  rw [abs_le]
  split_ifs <;> push_cast <;> constructor <;> linarith

/-- The rounding error of `toF64` is at most half a unit in the last place. -/
theorem toF64_err_core (x : ℚ) (hx : x ≠ 0) :
    |toF64 x - x| ≤ (2 : ℚ) ^ (max (binade x - 52) (-1074)) / 2 := by
  unfold toF64
  rw [if_neg hx]
  simp only []
  set e : ℤ := max (binade x - 52) (-1074)
  have hpos : (0 : ℚ) < 2 ^ e := by positivity
  have h := roundHalfEven_err (x / 2 ^ e)
  have : (roundHalfEven (x / 2 ^ e) : ℚ) * 2 ^ e - x
      = ((roundHalfEven (x / 2 ^ e) : ℚ) - x / 2 ^ e) * 2 ^ e := by
    field_simp
  rw [this, abs_mul, abs_of_pos hpos]
  calc |(roundHalfEven (x / 2 ^ e) : ℚ) - x / 2 ^ e| * 2 ^ e ≤ 1 / 2 * 2 ^ e :=
        mul_le_mul_of_nonneg_right h hpos.le
    _ = 2 ^ e / 2 := by ring

theorem toF64_zero : toF64 0 = 0 := by simp [toF64]

/-- Absolute error: a value of magnitude at most `2 ^ k` is rounded with an
error of at most `2 ^ k / 2 ^ 53`. -/
theorem toF64_abs_err (x : ℚ) (k : ℕ) (hx : |x| ≤ 2 ^ k) :
    |toF64 x - x| ≤ 2 ^ k / 2 ^ 53 := by
  by_cases h0 : x = 0
  · subst h0
    rw [toF64_zero]
    simp
    positivity
  · obtain ⟨hb, -⟩ := binade_spec x h0
    have hbk : binade x ≤ (k : ℤ) := by
      have : (2 : ℚ) ^ binade x ≤ (2 : ℚ) ^ (k : ℤ) := by
        rw [zpow_natCast]; exact hb.trans hx
      exact (zpow_le_zpow_iff_right₀ (by norm_num : (1 : ℚ) < 2)).mp this
    refine (toF64_err_core x h0).trans ?_
    have he : max (binade x - 52) (-1074) ≤ (k : ℤ) - 52 := by
      apply max_le <;> omega
    have : (2 : ℚ) ^ (max (binade x - 52) (-1074)) ≤ (2 : ℚ) ^ ((k : ℤ) - 52) :=
      zpow_le_zpow_right₀ (by norm_num) he
    have h2 : (2 : ℚ) ^ ((k : ℤ) - 52) / 2 = 2 ^ k / 2 ^ 53 := by
      rw [zpow_sub₀ (by norm_num), zpow_natCast]
      norm_num
      ring
    linarith

/-- Relative error: outside the subnormal range the error is at most
`|x| / 2 ^ 53`. -/
theorem toF64_rel_err (x : ℚ) (hx : 1 ≤ |x|) : |toF64 x - x| ≤ |x| / 2 ^ 53 := by
  have h0 : x ≠ 0 := by
    intro h; rw [h] at hx; simp at hx; linarith
  obtain ⟨hb1, hb2⟩ := binade_spec x h0
  have hb : 0 ≤ binade x := by
    have : (2 : ℚ) ^ (0 : ℤ) < (2 : ℚ) ^ (binade x + 1) := by
      rw [zpow_zero]; linarith
    have := (zpow_lt_zpow_iff_right₀ (by norm_num : (1 : ℚ) < 2)).mp this
    omega
  refine (toF64_err_core x h0).trans ?_
  rw [max_eq_left (by omega)]
  rw [zpow_sub₀ (by norm_num)]
  have : (2 : ℚ) ^ (52 : ℤ) = 2 ^ 52 := by norm_num
  rw [this]
  have h3 : (2 : ℚ) ^ binade x / 2 ^ 52 / 2 = 2 ^ binade x / 2 ^ 53 := by ring
  rw [h3]
  exact div_le_div_of_nonneg_right hb1 (by positivity)

/-- Two-sided form of `toF64_abs_err`. -/
theorem toF64_near (x : ℚ) (k : ℕ) (h1 : -(2 ^ k) ≤ x) (h2 : x ≤ 2 ^ k) :
    x - 2 ^ k / 2 ^ 53 ≤ toF64 x ∧ toF64 x ≤ x + 2 ^ k / 2 ^ 53 := by
  have h := toF64_abs_err x k (abs_le.mpr ⟨h1, h2⟩)
  rw [abs_le] at h
  constructor <;> linarith [h.1, h.2]

/-- `Math.round` of a value within `ε` of `x` is within `1/2 + ε` of `x`, and it
is `round x` when no half-integer lies within `ε` of `x`. -/
theorem jsRound_near {x y ε : ℚ} (h : |y - x| ≤ ε) :
    |(jsRound y : ℚ) - x| ≤ 1 / 2 + ε ∧
    ((∀ k : ℤ, ε < |x - (k + 1 / 2)|) → jsRound y = round x) := by
  rw [abs_le] at h
  obtain ⟨h1, h2⟩ := h
  constructor
  · have f1 := Int.floor_le (y + 1 / 2)
    have f2 := Int.lt_floor_add_one (y + 1 / 2)
    unfold jsRound
    rw [abs_le]
    constructor <;> linarith
  · intro hk
    rw [round_eq]
    unfold jsRound
    rw [Int.floor_eq_iff]
    have g1 := Int.floor_le (x + 1 / 2)
    have g2 := Int.lt_floor_add_one (x + 1 / 2)
    have k1 := hk (⌊x + 1 / 2⌋ - 1)
    have k2 := hk ⌊x + 1 / 2⌋
    push_cast at k1
    rw [abs_of_nonneg (by linarith)] at k1
    rw [abs_of_neg (by linarith)] at k2
    constructor <;> linarith

theorem measuredPollutionScoreF64_near (v : ℚ) :
    |mulF64 (subF64 1 (divF64 (max 0 (min 250 v)) 250)) 100
        - 100 * (1 - min (max v 0) 250 / 250)| ≤ 1 / 10 ^ 12 := by
  rw [← capped_eq]
  have hc0 : (0 : ℚ) ≤ max 0 (min 250 v) := le_max_left _ _
  have hc1 : max 0 (min 250 v) ≤ (250 : ℚ) := max_le (by norm_num) (min_le_left _ _)
  generalize max 0 (min 250 v) = c at hc0 hc1
  unfold mulF64 subF64 divF64
  have e1 := toF64_near (c / 250) 0 (by norm_num; linarith) (by norm_num; linarith)
  generalize toF64 (c / 250) = q at e1
  norm_num at e1
  have e2 := toF64_near (1 - q) 1 (by norm_num; linarith) (by norm_num; linarith)
  generalize toF64 (1 - q) = s at e2
  norm_num at e2
  have e3 := toF64_near (s * 100) 7 (by norm_num; linarith) (by norm_num; linarith)
  generalize toF64 (s * 100) = p at e3
  norm_num at e3
  rw [abs_le]
  constructor <;> norm_num <;> linarith

theorem measuredPollutionScoreF64_of_nonpos {v : ℚ} (h : v ≤ 0) :
    measuredPollutionScoreF64 v = 100 := by
  have hc : max 0 (min 250 v) = 0 := by
    rw [min_eq_right (by linarith : v ≤ 250), max_eq_left h]
  simp only [measuredPollutionScoreF64, hc]
  decide!

theorem measuredPollutionScoreF64_of_ge {v : ℚ} (h : 250 ≤ v) :
    measuredPollutionScoreF64 v = 0 := by
  have hc : max 0 (min 250 v) = 250 := by
    rw [min_eq_left h, max_eq_right (by norm_num)]
  simp only [measuredPollutionScoreF64, hc]
  decide!

theorem toF64_six_tenths : toF64 (6 / 10) = 5404319552844595 / 9007199254740992 := by decide!

theorem toF64_fifteen_hundredths : toF64 (15 / 100) = 5404319552844595 / 36028797018963968 := by
  decide!

theorem toF64_four_tenths : toF64 (4 / 10) = 3602879701896397 / 9007199254740992 := by decide!

theorem toF64_two_tenths : toF64 (2 / 10) = 3602879701896397 / 18014398509481984 := by decide!

theorem toF64_one_tenth : toF64 (1 / 10) = 3602879701896397 / 36028797018963968 := by decide!

theorem toF64_three_tenths : toF64 (3 / 10) = 5404319552844595 / 18014398509481984 := by decide!

/-- `Math.min(1, x)` of a rounded non-negative value. -/
theorem min_one_toF64_near (x : ℚ) (hx : 0 ≤ x) :
    min 1 x - 2 / 2 ^ 53 ≤ min 1 (toF64 x) ∧ min 1 (toF64 x) ≤ min 1 x + 2 / 2 ^ 53 := by
  rcases le_total x 2 with h | h
  · have e := toF64_near x 1 (by norm_num; linarith) (by norm_num; linarith)
    have l := abs_min_sub_min_le_max 1 (toF64 x) 1 x
    rw [sub_self, abs_zero, max_eq_right (abs_nonneg _), abs_le] at l
    have l3 : |toF64 x - x| ≤ 2 / 2 ^ 53 := abs_le.mpr ⟨by linarith [e.1], by linarith [e.2]⟩
    constructor <;> linarith [l.1, l.2, (abs_le.mp l3).1, (abs_le.mp l3).2, abs_nonneg (toF64 x - x)]
  · have r := toF64_rel_err x (by rw [abs_of_nonneg hx]; linarith)
    rw [abs_of_nonneg hx, abs_le] at r
    have h1 : 1 ≤ toF64 x := by
      have : x / 2 ^ 53 ≤ x / 2 := by
        apply div_le_div_of_nonneg_left hx (by norm_num) (by norm_num)
      linarith [r.1]
    rw [min_eq_left h1, min_eq_left (by linarith : (1 : ℚ) ≤ x)]
    constructor <;> norm_num

theorem roadNormalized_bounds (o : Option ℚ) (h : ∀ x, o = some x → 0 ≤ x) :
    0 ≤ roadNormalized o ∧ roadNormalized o ≤ 1 := by
  unfold roadNormalized
  cases o with
  | none => norm_num
  | some x =>
    have := h x rfl
    exact ⟨le_min (by norm_num) (by positivity), min_le_left _ _⟩

/-- The double value of `envScoreRaw * 100` is within `10⁻¹²` of the exact value
of the formula. -/
theorem envRawOfF64_near (d : EnvDetails) (h : ∀ x, d.nearestMajorRoad = some x → 0 ≤ x) :
    |mulF64 (envRawOfF64 d) 100
        - 100 * ((6 / 10 : ℚ) * min 1 ((d.greenFeatures : ℚ) / 8) +
          (25 / 100 : ℚ) * roadNormalized d.nearestMajorRoad +
          (15 / 100 : ℚ) * (if d.industrialFeatures > 0 then 0 else 1))| ≤ 1 / 10 ^ 12 := by
  have hg0 : (0 : ℚ) ≤ min 1 ((d.greenFeatures : ℚ) / 8) := le_min (by norm_num) (by positivity)
  have hg1 : min 1 ((d.greenFeatures : ℚ) / 8) ≤ 1 := min_le_left _ _
  have hg : min 1 ((d.greenFeatures : ℚ) / 8) - 2 / 2 ^ 53 ≤
        min 1 (divF64 (d.greenFeatures : ℚ) 8) ∧
      min 1 (divF64 (d.greenFeatures : ℚ) 8) ≤ min 1 ((d.greenFeatures : ℚ) / 8) + 2 / 2 ^ 53 :=
    min_one_toF64_near ((d.greenFeatures : ℚ) / 8) (by positivity)
  obtain ⟨hr0, hr1⟩ := roadNormalized_bounds d.nearestMajorRoad h
  have hr : roadNormalized d.nearestMajorRoad - 2 / 2 ^ 53 ≤
        (match d.nearestMajorRoad with
          | none => (1 : ℚ)
          | some dist => min 1 (divF64 dist (MAX_RADIUS : ℚ))) ∧
      (match d.nearestMajorRoad with
          | none => (1 : ℚ)
          | some dist => min 1 (divF64 dist (MAX_RADIUS : ℚ))) ≤
        roadNormalized d.nearestMajorRoad + 2 / 2 ^ 53 := by
    unfold roadNormalized
    cases hd : d.nearestMajorRoad with
    | none => norm_num
    | some x =>
      have := min_one_toF64_near (x / 2000) (div_nonneg (h x hd) (by norm_num))
      simpa [divF64, MAX_RADIUS] using this
  have hi : ((if decide (d.industrialFeatures > 0) = true then (0 : ℚ) else 1) = 0 ∧
        (if d.industrialFeatures > 0 then (0 : ℚ) else 1) = 0) ∨
      ((if decide (d.industrialFeatures > 0) = true then (0 : ℚ) else 1) = 1 ∧
        (if d.industrialFeatures > 0 then (0 : ℚ) else 1) = 1) := by
    by_cases hp : d.industrialFeatures > 0
    · left; simp [hp]
    · right; simp [hp]
  unfold envRawOfF64 mulF64 addF64
  simp only [toF64_six_tenths, toF64_fifteen_hundredths]
  generalize min 1 (divF64 (d.greenFeatures : ℚ) 8) = gN at hg
  generalize min 1 ((d.greenFeatures : ℚ) / 8) = g0 at hg hg0 hg1
  generalize (match d.nearestMajorRoad with
          | none => (1 : ℚ)
          | some dist => min 1 (divF64 dist (MAX_RADIUS : ℚ))) = rN at hr
  generalize roadNormalized d.nearestMajorRoad = r0 at hr hr0 hr1
  generalize (if decide (d.industrialFeatures > 0) = true then (0 : ℚ) else 1) = iN at hi
  generalize (if d.industrialFeatures > 0 then (0 : ℚ) else 1) = i0 at hi
  norm_num at hg hr
  have e1 := toF64_near (gN * (5404319552844595 / 9007199254740992)) 0
    (by norm_num; linarith) (by norm_num; linarith)
  generalize toF64 (gN * (5404319552844595 / 9007199254740992)) = t1 at e1
  norm_num at e1
  have e2 := toF64_near (rN * (1 / 4)) 0 (by norm_num; linarith) (by norm_num; linarith)
  generalize toF64 (rN * (1 / 4)) = t2 at e2
  norm_num at e2
  have e3 := toF64_near (t1 + t2) 1 (by norm_num; linarith) (by norm_num; linarith)
  generalize toF64 (t1 + t2) = s1 at e3
  norm_num at e3
  have e4 := toF64_near (iN * (5404319552844595 / 36028797018963968)) 0
    (by rcases hi with hi | hi <;> rw [hi.1] <;> norm_num)
    (by rcases hi with hi | hi <;> rw [hi.1] <;> norm_num)
  generalize toF64 (iN * (5404319552844595 / 36028797018963968)) = t3 at e4
  norm_num at e4
  have hiN : 0 ≤ iN ∧ iN ≤ 1 ∧ iN = i0 := by
    rcases hi with hi | hi <;> rw [hi.1, hi.2] <;> norm_num
  have e5 := toF64_near (s1 + t3) 1 (by norm_num; linarith) (by norm_num; linarith)
  generalize toF64 (s1 + t3) = raw at e5
  norm_num at e5
  have e6 := toF64_near (raw * 100) 7 (by norm_num; linarith) (by norm_num; linarith)
  generalize toF64 (raw * 100) = p at e6
  norm_num at e6
  obtain ⟨hi0, hi1, hii⟩ := hiN
  subst hii
  rw [abs_le]
  constructor <;> norm_num <;> linarith

/-- The proximity ratio in doubles is within three rounding units of
`1 - min(d, 2000)/2000`. -/
theorem proximityRatioF64_near (d : ℚ) (h : 0 ≤ d) :
    1 - min d 2000 / 2000 - 3 / 2 ^ 53 ≤ proximityRatioF64 d ∧
    proximityRatioF64 d ≤ 1 - min d 2000 / 2000 + 3 / 2 ^ 53 ∧
    0 ≤ proximityRatioF64 d := by
  have hx0 : (0 : ℚ) ≤ min d 2000 / 2000 := div_nonneg (le_min h (by norm_num)) (by norm_num)
  have hx1 : min d 2000 / 2000 ≤ (1 : ℚ) := by
    rw [div_le_one (by norm_num)]
    exact min_le_right _ _
  unfold proximityRatioF64 subF64 divF64
  simp only [MAX_RADIUS, Nat.cast_ofNat]
  generalize min d 2000 / 2000 = x at hx0 hx1
  have e1 := toF64_near x 0 (by norm_num; linarith) (by norm_num; linarith)
  generalize toF64 x = q at e1
  norm_num at e1
  have e2 := toF64_near (1 - q) 1 (by norm_num; linarith) (by norm_num; linarith)
  generalize toF64 (1 - q) = s at e2
  norm_num at e2
  refine ⟨le_trans ?_ (le_max_right 0 s), max_le ?_ ?_, le_max_left _ _⟩ <;>
    norm_num <;> linarith

theorem clamp01_near (x y ε : ℚ) (h1 : x - ε ≤ y) (h2 : y ≤ x + ε) :
    clamp01 x - ε ≤ max 0 (min 1 y) ∧ max 0 (min 1 y) ≤ clamp01 x + ε ∧
    0 ≤ max 0 (min 1 y) ∧ max 0 (min 1 y) ≤ 1 := by
  unfold clamp01
  refine ⟨?_, ?_, le_max_left _ _, max_le (by norm_num) (min_le_left _ _)⟩
  · rw [sub_le_iff_le_add]
    apply max_le
    · linarith [le_max_left (0 : ℚ) (min 1 y)]
    · have : min 1 x ≤ min 1 y + ε := by
        apply le_trans (min_le_min_left 1 (by linarith : x ≤ y + ε))
        rw [min_le_iff]
        rcases le_total 1 y with h | h
        · left; rw [min_eq_left h]; linarith
        · right; rw [min_eq_right h]
      linarith [le_max_right (0 : ℚ) (min 1 y)]
  · apply max_le
    · linarith [le_max_left (0 : ℚ) (min 1 x)]
    · have : min 1 y ≤ min 1 x + ε := by
        apply le_trans (min_le_min_left 1 h2)
        rw [min_le_iff]
        rcases le_total 1 x with h | h
        · left; rw [min_eq_left h]; linarith
        · right; rw [min_eq_right h]
      linarith [le_max_right (0 : ℚ) (min 1 x)]

theorem policeProx_bounds (o : Option ℚ) (h : ∀ x, o = some x → 0 ≤ x) :
    0 ≤ policeProx o ∧ policeProx o ≤ 1 := by
  unfold policeProx
  cases o with
  | none => norm_num
  | some x =>
    have hx := h x rfl
    have hx0 : (0 : ℚ) ≤ min x 2000 / 2000 := div_nonneg (le_min hx (by norm_num)) (by norm_num)
    have hx1 : min x 2000 / 2000 ≤ (1 : ℚ) := by
      rw [div_le_one (by norm_num)]
      exact min_le_right _ _
    constructor <;> simp only <;> linarith

/-- The double value of `safetyRaw` is within `2 * 10⁻¹⁵` of the exact value of
the weighted sum. -/
theorem safetyRawOfF64_near (d : SafetyDetails)
    (h : ∀ x, d.nearestPoliceDistance = some x → 0 ≤ x) :
    |safetyRawOfF64 d - ((4 / 10 : ℚ) * policeProx d.nearestPoliceDistance +
      (2 / 10 : ℚ) * min 1 ((d.policeStations : ℚ) / 3) +
      (15 / 100 : ℚ) * min 1 ((d.cctvCameras : ℚ) / 5) + (15 / 100 : ℚ) * (1 / 2) -
      (1 / 10 : ℚ) * min 1 ((d.nightlifeSpots : ℚ) / 5))| ≤ 2 / 10 ^ 15 := by
  obtain ⟨hp0, hp1⟩ := policeProx_bounds d.nearestPoliceDistance h
  have hp : policeProx d.nearestPoliceDistance - 3 / 2 ^ 53 ≤
        (match d.nearestPoliceDistance with
          | none => (0 : ℚ)
          | some dist =>
            max 0 (subF64 1 (divF64 (min dist (MAX_RADIUS : ℚ)) (MAX_RADIUS : ℚ)))) ∧
      (match d.nearestPoliceDistance with
          | none => (0 : ℚ)
          | some dist =>
            max 0 (subF64 1 (divF64 (min dist (MAX_RADIUS : ℚ)) (MAX_RADIUS : ℚ)))) ≤
        policeProx d.nearestPoliceDistance + 3 / 2 ^ 53 := by
    unfold policeProx
    cases hd : d.nearestPoliceDistance with
    | none => norm_num
    | some x =>
      obtain ⟨a1, a2, -⟩ := proximityRatioF64_near x (h x hd)
      exact ⟨a1, a2⟩
  have hc0 : (0 : ℚ) ≤ min 1 ((d.policeStations : ℚ) / 3) := le_min (by norm_num) (by positivity)
  have hc1 : min 1 ((d.policeStations : ℚ) / 3) ≤ 1 := min_le_left _ _
  have hc : min 1 ((d.policeStations : ℚ) / 3) - 2 / 2 ^ 53 ≤
        min 1 (divF64 (d.policeStations : ℚ) 3) ∧
      min 1 (divF64 (d.policeStations : ℚ) 3) ≤ min 1 ((d.policeStations : ℚ) / 3) + 2 / 2 ^ 53 :=
    min_one_toF64_near ((d.policeStations : ℚ) / 3) (by positivity)
  have hv0 : (0 : ℚ) ≤ min 1 ((d.cctvCameras : ℚ) / 5) := le_min (by norm_num) (by positivity)
  have hv1 : min 1 ((d.cctvCameras : ℚ) / 5) ≤ 1 := min_le_left _ _
  have hv : min 1 ((d.cctvCameras : ℚ) / 5) - 2 / 2 ^ 53 ≤
        min 1 (divF64 (d.cctvCameras : ℚ) 5) ∧
      min 1 (divF64 (d.cctvCameras : ℚ) 5) ≤ min 1 ((d.cctvCameras : ℚ) / 5) + 2 / 2 ^ 53 :=
    min_one_toF64_near ((d.cctvCameras : ℚ) / 5) (by positivity)
  have hn0 : (0 : ℚ) ≤ min 1 ((d.nightlifeSpots : ℚ) / 5) := le_min (by norm_num) (by positivity)
  have hn1 : min 1 ((d.nightlifeSpots : ℚ) / 5) ≤ 1 := min_le_left _ _
  have hn : min 1 ((d.nightlifeSpots : ℚ) / 5) - 2 / 2 ^ 53 ≤
        min 1 (divF64 (d.nightlifeSpots : ℚ) 5) ∧
      min 1 (divF64 (d.nightlifeSpots : ℚ) 5) ≤
        min 1 ((d.nightlifeSpots : ℚ) / 5) + 2 / 2 ^ 53 :=
    min_one_toF64_near ((d.nightlifeSpots : ℚ) / 5) (by positivity)
  unfold safetyRawOfF64
  simp only [toF64_four_tenths, toF64_two_tenths, toF64_fifteen_hundredths, toF64_one_tenth]
  generalize (match d.nearestPoliceDistance with
          | none => (0 : ℚ)
          | some dist =>
            max 0 (subF64 1 (divF64 (min dist (MAX_RADIUS : ℚ)) (MAX_RADIUS : ℚ)))) = ppN at hp
  unfold mulF64 addF64 subF64
  generalize policeProx d.nearestPoliceDistance = pp0 at hp hp0 hp1
  generalize min 1 (divF64 (d.policeStations : ℚ) 3) = pcN at hc
  generalize min 1 ((d.policeStations : ℚ) / 3) = pc0 at hc hc0 hc1
  generalize min 1 (divF64 (d.cctvCameras : ℚ) 5) = cvN at hv
  generalize min 1 ((d.cctvCameras : ℚ) / 5) = cv0 at hv hv0 hv1
  generalize min 1 (divF64 (d.nightlifeSpots : ℚ) 5) = nlN at hn
  generalize min 1 ((d.nightlifeSpots : ℚ) / 5) = nl0 at hn hn0 hn1
  norm_num at hp hc hv hn
  have e1 := toF64_near (ppN * (3602879701896397 / 9007199254740992)) 0
    (by norm_num; linarith) (by norm_num; linarith)
  generalize toF64 (ppN * (3602879701896397 / 9007199254740992)) = t1 at e1
  norm_num at e1
  have e2 := toF64_near (0 + t1) 0 (by norm_num; linarith) (by norm_num; linarith)
  generalize toF64 (0 + t1) = s1 at e2
  norm_num at e2
  have e3 := toF64_near (pcN * (3602879701896397 / 18014398509481984)) 0
    (by norm_num; linarith) (by norm_num; linarith)
  generalize toF64 (pcN * (3602879701896397 / 18014398509481984)) = t2 at e3
  norm_num at e3
  have e4 := toF64_near (s1 + t2) 0 (by norm_num; linarith) (by norm_num; linarith)
  generalize toF64 (s1 + t2) = s2 at e4
  norm_num at e4
  have e5 := toF64_near (cvN * (5404319552844595 / 36028797018963968)) 0
    (by norm_num; linarith) (by norm_num; linarith)
  generalize toF64 (cvN * (5404319552844595 / 36028797018963968)) = t3 at e5
  norm_num at e5
  have e6 := toF64_near (s2 + t3) 0 (by norm_num; linarith) (by norm_num; linarith)
  generalize toF64 (s2 + t3) = s3 at e6
  norm_num at e6
  have e7 := toF64_near (1 / 2 * (5404319552844595 / 36028797018963968)) 0
    (by norm_num) (by norm_num)
  generalize toF64 (1 / 2 * (5404319552844595 / 36028797018963968)) = t4 at e7
  norm_num at e7
  have e8 := toF64_near (s3 + t4) 0 (by norm_num; linarith) (by norm_num; linarith)
  generalize toF64 (s3 + t4) = s4 at e8
  norm_num at e8
  have e9 := toF64_near (nlN * (3602879701896397 / 36028797018963968)) 0
    (by norm_num; linarith) (by norm_num; linarith)
  generalize toF64 (nlN * (3602879701896397 / 36028797018963968)) = t5 at e9
  norm_num at e9
  have e10 := toF64_near (s4 - t5) 0 (by norm_num; linarith) (by norm_num; linarith)
  generalize toF64 (s4 - t5) = raw at e10
  norm_num at e10
  rw [abs_le]
  constructor <;> norm_num <;> linarith

/-- The double value of `clamp(safetyRaw) * 100` is within `10⁻¹²` of the exact
value of the formula. -/
theorem safetyScoreOfF64_near (d : SafetyDetails)
    (h : ∀ x, d.nearestPoliceDistance = some x → 0 ≤ x) :
    |mulF64 (max 0 (min 1 (safetyRawOfF64 d))) 100 - 100 * clamp01 (
      (4 / 10 : ℚ) * policeProx d.nearestPoliceDistance +
      (2 / 10 : ℚ) * min 1 ((d.policeStations : ℚ) / 3) +
      (15 / 100 : ℚ) * min 1 ((d.cctvCameras : ℚ) / 5) + (15 / 100 : ℚ) * (1 / 2) -
      (1 / 10 : ℚ) * min 1 ((d.nightlifeSpots : ℚ) / 5))| ≤ 1 / 10 ^ 12 := by
  have hraw := abs_le.mp (safetyRawOfF64_near d h)
  generalize (4 / 10 : ℚ) * policeProx d.nearestPoliceDistance +
      (2 / 10 : ℚ) * min 1 ((d.policeStations : ℚ) / 3) +
      (15 / 100 : ℚ) * min 1 ((d.cctvCameras : ℚ) / 5) + (15 / 100 : ℚ) * (1 / 2) -
      (1 / 10 : ℚ) * min 1 ((d.nightlifeSpots : ℚ) / 5) = X at hraw
  obtain ⟨c1, c2, c3, c4⟩ := clamp01_near X (safetyRawOfF64 d) (2 / 10 ^ 15)
    (by linarith [hraw.1]) (by linarith [hraw.2])
  unfold mulF64
  generalize clamp01 X = c0 at c1 c2
  generalize max 0 (min 1 (safetyRawOfF64 d)) = c at c1 c2 c3 c4
  have e := toF64_near (c * 100) 7 (by norm_num; linarith) (by norm_num; linarith)
  generalize toF64 (c * 100) = p at e
  norm_num at e c1 c2
  rw [abs_le]
  constructor <;> norm_num <;> linarith

theorem weightF64_eq :
    divF64 100 ((getAmenityCategories.length : ℕ) : ℚ) = 8042142191733029 / 562949953421312 := by
  decide!

theorem proximityRatio_bounds (d : ℚ) (h : 0 ≤ d) :
    proximityRatio d = 1 - min d 2000 / 2000 ∧ 0 ≤ proximityRatio d ∧ proximityRatio d ≤ 1 := by
  have hx0 : (0 : ℚ) ≤ min d 2000 / 2000 := div_nonneg (le_min h (by norm_num)) (by norm_num)
  have hx1 : min d 2000 / 2000 ≤ (1 : ℚ) := by
    rw [div_le_one (by norm_num)]
    exact min_le_right _ _
  unfold proximityRatio
  simp only [MAX_RADIUS, Nat.cast_ofNat]
  rw [max_eq_right (by linarith)]
  exact ⟨rfl, by linarith, by linarith⟩

/-- The accumulation of `total` in doubles stays within `1792 / 2 ^ 53` of the
exact accumulation; `n` counts the categories already added. -/
theorem amenityFoldF64_near (results : List CategoryResult) :
    ∀ (n : ℕ) (t T : ℚ), results.length + n ≤ 7 →
      (∀ r ∈ results, ∀ d, r.distance = some d → 0 ≤ d) →
      0 ≤ T → T ≤ 15 * (n : ℚ) → |t - T| ≤ 256 * (n : ℚ) / 2 ^ 53 →
      |results.foldl (amenityStepF64 (8042142191733029 / 562949953421312)) t
          - results.foldl (amenityStep (100 / 7)) T| ≤ 1792 / 2 ^ 53 := by
  induction results with
  | nil =>
    intro n t T hlen _ _ _ hd
    simp only [List.length_nil, zero_add] at hlen
    have hn : (n : ℚ) ≤ 7 := by exact_mod_cast hlen
    simp only [List.foldl_nil]
    refine hd.trans ?_
    norm_num
    linarith
  | cons r rs ih =>
    intro n t T hlen hnn hT0 hT1 hd
    simp only [List.length_cons] at hlen
    have hn : (n : ℚ) ≤ 6 := by
      have : n ≤ 6 := by omega
      exact_mod_cast this
    have hn0 : (0 : ℚ) ≤ (n : ℚ) := Nat.cast_nonneg n
    rw [List.foldl_cons, List.foldl_cons]
    have hrs : ∀ r ∈ rs, ∀ d, r.distance = some d → 0 ≤ d :=
      fun r' hr' => hnn r' (List.mem_cons_of_mem _ hr')
    have hkeep : |t - T| ≤ 256 * ((n + 1 : ℕ) : ℚ) / 2 ^ 53 := by
      refine hd.trans ?_
      push_cast
      norm_num
      linarith
    have hT1keep : T ≤ 15 * ((n + 1 : ℕ) : ℚ) := by
      push_cast
      linarith
    have hr0 := hnn r (List.mem_cons_self _ _)
    rcases r with ⟨c, f, dist, e⟩
    cases f with
    | false =>
      have h1 : amenityStepF64 (8042142191733029 / 562949953421312) t
          { category := c, found := false, distance := dist, error := e } = t := by
        cases dist <;> rfl
      have h2 : amenityStep (100 / 7) T
          { category := c, found := false, distance := dist, error := e } = T := by
        cases dist <;> rfl
      rw [h1, h2]
      exact ih (n + 1) t T (by omega) hrs hT0 hT1keep hkeep
    | true =>
      cases dist with
      | none =>
        exact ih (n + 1) t T (by omega) hrs hT0 hT1keep hkeep
      | some x =>
        have hx : 0 ≤ x := hr0 x rfl
        obtain ⟨a1, a2, a3⟩ := proximityRatioF64_near x hx
        obtain ⟨b1, b2, b3⟩ := proximityRatio_bounds x hx
        have h1 : amenityStepF64 (8042142191733029 / 562949953421312) t
            { category := c, found := true, distance := some x, error := e }
            = toF64 (t + toF64 (8042142191733029 / 562949953421312 * proximityRatioF64 x)) := rfl
        have h2 : amenityStep (100 / 7) T
            { category := c, found := true, distance := some x, error := e }
            = T + 100 / 7 * proximityRatio x := rfl
        rw [h1, h2]
        rw [← b1] at a1 a2
        generalize proximityRatioF64 x = ρN at a1 a2 a3
        generalize proximityRatio x = ρ at a1 a2 b2 b3
        norm_num at a1 a2
        have hd2 := abs_le.mp hd
        have e1 := toF64_near (8042142191733029 / 562949953421312 * ρN) 4
          (by norm_num; linarith) (by norm_num; linarith)
        generalize toF64 (8042142191733029 / 562949953421312 * ρN) = pN at e1
        norm_num at e1
        have e2 := toF64_near (t + pN) 7 (by norm_num; linarith [hd2.1, hd2.2])
          (by norm_num; linarith [hd2.1, hd2.2])
        generalize toF64 (t + pN) = t2 at e2
        norm_num at e2
        apply ih (n + 1) t2 (T + 100 / 7 * ρ) (by omega) hrs (by linarith)
        · push_cast
          linarith
        · rw [abs_le]
          push_cast
          constructor <;> norm_num <;> linarith [hd2.1, hd2.2]

/-- The double value of `total` is within `10⁻¹²` of the exact sum over the
categories of `(100/7) * r_c`. -/
theorem amenityTotalF64_near (results : List CategoryResult) (hlen : results.length ≤ 7)
    (h : ∀ r ∈ results, ∀ d, r.distance = some d → 0 ≤ d) :
    |results.foldl (amenityStepF64 (8042142191733029 / 562949953421312)) 0
        - (results.map (fun r => (100 / 7 : ℚ) * categoryRatio r)).sum| ≤ 1 / 10 ^ 12 := by
  have := amenityFoldF64_near results 0 0 0 (by omega) h le_rfl (by norm_num) (by norm_num)
  rw [amenityStep_foldl, zero_add] at this
  refine this.trans ?_
  norm_num

theorem jsRound_mem_range {y : ℚ} (h0 : -(1 / 2) ≤ y) (h1 : y < 100 + 1 / 2) :
    0 ≤ jsRound y ∧ jsRound y ≤ 100 := by
  unfold jsRound
  constructor
  · apply Int.floor_nonneg.mpr
    linarith
  · have : ⌊y + 1 / 2⌋ < 101 := by
      rw [Int.floor_lt]
      push_cast
      linarith
    omega

theorem amenity_sum_range (results : List CategoryResult) (hlen : results.length = 7)
    (h : ∀ r ∈ results, ∀ d, r.distance = some d → 0 ≤ d) :
    0 ≤ (results.map (fun r => (100 / 7 : ℚ) * categoryRatio r)).sum ∧
      (results.map (fun r => (100 / 7 : ℚ) * categoryRatio r)).sum ≤ 100 := by
  constructor
  · apply List.sum_nonneg
    intro x hx
    simp only [List.mem_map] at hx
    obtain ⟨c, -, rfl⟩ := hx
    exact mul_nonneg (by norm_num) (categoryRatio_nonneg _)
  · have hb : ∀ x ∈ results.map (fun r => (100 / 7 : ℚ) * categoryRatio r),
        x ≤ (100 / 7 : ℚ) := by
      intro x hx
      simp only [List.mem_map] at hx
      obtain ⟨c, hc, rfl⟩ := hx
      have := categoryRatio_le_one c (h c hc)
      linarith
    have := List.sum_le_card_nsmul _ _ hb
    simp only [List.length_map, nsmul_eq_mul, hlen] at this
    norm_num at this
    linarith

theorem calculateAmenityScoreF64_eq (lat lng : Coord) (answer : String → Outcome OverpassData) :
    (calculateAmenityScoreF64 lat lng answer).1 =
      .ok { score := jsRound ((getAmenityCategories.map
                (fun c => amenityCategoryResult c (answer c.name))).foldl
                  (amenityStepF64 (8042142191733029 / 562949953421312)) 0),
            details := getAmenityCategories.map
              (fun c => amenityCategoryResult c (answer c.name)) } := by
  simp only [calculateAmenityScoreF64, weightF64_eq]

theorem amenity_details_nonneg (answer : String → Outcome OverpassData)
    (h : ∀ c ∈ getAmenityCategories, answerNonneg (answer c.name) = true) :
    ∀ r ∈ getAmenityCategories.map (fun c => amenityCategoryResult c (answer c.name)),
      ∀ d, r.distance = some d → 0 ≤ d := by
  intro r hr
  simp only [List.mem_map] at hr
  obtain ⟨c, hc, rfl⟩ := hr
  exact amenityCategoryResult_nonneg c _ (h c hc)

theorem amenity_scoreF64_range (lat lng : Coord) (answer : String → Outcome OverpassData)
    (h : ∀ c ∈ getAmenityCategories, answerNonneg (answer c.name) = true) (r : AmenityResult)
    (hr : (calculateAmenityScoreF64 lat lng answer).1 = .ok r) : 0 ≤ r.score ∧ r.score ≤ 100 := by
  rw [calculateAmenityScoreF64_eq, Except.ok.injEq] at hr
  subst hr
  have hnn := amenity_details_nonneg answer h
  have hnear := abs_le.mp (amenityTotalF64_near _ (by simp [getAmenityCategories]) hnn)
  have hsum := amenity_sum_range _ (by simp [getAmenityCategories]) hnn
  exact jsRound_mem_range (by linarith [hnear.1, hsum.1]) (by linarith [hnear.2, hsum.2])

theorem envScoreOfF64_range (d : EnvDetails) (h : ∀ x, d.nearestMajorRoad = some x → 0 ≤ x) :
    0 ≤ envScoreOfF64 d ∧ envScoreOfF64 d ≤ 100 := by
  have hnear := abs_le.mp (envRawOfF64_near d h)
  have hg0 : (0 : ℚ) ≤ min 1 ((d.greenFeatures : ℚ) / 8) := le_min (by norm_num) (by positivity)
  have hg1 : min 1 ((d.greenFeatures : ℚ) / 8) ≤ 1 := min_le_left _ _
  obtain ⟨hr0, hr1⟩ := roadNormalized_bounds d.nearestMajorRoad h
  have hi : (0 : ℚ) ≤ (if d.industrialFeatures > 0 then (0 : ℚ) else 1) ∧
      (if d.industrialFeatures > 0 then (0 : ℚ) else 1) ≤ 1 := by
    split_ifs <;> norm_num
  unfold envScoreOfF64
  exact jsRound_mem_range (by linarith [hnear.1, hi.1]) (by linarith [hnear.2, hi.2])

theorem environmentBodyF64_score (o : Outcome OverpassData) (r : EnvResult)
    (h : environmentBodyF64 o = .ok r) :
    environmentBody o = .ok { score := envScoreOf r.details, details := r.details } ∧
      r.score = envScoreOfF64 r.details := by
  unfold environmentBodyF64 at h
  unfold environmentBody
  match o with
  | .failure => simp at h
  | .response .null => simp at h
  | .response .noElements =>
    simp only [Except.ok.injEq] at h
    subst h
    exact ⟨rfl, rfl⟩
  | .response (.elements els) =>
    simp only at h ⊢
    split at h
    · simp at h
    · rename_i d hl
      simp only [Except.ok.injEq] at h
      subst h
      exact ⟨by simp only [hl], rfl⟩

theorem environmentBody_road_nonneg (o : Outcome OverpassData) (r : EnvResult)
    (h : environmentBody o = .ok r) (hn : answerNonneg o = true) :
    ∀ x, r.details.nearestMajorRoad = some x → 0 ≤ x := by
  unfold environmentBody at h
  match o, hn with
  | .failure, _ => simp at h
  | .response .null, _ => simp at h
  | .response .noElements, _ =>
    simp only [Except.ok.injEq] at h
    subst h
    simp
  | .response (.elements els), hn =>
    simp only at h
    split at h
    · simp at h
    · rename_i d hl
      simp only [Except.ok.injEq] at h
      subst h
      exact envLoop_road_nonneg els hn _ d hl (by simp)

theorem environment_scoreF64_range (lat lng : Coord) (o : Outcome OverpassData)
    (h : answerNonneg o = true) (r : EnvResult)
    (hr : (calculateEnvironmentScoreF64 lat lng o).1 = .ok r) : 0 ≤ r.score ∧ r.score ≤ 100 := by
  simp only [calculateEnvironmentScoreF64] at hr
  cases hb : environmentBodyF64 o with
  | error err =>
    simp only [hb, tryCatch, Except.ok.injEq] at hr
    subst hr; simp
  | ok s =>
    simp only [hb, tryCatch, Except.ok.injEq] at hr
    subst hr
    obtain ⟨h1, h2⟩ := environmentBodyF64_score o s hb
    rw [h2]
    exact envScoreOfF64_range _ (environmentBody_road_nonneg o
      { score := envScoreOf s.details, details := s.details } h1 h)

theorem safetyScoreOfF64_range (d : SafetyDetails) :
    0 ≤ safetyScoreOfF64 d ∧ safetyScoreOfF64 d ≤ 100 := by
  unfold safetyScoreOfF64 mulF64
  have h0 : (0 : ℚ) ≤ max 0 (min 1 (safetyRawOfF64 d)) := le_max_left _ _
  have h1 : max 0 (min 1 (safetyRawOfF64 d)) ≤ 1 := max_le (by norm_num) (min_le_left _ _)
  generalize max 0 (min 1 (safetyRawOfF64 d)) = c at h0 h1
  have e := toF64_near (c * 100) 7 (by norm_num; linarith) (by norm_num; linarith)
  norm_num at e
  exact jsRound_mem_range (by linarith [e.1]) (by linarith [e.2])

theorem safetyBodyF64_score (o : Outcome OverpassData) (r : SafetyResult)
    (h : safetyBodyF64 o = .ok r) :
    safetyBody o = .ok { score := safetyScoreOf r.details, details := r.details } ∧
      r.score = safetyScoreOfF64 r.details := by
  unfold safetyBodyF64 at h
  unfold safetyBody
  match o with
  | .failure => simp at h
  | .response .null => simp at h
  | .response .noElements =>
    simp only [Except.ok.injEq] at h
    subst h
    exact ⟨rfl, rfl⟩
  | .response (.elements els) =>
    simp only at h ⊢
    split at h
    · simp at h
    · rename_i d hl
      simp only [Except.ok.injEq] at h
      subst h
      exact ⟨by simp only [hl], rfl⟩

theorem safety_scoreF64_range (lat lng : Coord) (o : Outcome OverpassData) (r : SafetyResult)
    (hr : (calculateSafetyScoreF64 lat lng o).1 = .ok r) : 0 ≤ r.score ∧ r.score ≤ 100 := by
  simp only [calculateSafetyScoreF64] at hr
  cases hb : safetyBodyF64 o with
  | error err =>
    simp only [hb, tryCatch, Except.ok.injEq] at hr
    subst hr; simp
  | ok s =>
    simp only [hb, tryCatch, Except.ok.injEq] at hr
    subst hr
    rw [(safetyBodyF64_score o s hb).2]
    exact safetyScoreOfF64_range _

theorem measuredPollutionScoreF64_range (v : ℚ) :
    0 ≤ measuredPollutionScoreF64 v ∧ measuredPollutionScoreF64 v ≤ 100 := by
  have hnear := abs_le.mp (measuredPollutionScoreF64_near v)
  have h0 : (0 : ℚ) ≤ min (max v 0) 250 := le_min (le_max_right _ _) (by norm_num)
  have h1 : min (max v 0) 250 ≤ (250 : ℚ) := min_le_right _ _
  unfold measuredPollutionScoreF64
  have hdiv : min (max v 0) 250 / 250 = min (max v 0) 250 * (1 / 250) := by ring
  rw [hdiv] at hnear
  exact jsRound_mem_range (by linarith [hnear.1]) (by linarith [hnear.2])

theorem calculateEnvironmentScoreF64_ok (lat lng : Coord) (o : Outcome OverpassData) :
    ∃ r, (calculateEnvironmentScoreF64 lat lng o).1 = .ok r := by
  simp only [calculateEnvironmentScoreF64]
  cases environmentBodyF64 o <;> simp [tryCatch]

theorem calculateSafetyScoreF64_ok (lat lng : Coord) (o : Outcome OverpassData) :
    ∃ r, (calculateSafetyScoreF64 lat lng o).1 = .ok r := by
  simp only [calculateSafetyScoreF64]
  cases safetyBodyF64 o <;> simp [tryCatch]

theorem calculatePollutionScoreF64_ok (lat lng : Coord) (aq : Outcome AQData)
    (envRetry : Outcome OverpassData) :
    ∃ r, (calculatePollutionScoreF64 lat lng aq envRetry).1 = .ok r := by
  simp only [calculatePollutionScoreF64]
  cases (pollutionBodyF64 lat lng aq envRetry).1 <;> simp [tryCatch]

theorem pollution_scoreF64_range (lat lng : Coord) (aq : Outcome AQData)
    (envRetry : Outcome OverpassData) (h : answerNonneg envRetry = true) (r : PollutionResult)
    (hr : (calculatePollutionScoreF64 lat lng aq envRetry).1 = .ok r) :
    0 ≤ r.score ∧ r.score ≤ 100 := by
  simp only [calculatePollutionScoreF64] at hr
  cases hb : (pollutionBodyF64 lat lng aq envRetry).1 with
  | error err =>
    simp only [hb, tryCatch, Except.ok.injEq] at hr
    subst hr; simp
  | ok s =>
    simp only [hb, tryCatch, Except.ok.injEq] at hr
    subst hr
    unfold pollutionBodyF64 at hb
    match aq with
    | .failure => simp at hb
    | .response data =>
      simp only at hb
      cases hp : readPm25 data with
      | error err => simp [hp] at hb
      | ok reading =>
        cases reading with
        | some v =>
          simp only [hp, Except.ok.injEq] at hb
          subst hb
          exact measuredPollutionScoreF64_range v
        | none =>
          simp only [hp] at hb
          obtain ⟨e, he⟩ := calculateEnvironmentScoreF64_ok lat lng envRetry
          simp only [he, Except.ok.injEq] at hb
          subst hb
          have := environment_scoreF64_range lat lng envRetry h e he
          simp only
          constructor
          · exact le_max_left _ _
          · apply max_le (by norm_num)
            linarith [this.1]

theorem calculateAllScoresF64_combine (lat lng : Coord) (w : World) (now : ℕ) :
    ∃ a e s p,
      (calculateAmenityScoreF64 lat lng w.amenity).1 = .ok a ∧
      (calculateEnvironmentScoreF64 lat lng w.environment).1 = .ok e ∧
      (calculateSafetyScoreF64 lat lng w.safety).1 = .ok s ∧
      (calculatePollutionScoreF64 lat lng w.airQuality w.environmentRetry).1 = .ok p ∧
      (calculateAllScoresF64 lat lng w now).1 = .ok (combineScoresF64 a e s p now) := by
  obtain ⟨e, he⟩ := calculateEnvironmentScoreF64_ok lat lng w.environment
  obtain ⟨s, hs⟩ := calculateSafetyScoreF64_ok lat lng w.safety
  obtain ⟨p, hp⟩ := calculatePollutionScoreF64_ok lat lng w.airQuality w.environmentRetry
  refine ⟨_, e, s, p, calculateAmenityScoreF64_eq lat lng w.amenity, he, hs, hp, ?_⟩
  simp only [calculateAllScoresF64, calculateAmenityScoreF64_eq, he, hs, hp]

/-- The weighted sum in doubles is within `10⁻¹²` of the exact weighted sum. -/
theorem weightedSumF64_near (a e s p : ℤ) (ha : 0 ≤ a ∧ a ≤ 100) (he : 0 ≤ e ∧ e ≤ 100)
    (hs : 0 ≤ s ∧ s ≤ 100) (hp : 0 ≤ p ∧ p ≤ 100) :
    |weightedSumF64 a e s p - ((30 / 100 : ℚ) * a + (25 / 100 : ℚ) * e + (25 / 100 : ℚ) * s +
      (20 / 100 : ℚ) * p)| ≤ 1 / 10 ^ 12 := by
  have ha0 : (0 : ℚ) ≤ a := by exact_mod_cast ha.1
  have ha1 : (a : ℚ) ≤ 100 := by exact_mod_cast ha.2
  have he0 : (0 : ℚ) ≤ e := by exact_mod_cast he.1
  have he1 : (e : ℚ) ≤ 100 := by exact_mod_cast he.2
  have hs0 : (0 : ℚ) ≤ s := by exact_mod_cast hs.1
  have hs1 : (s : ℚ) ≤ 100 := by exact_mod_cast hs.2
  have hp0 : (0 : ℚ) ≤ p := by exact_mod_cast hp.1
  have hp1 : (p : ℚ) ≤ 100 := by exact_mod_cast hp.2
  unfold weightedSumF64 mulF64 addF64
  simp only [toF64_three_tenths, toF64_two_tenths]
  generalize (a : ℚ) = A at ha0 ha1
  generalize (e : ℚ) = E at he0 he1
  generalize (s : ℚ) = S at hs0 hs1
  generalize (p : ℚ) = P at hp0 hp1
  have e1 := toF64_near (A * (5404319552844595 / 18014398509481984)) 5
    (by norm_num; linarith) (by norm_num; linarith)
  generalize toF64 (A * (5404319552844595 / 18014398509481984)) = t1 at e1
  norm_num at e1
  have e2 := toF64_near (E * (1 / 4)) 5 (by norm_num; linarith) (by norm_num; linarith)
  generalize toF64 (E * (1 / 4)) = t2 at e2
  norm_num at e2
  have e3 := toF64_near (t1 + t2) 6 (by norm_num; linarith) (by norm_num; linarith)
  generalize toF64 (t1 + t2) = s1 at e3
  norm_num at e3
  have e4 := toF64_near (S * (1 / 4)) 5 (by norm_num; linarith) (by norm_num; linarith)
  generalize toF64 (S * (1 / 4)) = t3 at e4
  norm_num at e4
  have e5 := toF64_near (s1 + t3) 7 (by norm_num; linarith) (by norm_num; linarith)
  generalize toF64 (s1 + t3) = s2 at e5
  norm_num at e5
  have e6 := toF64_near (P * (3602879701896397 / 18014398509481984)) 5
    (by norm_num; linarith) (by norm_num; linarith)
  generalize toF64 (P * (3602879701896397 / 18014398509481984)) = t4 at e6
  norm_num at e6
  have e7 := toF64_near (s2 + t4) 7 (by norm_num; linarith) (by norm_num; linarith)
  generalize toF64 (s2 + t4) = s3 at e7
  norm_num at e7
  rw [abs_le]
  constructor <;> norm_num <;> linarith

/-- A weighted sum of integer scores that is not a half-integer stays at least
`1/20` away from every half-integer. -/
theorem weighted_sum_off_tie (a e s p : ℤ)
    (h : ∀ k : ℤ, (30 / 100 : ℚ) * a + (25 / 100 : ℚ) * e + (25 / 100 : ℚ) * s +
      (20 / 100 : ℚ) * p ≠ k + 1 / 2) :
    ∀ k : ℤ, (1 / 10 ^ 12 : ℚ) < |(30 / 100 : ℚ) * a + (25 / 100 : ℚ) * e + (25 / 100 : ℚ) * s +
      (20 / 100 : ℚ) * p - (k + 1 / 2)| := by
  intro k
  by_contra hle
  push_neg at hle
  apply h k
  have hN : ((6 * a + 5 * e + 5 * s + 4 * p - 20 * k - 10 : ℤ) : ℚ) =
      20 * ((30 / 100 : ℚ) * a + (25 / 100 : ℚ) * e + (25 / 100 : ℚ) * s +
        (20 / 100 : ℚ) * p - (k + 1 / 2)) := by
    push_cast
    ring
  have habs : |((6 * a + 5 * e + 5 * s + 4 * p - 20 * k - 10 : ℤ) : ℚ)| < 1 := by
    rw [hN, abs_mul]
    norm_num at hle ⊢
    linarith
  have hz : (6 * a + 5 * e + 5 * s + 4 * p - 20 * k - 10 : ℤ) = 0 := by
    have : |(6 * a + 5 * e + 5 * s + 4 * p - 20 * k - 10 : ℤ)| < 1 := by
      exact_mod_cast habs
    exact Int.abs_lt_one_iff.mp this
  have hq : ((6 * a + 5 * e + 5 * s + 4 * p - 20 * k - 10 : ℤ) : ℚ) = 0 := by
    rw [hz]; simp
  rw [hN] at hq
  linarith

/-! ## Scores in double precision -/

/-- C7 fails: for the PM2.5 reading 106.25 the exact value of
`100 * (1 - 106.25/250)` is 57.5, which rounds to 58; the code evaluates
`(1 - capped / 250) * 100` in doubles, obtains a value below 57.5
(57.49999999999999) and returns 57. -/
theorem C7_reading_106_25_scores_57 :
    readPm25 (readingAnswer (425 / 4)) = .ok (some (425 / 4)) ∧
    (calculatePollutionScoreF64 (some 18) (some 73) (.response (readingAnswer (425 / 4)))
        .failure).1
      = .ok { score := 57, details := { pm25Value := some (425 / 4), dataSource := "measured" } } ∧
    mulF64 (subF64 1 (divF64 (max 0 (min 250 (425 / 4))) 250)) 100 < 115 / 2 ∧
    round (100 * (1 - min (max (425 / 4 : ℚ) 0) 250 / 250)) = 58 := by
  refine ⟨by decide!, by decide!, by decide!, ?_⟩
  rw [round_eq]
  norm_num

/-- C7 as amended: when `calculatePollutionScore` uses a numeric PM2.5 reading
`v`, its score, tagged `measured`, is `Math.round` of `(1 - capped/250) * 100`
evaluated in doubles, `capped = min(max(v, 0), 250)`. The score lies within
`1/2 + 10⁻¹²` of `x = 100 * (1 - capped/250)` and equals `round(x)` whenever no
half-integer lies within `10⁻¹²` of `x`; a reading `v <= 0` gives 100 and a
reading `v >= 250` gives 0. -/
theorem C7_amended_measured_pollution_score (lat lng : Coord) (data : AQData)
    (envRetry : Outcome OverpassData) (v : ℚ) (h : readPm25 data = .ok (some v)) :
    ∃ r, (calculatePollutionScoreF64 lat lng (.response data) envRetry).1 = .ok r ∧
      r.details.pm25Value = some v ∧ r.details.dataSource = "measured" ∧
      r.score = jsRound (mulF64 (subF64 1 (divF64 (max 0 (min 250 v)) 250)) 100) ∧
      |(r.score : ℚ) - 100 * (1 - min (max v 0) 250 / 250)| ≤ 1 / 2 + 1 / 10 ^ 12 ∧
      ((∀ k : ℤ, (1 / 10 ^ 12 : ℚ) < |100 * (1 - min (max v 0) 250 / 250) - (k + 1 / 2)|) →
        r.score = round (100 * (1 - min (max v 0) 250 / 250))) ∧
      (v ≤ 0 → r.score = 100) ∧ (250 ≤ v → r.score = 0) := by
  refine ⟨{ score := measuredPollutionScoreF64 v,
            details := { pm25Value := some v, dataSource := "measured" } }, ?_, rfl, rfl, rfl,
          (jsRound_near (measuredPollutionScoreF64_near v)).1,
          (jsRound_near (measuredPollutionScoreF64_near v)).2,
          measuredPollutionScoreF64_of_nonpos, measuredPollutionScoreF64_of_ge⟩
  simp only [calculatePollutionScoreF64, pollutionBodyF64, h, tryCatch]

/-- C7 as amended, at `cleanAirAnswer`: the reading 0 is used and the score is 100. -/
theorem C7_amended_measured_pollution_score_witness :
    readPm25 cleanAirAnswer = .ok (some 0) ∧
    ∃ r, (calculatePollutionScoreF64 (some 18) (some 73) (.response cleanAirAnswer) .failure).1
        = .ok r ∧
      r.details.pm25Value = some 0 ∧ r.details.dataSource = "measured" ∧ r.score = 100 := by
  obtain ⟨r, h1, h2, h3, -, -, -, h4, -⟩ :=
    C7_amended_measured_pollution_score (some 18) (some 73) cleanAirAnswer .failure 0 rfl
  exact ⟨rfl, r, h1, h2, h3, h4 le_rfl⟩

/-- C13 fails: with one park, no industry and a major road at distance 0 the
exact value of the formula is 22.5, which rounds to 23; the code evaluates
`0.125 * 0.6 + 0 * 0.25 + 1 * 0.15` in doubles as 0.22499999999999998, multiplies
by 100 to a value below 22.5 and returns 22. -/
theorem C13_park_on_main_road_scores_22 :
    (calculateEnvironmentScoreF64 (some 18) (some 73) parkOnMainRoad).1
      = .ok { score := 22,
              details := { greenFeatures := 1, industrialFeatures := 0,
                           nearestMajorRoad := some 0 } } ∧
    mulF64 (envRawOfF64 { greenFeatures := 1, industrialFeatures := 0,
                          nearestMajorRoad := some 0 }) 100 < 45 / 2 ∧
    round (100 * ((6 / 10 : ℚ) * min 1 (((1 : ℕ) : ℚ) / 8) +
      (25 / 100 : ℚ) * roadNormalized (some 0) +
      (15 / 100 : ℚ) * (if (0 : ℕ) > 0 then 0 else 1))) = 23 := by
  refine ⟨by decide!, by decide!, ?_⟩
  rw [round_eq]
  norm_num [roadNormalized]

/-- C13 as amended: when the environment query succeeds,
`calculateEnvironmentScore` returns `Math.round(envScoreRaw * 100)`, where
`envScoreRaw` is the weighted sum evaluated in doubles, the counters being the
numbers of matching elements and the road distance the least distance of a
major road with coordinates. For a non-negative road distance the score lies
within `1/2 + 10⁻¹²` of
`x = 100 * (0.6*min(1, greenCount/8) + 0.25*roadNormalized +
0.15*(industrialCount > 0 ? 0 : 1))` and equals `round(x)` whenever no
half-integer lies within `10⁻¹²` of `x`. -/
theorem C13_amended_environment_score (lat lng : Coord) (o : Outcome OverpassData)
    (r : EnvResult) (h : environmentBodyF64 o = .ok r) :
    (calculateEnvironmentScoreF64 lat lng o).1 = .ok r ∧
    r.score = jsRound (mulF64 (envRawOfF64 r.details) 100) ∧
    ((∀ x, r.details.nearestMajorRoad = some x → 0 ≤ x) →
      |(r.score : ℚ) - 100 * ((6 / 10 : ℚ) * min 1 ((r.details.greenFeatures : ℚ) / 8) +
        (25 / 100 : ℚ) * roadNormalized r.details.nearestMajorRoad +
        (15 / 100 : ℚ) * (if r.details.industrialFeatures > 0 then 0 else 1))|
          ≤ 1 / 2 + 1 / 10 ^ 12 ∧
      ((∀ k : ℤ, (1 / 10 ^ 12 : ℚ) <
          |100 * ((6 / 10 : ℚ) * min 1 ((r.details.greenFeatures : ℚ) / 8) +
            (25 / 100 : ℚ) * roadNormalized r.details.nearestMajorRoad +
            (15 / 100 : ℚ) * (if r.details.industrialFeatures > 0 then 0 else 1))
            - (k + 1 / 2)|) →
        r.score = round (100 * ((6 / 10 : ℚ) * min 1 ((r.details.greenFeatures : ℚ) / 8) +
          (25 / 100 : ℚ) * roadNormalized r.details.nearestMajorRoad +
          (15 / 100 : ℚ) * (if r.details.industrialFeatures > 0 then 0 else 1))))) ∧
    (roadNormalized r.details.nearestMajorRoad =
      match r.details.nearestMajorRoad with
      | none => 1
      | some d => min 1 (d / 2000)) ∧
    (∃ els, (o = .response (.elements els) ∨ (o = .response .noElements ∧ els = [])) ∧
      r.details.greenFeatures = countTagged isGreen els ∧
      r.details.industrialFeatures = countTagged isIndustrial els ∧
      (r.details.nearestMajorRoad = none ↔ taggedDistances isMajorRoad els = []) ∧
      (∀ d, r.details.nearestMajorRoad = some d →
        d ∈ taggedDistances isMajorRoad els ∧
          ∀ d' ∈ taggedDistances isMajorRoad els, d ≤ d')) := by
  obtain ⟨hex, hscore⟩ := environmentBodyF64_score o r h
  refine ⟨by simp only [calculateEnvironmentScoreF64, h, tryCatch], hscore, ?_, rfl, ?_⟩
  · intro hnn
    rw [hscore]
    exact jsRound_near (envRawOfF64_near r.details hnn)
  · unfold environmentBody at hex
    match o with
    | .failure => simp at hex
    | .response .null => simp at hex
    | .response .noElements =>
      simp only [Except.ok.injEq, EnvResult.mk.injEq] at hex
      rw [← hex.2]
      exact ⟨[], Or.inr ⟨rfl, rfl⟩, by simp [countTagged], by simp [countTagged],
        by simp [taggedDistances], by simp⟩
    | .response (.elements els) =>
      simp only at hex
      split at hex
      · simp at hex
      · rename_i d hl
        simp only [Except.ok.injEq, EnvResult.mk.injEq] at hex
        rw [← hex.2]
        obtain ⟨hg, hi, hr⟩ := envLoop_spec els _ d hl
        have hn := leastFrom_none hr
        exact ⟨els, Or.inl rfl, by simpa using hg, by simpa using hi, hn.1, hn.2⟩

/-- C13 as amended, at the environment answer of `sampleWorld`: one park, no
industry, a trunk road 300 m away, score 26. -/
theorem C13_amended_environment_score_witness :
    environmentBodyF64 sampleWorld.environment =
      .ok { score := 26,
            details := { greenFeatures := 1, industrialFeatures := 0,
                         nearestMajorRoad := some 300 } } ∧
    (calculateEnvironmentScoreF64 (some 18) (some 73) sampleWorld.environment).1 =
      .ok { score := 26,
            details := { greenFeatures := 1, industrialFeatures := 0,
                         nearestMajorRoad := some 300 } } :=
  ⟨by decide!, (C13_amended_environment_score (some 18) (some 73) sampleWorld.environment
    { score := 26,
      details := { greenFeatures := 1, industrialFeatures := 0, nearestMajorRoad := some 300 } }
    (by decide!)).1⟩

/-- C14 fails: with one bar, no police station and no camera the exact value
of the formula is `100 * (0.075 - 0.02) = 5.5`, which rounds to 6; the code
accumulates `safetyRaw` in doubles to 0.05499999999999999, multiplies by 100 to
a value below 5.5 and returns 5. -/
theorem C14_one_bar_scores_5 :
    (calculateSafetyScoreF64 (some 18) (some 73) oneBar).1
      = .ok { score := 5,
              details := { policeStations := 0, nearestPoliceDistance := none,
                           cctvCameras := 0, nightlifeSpots := 1 } } ∧
    mulF64 (max 0 (min 1 (safetyRawOfF64 { policeStations := 0, nearestPoliceDistance := none,
                                           cctvCameras := 0, nightlifeSpots := 1 }))) 100
      < 11 / 2 ∧
    round (100 * clamp01 (
      (4 / 10 : ℚ) * policeProx none +
      (2 / 10 : ℚ) * min 1 (((0 : ℕ) : ℚ) / 3) +
      (15 / 100 : ℚ) * min 1 (((0 : ℕ) : ℚ) / 5) + (15 / 100 : ℚ) * (1 / 2) -
      (1 / 10 : ℚ) * min 1 (((1 : ℕ) : ℚ) / 5))) = 6 := by
  refine ⟨by decide!, by decide!, ?_⟩
  rw [round_eq]
  norm_num [policeProx, clamp01]

/-- C14 as amended: when the safety query succeeds, `calculateSafetyScore`
returns `Math.round(clamp01(safetyRaw) * 100)`, where `safetyRaw` is accumulated
in doubles, the counters being the numbers of matching elements and the police
distance the least distance of a police feature with coordinates. For a
non-negative police distance the score lies within `1/2 + 10⁻¹²` of
`x = 100 * clamp01(0.4*policeProx + 0.2*min(1, policeCount/3) +
0.15*min(1, cctvCount/5) + 0.15*0.5 - 0.1*min(1, nightlifeCount/5))` and equals
`round(x)` whenever no half-integer lies within `10⁻¹²` of `x`. -/
theorem C14_amended_safety_score (lat lng : Coord) (o : Outcome OverpassData)
    (r : SafetyResult) (h : safetyBodyF64 o = .ok r) :
    (calculateSafetyScoreF64 lat lng o).1 = .ok r ∧
    r.score = jsRound (mulF64 (max 0 (min 1 (safetyRawOfF64 r.details))) 100) ∧
    ((∀ x, r.details.nearestPoliceDistance = some x → 0 ≤ x) →
      |(r.score : ℚ) - 100 * clamp01 (
        (4 / 10 : ℚ) * policeProx r.details.nearestPoliceDistance +
        (2 / 10 : ℚ) * min 1 ((r.details.policeStations : ℚ) / 3) +
        (15 / 100 : ℚ) * min 1 ((r.details.cctvCameras : ℚ) / 5) + (15 / 100 : ℚ) * (1 / 2) -
        (1 / 10 : ℚ) * min 1 ((r.details.nightlifeSpots : ℚ) / 5))| ≤ 1 / 2 + 1 / 10 ^ 12 ∧
      ((∀ k : ℤ, (1 / 10 ^ 12 : ℚ) < |100 * clamp01 (
          (4 / 10 : ℚ) * policeProx r.details.nearestPoliceDistance +
          (2 / 10 : ℚ) * min 1 ((r.details.policeStations : ℚ) / 3) +
          (15 / 100 : ℚ) * min 1 ((r.details.cctvCameras : ℚ) / 5) + (15 / 100 : ℚ) * (1 / 2) -
          (1 / 10 : ℚ) * min 1 ((r.details.nightlifeSpots : ℚ) / 5)) - (k + 1 / 2)|) →
        r.score = round (100 * clamp01 (
          (4 / 10 : ℚ) * policeProx r.details.nearestPoliceDistance +
          (2 / 10 : ℚ) * min 1 ((r.details.policeStations : ℚ) / 3) +
          (15 / 100 : ℚ) * min 1 ((r.details.cctvCameras : ℚ) / 5) + (15 / 100 : ℚ) * (1 / 2) -
          (1 / 10 : ℚ) * min 1 ((r.details.nightlifeSpots : ℚ) / 5))))) ∧
    (∀ x : ℚ, clamp01 x = max 0 (min 1 x)) ∧
    (policeProx r.details.nearestPoliceDistance =
      match r.details.nearestPoliceDistance with
      | none => 0
      | some d => 1 - min d 2000 / 2000) ∧
    (∃ els, (o = .response (.elements els) ∨ (o = .response .noElements ∧ els = [])) ∧
      r.details.policeStations = countTagged isPolice els ∧
      r.details.cctvCameras = countTagged isCamera els ∧
      r.details.nightlifeSpots = countTagged isNightlife els ∧
      (r.details.nearestPoliceDistance = none ↔ taggedDistances isPolice els = []) ∧
      (∀ d, r.details.nearestPoliceDistance = some d →
        d ∈ taggedDistances isPolice els ∧ ∀ d' ∈ taggedDistances isPolice els, d ≤ d')) := by
  obtain ⟨hex, hscore⟩ := safetyBodyF64_score o r h
  refine ⟨by simp only [calculateSafetyScoreF64, h, tryCatch], hscore, ?_, fun x => rfl, rfl, ?_⟩
  · intro hnn
    rw [hscore]
    exact jsRound_near (safetyScoreOfF64_near r.details hnn)
  · unfold safetyBody at hex
    match o with
    | .failure => simp at hex
    | .response .null => simp at hex
    | .response .noElements =>
      simp only [Except.ok.injEq, SafetyResult.mk.injEq] at hex
      rw [← hex.2]
      exact ⟨[], Or.inr ⟨rfl, rfl⟩, by simp [countTagged], by simp [countTagged],
        by simp [countTagged], by simp [taggedDistances], by simp⟩
    | .response (.elements els) =>
      simp only at hex
      split at hex
      · simp at hex
      · rename_i d hl
        simp only [Except.ok.injEq, SafetyResult.mk.injEq] at hex
        rw [← hex.2]
        obtain ⟨hp, hc, hn, hr⟩ := safetyLoop_spec els _ d hl
        have hnone := leastFrom_none hr
        exact ⟨els, Or.inl rfl, by simpa using hp, by simpa using hc, by simpa using hn,
          hnone.1, hnone.2⟩

/-- C14 as amended, at the safety answer of `sampleWorld`: one police station
1200 m away, no camera, no nightlife venue, score 30. -/
theorem C14_amended_safety_score_witness :
    safetyBodyF64 sampleWorld.safety =
      .ok { score := 30,
            details := { policeStations := 1, nearestPoliceDistance := some 1200,
                         cctvCameras := 0, nightlifeSpots := 0 } } ∧
    (calculateSafetyScoreF64 (some 18) (some 73) sampleWorld.safety).1 =
      .ok { score := 30,
            details := { policeStations := 1, nearestPoliceDistance := some 1200,
                         cctvCameras := 0, nightlifeSpots := 0 } } :=
  ⟨by decide!, (C14_amended_safety_score (some 18) (some 73) sampleWorld.safety
    { score := 30,
      details := { policeStations := 1, nearestPoliceDistance := some 1200,
                   cctvCameras := 0, nightlifeSpots := 0 } }
    (by decide!)).1⟩

/-- C6 fails: with one hospital 1370 m away and nothing else the exact value of
the sum is `(100/7) * (1 - 1370/2000) = 4.5`, which rounds to 5; the code
computes the ratio in doubles as 0.31499999999999995 and the total as
4.499999999999999, and returns 4. -/
theorem C6_hospital_at_1370_scores_4 :
    (∃ r, (calculateAmenityScoreF64 (some 18) (some 73) hospitalAt1370).1 = .ok r ∧
      r.score = 4 ∧
      r.details.foldl (amenityStepF64 (divF64 100 7)) 0 < 9 / 2) ∧
    round ((getAmenityCategories.map (fun c =>
      (100 / 7 : ℚ) * categoryRatio (amenityCategoryResult c (hospitalAt1370 c.name)))).sum) = 5 ∧
    round ((100 / 7 : ℚ) * (1 - 1370 / 2000)) = 5 := by
  refine ⟨⟨_, rfl, by decide!, by decide!⟩, ?_, ?_⟩
  · have : (getAmenityCategories.map (fun c =>
        (100 / 7 : ℚ) * categoryRatio (amenityCategoryResult c (hospitalAt1370 c.name)))).sum
        = 9 / 2 := by decide!
    rw [this, round_eq]
    norm_num
  · rw [round_eq]
    norm_num

/-- C6 as amended: `calculateAmenityScore` returns `Math.round` of a total
accumulated in doubles over the 7 fixed categories; a category with a nearest
feature at distance `d_c` adds `(100/7) * r_c`,
`r_c = max(0, 1 - min(d_c, 2000)/2000)`, a category with no feature found or a
failed query adds nothing. For non-negative distances the score lies within
`1/2 + 10⁻¹²` of the exact sum `S` of the `(100/7) * r_c` and equals `round(S)`
whenever no half-integer lies within `10⁻¹²` of `S`; one hospital at 500 m and
nothing else gives `round((100/7) * (1 - 500/2000)) = 11`. -/
theorem C6_amended_amenity_score (lat lng : Coord) (answer : String → Outcome OverpassData) :
    (∃ r, (calculateAmenityScoreF64 lat lng answer).1 = .ok r ∧
      r.details = getAmenityCategories.map (fun c => amenityCategoryResult c (answer c.name)) ∧
      r.score = jsRound (r.details.foldl (amenityStepF64 (divF64 100 7)) 0) ∧
      ((∀ c ∈ r.details, ∀ d, c.distance = some d → 0 ≤ d) →
        |(r.score : ℚ) - (getAmenityCategories.map (fun c =>
          (100 / 7 : ℚ) * categoryRatio (amenityCategoryResult c (answer c.name)))).sum|
            ≤ 1 / 2 + 1 / 10 ^ 12 ∧
        ((∀ k : ℤ, (1 / 10 ^ 12 : ℚ) < |(getAmenityCategories.map (fun c =>
            (100 / 7 : ℚ) * categoryRatio (amenityCategoryResult c (answer c.name)))).sum
              - (k + 1 / 2)|) →
          r.score = round ((getAmenityCategories.map (fun c =>
            (100 / 7 : ℚ) * categoryRatio (amenityCategoryResult c (answer c.name)))).sum)))) ∧
    getAmenityCategories.length = 7 ∧
    (∀ c : AmenityCategory,
      (answer c.name = .failure →
        categoryRatio (amenityCategoryResult c (answer c.name)) = 0) ∧
      ((amenityCategoryResult c (answer c.name)).distance = none →
        categoryRatio (amenityCategoryResult c (answer c.name)) = 0) ∧
      (∀ d, (amenityCategoryResult c (answer c.name)).distance = some d →
        categoryRatio (amenityCategoryResult c (answer c.name))
            = max 0 (1 - min d 2000 / 2000) ∧
          ∃ els, answer c.name = .response (.elements els) ∧ d ∈ usableDistances els ∧
            ∀ d' ∈ usableDistances els, d ≤ d') ∧
      (∀ els, answer c.name = .response (.elements els) → none ∉ els →
        usableDistances els ≠ [] →
        ∃ d, (amenityCategoryResult c (answer c.name)).distance = some d)) ∧
    (∃ r, (calculateAmenityScoreF64 lat lng hospitalOnly).1 = .ok r ∧ r.score = 11 ∧
      round ((100 / 7 : ℚ) * (1 - 500 / 2000)) = 11) := by
  have hw : divF64 100 7 = 8042142191733029 / 562949953421312 := by decide!
  refine ⟨⟨_, calculateAmenityScoreF64_eq lat lng answer, rfl, by rw [hw], ?_⟩, rfl, ?_,
    ⟨_, rfl, ?_, ?_⟩⟩
  · intro hnn
    have hnear := amenityTotalF64_near _ (by simp [getAmenityCategories]) hnn
    simp only [List.map_map] at hnear
    exact jsRound_near hnear
  · intro c
    refine ⟨?_, categoryRatio_of_distance_none _, ?_, ?_⟩
    · intro hf
      rw [hf]
      rfl
    · intro d hd
      obtain ⟨hfound, hex⟩ := amenityCategoryResult_distance c (answer c.name) d hd
      refine ⟨?_, hex⟩
      unfold categoryRatio
      rw [hfound, hd]
    · intro els hels hnull hne
      rw [hels]
      obtain ⟨d, hd, -⟩ := amenityCategoryResult_found c els hnull hne
      exact ⟨d, hd⟩
  · decide!
  · rw [round_eq]
    norm_num

/-- C1 fails: in `tieWorld` the reported sub-scores are 57, 50, 50 and 2, whose
weighted sum is 42.5 and rounds to 43; the code evaluates
`57 * 0.3 + 50 * 0.25 + 50 * 0.25 + 2 * 0.2` in doubles to a value below 42.5
(42.49999999999999) and reports the overall score 42. -/
theorem C1_tie_is_rounded_down :
    (∃ r, (calculateAllScoresF64 (some 18) (some 73) tieWorld 0).1 = .ok r ∧
      r.amenityScore = 57 ∧ r.environmentScore = 50 ∧ r.safetyScore = 50 ∧
      r.pollutionScore = 2 ∧ r.overallScore = 42 ∧
      round ((30 / 100 : ℚ) * r.amenityScore + (25 / 100 : ℚ) * r.environmentScore +
        (25 / 100 : ℚ) * r.safetyScore + (20 / 100 : ℚ) * r.pollutionScore) = 43) ∧
    weightedSumF64 57 50 50 2 < 85 / 2 := by
  refine ⟨⟨combineScoresF64
      { score := 57, details := getAmenityCategories.map
          (fun c => amenityCategoryResult c (tieWorld.amenity c.name)) }
      { score := 50, details := { greenFeatures := 0, industrialFeatures := 0,
                                  nearestMajorRoad := none } }
      { score := 50, details := { policeStations := 0, nearestPoliceDistance := none,
                                  cctvCameras := 0, nightlifeSpots := 0 } }
      { score := 2, details := { pm25Value := some 245, dataSource := "measured" } } 0,
    by decide!, rfl, rfl, rfl, rfl, by decide!, ?_⟩, by decide!⟩
  simp only [combineScoresF64]
  rw [round_eq]
  norm_num

/-- C1 as amended: every result of `calculateAllScores` has `overallScore`
equal to `Math.round` of the weighted sum
`amenityScore * 0.3 + environmentScore * 0.25 + safetyScore * 0.25 +
pollutionScore * 0.2` of the sub-scores of the same result, evaluated from left
to right in doubles. When the distances in the answers are non-negative,
`overallScore` equals `round(0.30*amenityScore + 0.25*environmentScore +
0.25*safetyScore + 0.20*pollutionScore)`, a half rounded upwards, whenever that
exact sum is not halfway between two integers, and in every case it is that
rounding or one less. -/
theorem C1_amended_overall_score (lat lng : Coord) (w : World) (now : ℕ) :
    ∃ r, (calculateAllScoresF64 lat lng w now).1 = .ok r ∧
      r.overallScore = jsRound (weightedSumF64 r.amenityScore r.environmentScore
        r.safetyScore r.pollutionScore) ∧
      (w.distancesNonneg = true →
        ((∀ k : ℤ, (30 / 100 : ℚ) * r.amenityScore + (25 / 100 : ℚ) * r.environmentScore +
            (25 / 100 : ℚ) * r.safetyScore + (20 / 100 : ℚ) * r.pollutionScore ≠ k + 1 / 2) →
          r.overallScore =
            round ((30 / 100 : ℚ) * r.amenityScore + (25 / 100 : ℚ) * r.environmentScore +
              (25 / 100 : ℚ) * r.safetyScore + (20 / 100 : ℚ) * r.pollutionScore)) ∧
        (r.overallScore =
            round ((30 / 100 : ℚ) * r.amenityScore + (25 / 100 : ℚ) * r.environmentScore +
              (25 / 100 : ℚ) * r.safetyScore + (20 / 100 : ℚ) * r.pollutionScore) ∨
          r.overallScore =
            round ((30 / 100 : ℚ) * r.amenityScore + (25 / 100 : ℚ) * r.environmentScore +
              (25 / 100 : ℚ) * r.safetyScore + (20 / 100 : ℚ) * r.pollutionScore) - 1)) ∧
      (∀ x : ℚ, round x = ⌊x + 1 / 2⌋) := by
  obtain ⟨a, e, s, p, ha, he, hs, hp, h⟩ := calculateAllScoresF64_combine lat lng w now
  refine ⟨_, h, rfl, ?_, fun x => round_eq x⟩
  intro hw
  simp only [World.distancesNonneg, Bool.and_eq_true, List.all_eq_true] at hw
  obtain ⟨⟨⟨hwa, hwe⟩, -⟩, hwr⟩ := hw
  have ra := amenity_scoreF64_range lat lng w.amenity hwa a ha
  have re := environment_scoreF64_range lat lng w.environment hwe e he
  have rs := safety_scoreF64_range lat lng w.safety s hs
  have rp := pollution_scoreF64_range lat lng w.airQuality w.environmentRetry hwr p hp
  have hnear := weightedSumF64_near a.score e.score s.score p.score
    ⟨ra.1, ra.2⟩ ⟨re.1, re.2⟩ ⟨rs.1, rs.2⟩ ⟨rp.1, rp.2⟩
  simp only [combineScoresF64, overallScoreF64]
  obtain ⟨n1, n2⟩ := jsRound_near hnear
  refine ⟨fun hk => n2 (weighted_sum_off_tie _ _ _ _ hk), ?_⟩
  by_cases ht : ∀ k : ℤ, (30 / 100 : ℚ) * a.score + (25 / 100 : ℚ) * e.score +
      (25 / 100 : ℚ) * s.score + (20 / 100 : ℚ) * p.score ≠ k + 1 / 2
  · exact Or.inl (n2 (weighted_sum_off_tie _ _ _ _ ht))
  · push_neg at ht
    obtain ⟨k, hk⟩ := ht
    rw [hk] at n1 ⊢
    generalize jsRound (weightedSumF64 a.score e.score s.score p.score) = z at n1 ⊢
    have hr : round ((k : ℚ) + 1 / 2) = k + 1 := by
      rw [round_eq]
      have : (k : ℚ) + 1 / 2 + 1 / 2 = ((k + 1 : ℤ) : ℚ) := by push_cast; ring
      rw [this, Int.floor_intCast]
    rw [hr, abs_le] at *
    have u1 : (z : ℚ) < (k : ℚ) + 2 := by linarith [n1.2]
    have u2 : (k : ℚ) - 1 < (z : ℚ) := by linarith [n1.1]
    have v1 : z < k + 2 := by exact_mod_cast u1
    have v2 : k - 1 < z := by exact_mod_cast u2
    omega

/-! ## Recommendations for a user without favorites -/

/-- C8 as amended: for a user without favorites and without stored
preferences the similar-to-favorites generator returns the popular listings,
the normal path is taken and every returned candidate is an active listing
carrying one of the four tags. A candidate tagged `trending` or
`similar_to_favorites` is a popular listing (without favorites the
similar-to-favorites generator returns the popular listings), a candidate
tagged `location_match` is a listing whose city matches the fall-back city
`Pune`, and a candidate tagged `high_location_score` is a listing scored 75 or
more. -/
theorem C8_amended_new_user_tags (db : Db) (userId : String) (limit : ℕ) (user : User)
    (huser : findUserById db userId = some user)
    (hfav : ∀ f ∈ db.favorites, f.user ≠ userId)
    (hpref : user.propertyPreferences = none ∨ user.propertyPreferences = some {}) :
    (∀ n, getSimilarToListings db userId n = getPopularListings db n []) ∧
    ∃ candidates, getBuyerRecommendations db userId limit = .ranked candidates ∧
      ∀ c ∈ candidates, c.listing ∈ db.listings ∧ c.listing.status = "active" ∧
        (c.recommendationType = "similar_to_favorites" ∨ c.recommendationType = "location_match" ∨
          c.recommendationType = "trending" ∨ c.recommendationType = "high_location_score") ∧
        (c.recommendationType = "similar_to_favorites" →
          c.listing ∈ getPopularListings db (quota limit 4) []) ∧
        (c.recommendationType = "trending" →
          c.listing ∈ getPopularListings db (quota limit 2) []) ∧
        (c.recommendationType = "location_match" →
          c.listing ∈ getLocationBasedRecommendations db "Pune" (quota limit 3) ∧
          ∃ city, c.listing.city = some city ∧ matchesIgnoreCase "Pune" city = true) ∧
        (c.recommendationType = "high_location_score" →
          c.listing ∈ getHighLocationScoreListings db (quota limit 1) ∧
          ∃ s, c.listing.overallScore = some s ∧ 75 ≤ s) := by
  have hcity : preferredCity user.propertyPreferences = "Pune" := by
    rcases hpref with h | h <;> rw [h] <;> rfl
  have hres : getBuyerRecommendations db userId limit =
      .ranked (blendRecommendations (getSimilarToListings db userId (quota limit 4))
        (getLocationBasedRecommendations db (preferredCity user.propertyPreferences)
          (quota limit 3))
        (getPopularListings db (quota limit 2) [])
        (getHighLocationScoreListings db (quota limit 1)) limit) := by
    simp only [getBuyerRecommendations, buyerBody, huser]
  refine ⟨fun n => getSimilarToListings_of_no_favorite db userId n hfav, _, hres, ?_⟩
  intro c hc
  rw [getSimilarToListings_of_no_favorite db userId _ hfav, hcity] at hc
  rcases mem_blendRecommendations hc with ⟨ht, -, h⟩ | ⟨ht, -, h⟩ | ⟨ht, -, h⟩ | ⟨ht, -, h⟩
  · refine ⟨(mem_getPopularListings h).1, (mem_getPopularListings h).2, Or.inl ht,
      fun _ => h, ?_, ?_, ?_⟩ <;> rw [ht] <;> intro hx <;> exact absurd hx (by decide)
  · obtain ⟨h1, h2⟩ := mem_findListings h
    simp only [ListingQuery.admits, Bool.and_eq_true, decide_eq_true_eq, Bool.and_true] at h2
    have hcityOf : ∃ city, c.listing.city = some city ∧ matchesIgnoreCase "Pune" city = true := by
      cases hcy : c.listing.city with
      | none => simp [hcy] at h2
      | some city => exact ⟨city, rfl, by simpa [hcy] using h2.2⟩
    refine ⟨h1, h2.1, Or.inr (Or.inl ht), ?_, ?_, fun _ => ⟨h, hcityOf⟩, ?_⟩ <;>
      rw [ht] <;> intro hx <;> exact absurd hx (by decide)
  · refine ⟨(mem_getPopularListings h).1, (mem_getPopularListings h).2,
      Or.inr (Or.inr (Or.inl ht)), ?_, fun _ => h, ?_, ?_⟩ <;>
      rw [ht] <;> intro hx <;> exact absurd hx (by decide)
  · obtain ⟨h1, h2⟩ := mem_findListings h
    simp only [ListingQuery.admits, Bool.and_eq_true, decide_eq_true_eq, Bool.and_true] at h2
    have hscoreOf : ∃ s, c.listing.overallScore = some s ∧ 75 ≤ s := by
      cases hs : c.listing.overallScore with
      | none => simp [hs] at h2
      | some s => exact ⟨s, rfl, by simpa [hs] using h2.2⟩
    refine ⟨h1, h2.1, Or.inr (Or.inr (Or.inr ht)), ?_, ?_, ?_, fun _ => ⟨h, hscoreOf⟩⟩ <;>
      rw [ht] <;> intro hx <;> exact absurd hx (by decide)

/-- C8 as amended, at `newUserDb` with a limit of 2. -/
theorem C8_amended_new_user_tags_witness :
    findUserById newUserDb "u1" = some { _id := "u1", propertyPreferences := none } ∧
    (∀ f ∈ newUserDb.favorites, f.user ≠ "u1") ∧
    (∀ n, getSimilarToListings newUserDb "u1" n = getPopularListings newUserDb n []) ∧
    ∃ candidates, getBuyerRecommendations newUserDb "u1" 2 = .ranked candidates ∧
      ∀ c ∈ candidates, c.listing ∈ newUserDb.listings ∧ c.listing.status = "active" ∧
        (c.recommendationType = "similar_to_favorites" ∨ c.recommendationType = "location_match" ∨
          c.recommendationType = "trending" ∨ c.recommendationType = "high_location_score") ∧
        (c.recommendationType = "similar_to_favorites" →
          c.listing ∈ getPopularListings newUserDb (quota 2 4) []) ∧
        (c.recommendationType = "trending" →
          c.listing ∈ getPopularListings newUserDb (quota 2 2) []) ∧
        (c.recommendationType = "location_match" →
          c.listing ∈ getLocationBasedRecommendations newUserDb "Pune" (quota 2 3) ∧
          ∃ city, c.listing.city = some city ∧ matchesIgnoreCase "Pune" city = true) ∧
        (c.recommendationType = "high_location_score" →
          c.listing ∈ getHighLocationScoreListings newUserDb (quota 2 1) ∧
          ∃ s, c.listing.overallScore = some s ∧ 75 ≤ s) :=
  ⟨by decide, by decide,
    C8_amended_new_user_tags newUserDb "u1" 2 { _id := "u1", propertyPreferences := none }
      (by decide) (by decide) (Or.inl rfl)⟩

/-! ## Widening of the preferences -/

/-- C20 fails: a listing created from a form without a city is stored with the
city `''`; after `updateUserPreferences` has run for it, the property type has
been added but `preferredLocations` is still empty, so it does not contain the
city of the listing. -/
theorem C20_empty_city_is_skipped :
    findListingById plotDb "N" = some plotWithoutCity ∧
    plotWithoutCity.propertyType = "plot" ∧ plotWithoutCity.city = some "" ∧
    ∃ after, findUserById (updateUserPreferences plotDb "u1" "N") "u1" =
        some { _id := "u1", propertyPreferences := some after } ∧
      after.preferredTypes = ["plot"] ∧ after.preferredLocations = [] ∧
      ∀ c, plotWithoutCity.city = some c → c ∉ after.preferredLocations := by
  refine ⟨by decide, by decide, by decide,
    { preferredTypes := ["plot"], preferredLocations := [],
      budgetRange := { min := 900000, max := 900000 } }, by decide!, rfl, rfl, ?_⟩
  intro c _
  simp

/-- C20 as amended: after `updateUserPreferences` has run for an existing user
and an existing listing, `preferredTypes` contains the property type of the
listing when it is a non-empty string and `preferredLocations` contains its
city when that is a non-empty string; an empty or absent city leaves
`preferredLocations` unchanged. Each list is the list before the update, in the
same order, followed by at most the one new entry, which is added only when it
was not present, so a list without duplicates stays without. -/
theorem C20_amended_preferences_widen (db : Db) (userId listingId : String) (user : User)
    (listing : Listing)
    (hu : findUserById db userId = some user)
    (hl : findListingById db listingId = some listing) :
    ∃ after, findUserById (updateUserPreferences db userId listingId) userId =
        some { user with propertyPreferences := some after } ∧
      (listing.propertyType ≠ "" → listing.propertyType ∈ after.preferredTypes) ∧
      (∀ c, listing.city = some c → c ≠ "" → c ∈ after.preferredLocations) ∧
      ((listing.city = none ∨ listing.city = some "") →
        after.preferredLocations = (initializePreferences user).preferredLocations) ∧
      (after.preferredTypes = (initializePreferences user).preferredTypes ∨
        (listing.propertyType ∉ (initializePreferences user).preferredTypes ∧
          after.preferredTypes =
            (initializePreferences user).preferredTypes ++ [listing.propertyType])) ∧
      (after.preferredLocations = (initializePreferences user).preferredLocations ∨
        ∃ c, listing.city = some c ∧ c ∉ (initializePreferences user).preferredLocations ∧
          after.preferredLocations =
            (initializePreferences user).preferredLocations ++ [c]) ∧
      ((initializePreferences user).preferredTypes.Nodup → after.preferredTypes.Nodup) ∧
      ((initializePreferences user).preferredLocations.Nodup →
        after.preferredLocations.Nodup) := by
  refine ⟨_, updateUserPreferences_user db userId listingId user listing hu hl, ?_⟩
  generalize initializePreferences user = prefs
  have htypes : (updatedPreferences prefs listing).preferredTypes =
      if listing.propertyType = "" ∨ listing.propertyType ∈ prefs.preferredTypes then
        prefs.preferredTypes
      else prefs.preferredTypes ++ [listing.propertyType] := by
    simp only [updatedPreferences]
    by_cases h1 : listing.propertyType = "" <;>
      by_cases h2 : listing.propertyType ∈ prefs.preferredTypes <;> simp [h1, h2]
  have hlocs : (updatedPreferences prefs listing).preferredLocations =
      match listing.city with
      | some city =>
        if city = "" ∨ city ∈ prefs.preferredLocations then prefs.preferredLocations
        else prefs.preferredLocations ++ [city]
      | none => prefs.preferredLocations := by
    simp only [updatedPreferences]
    cases listing.city with
    | none => rfl
    | some city =>
      by_cases h1 : city = "" <;> by_cases h2 : city ∈ prefs.preferredLocations <;>
        simp [h1, h2]
  rw [htypes, hlocs]
  refine ⟨?_, ?_, ?_, ?_, ?_, ?_, ?_⟩
  · intro ht0
    split_ifs with h
    · exact h.resolve_left ht0
    · simp
  · intro c hc hc0
    rw [hc]
    simp only
    split_ifs with h
    · exact h.resolve_left hc0
    · simp
  · rintro (hc | hc) <;> simp [hc]
  · split_ifs with h
    · exact Or.inl rfl
    · push_neg at h
      exact Or.inr ⟨h.2, rfl⟩
  · cases hc : listing.city with
    | none => exact Or.inl rfl
    | some city =>
      simp only
      split_ifs with h
      · exact Or.inl rfl
      · push_neg at h
        exact Or.inr ⟨city, rfl, h.2, rfl⟩
  · intro hnd
    split_ifs with h
    · exact hnd
    · push_neg at h
      exact List.Nodup.append hnd (List.nodup_singleton _) (by simpa using h.2)
  · intro hnd
    cases hc : listing.city with
    | none => exact hnd
    | some city =>
      simp only
      split_ifs with h
      · exact hnd
      · push_neg at h
        exact List.Nodup.append hnd (List.nodup_singleton _) (by simpa using h.2)

/-- C20 as amended, at `fiveFavoritesDb`: user `u1` favorites the villa in
Mumbai. -/
theorem C20_amended_preferences_widen_witness :
    findUserById fiveFavoritesDb "u1" = some { _id := "u1", propertyPreferences := none } ∧
    findListingById fiveFavoritesDb "V" = some mumbaiVilla ∧
    ∃ after, findUserById (updateUserPreferences fiveFavoritesDb "u1" "V") "u1" =
        some { _id := "u1", propertyPreferences := some after } ∧
      "villa" ∈ after.preferredTypes ∧ "Mumbai" ∈ after.preferredLocations := by
  obtain ⟨after, h1, h2, h3, -⟩ := C20_amended_preferences_widen fiveFavoritesDb "u1" "V"
    { _id := "u1", propertyPreferences := none } mumbaiVilla (by decide) (by decide!)
  exact ⟨by decide, by decide!, after, h1, h2 (by decide), h3 "Mumbai" (by decide) (by decide)⟩

/-! ## The distance functions in double precision -/

theorem roundHalfEven_nonneg {q : ℚ} (h : 0 ≤ q) : 0 ≤ roundHalfEven q := by
  have hf : 0 ≤ ⌊q⌋ := Int.floor_nonneg.mpr h
  unfold roundHalfEven
  simp only []
  split_ifs <;> omega

theorem toF64_nonneg {x : ℚ} (h : 0 ≤ x) : 0 ≤ toF64 x := by
  unfold toF64
  split_ifs with h0
  · exact le_rfl
  · simp only []
    have hq : 0 ≤ x / (2 : ℚ) ^ (max (binade x - 52) (-1074)) := div_nonneg h (by positivity)
    have := roundHalfEven_nonneg hq
    have hc : (0 : ℚ) ≤ (roundHalfEven (x / (2 : ℚ) ^ (max (binade x - 52) (-1074))) : ℚ) := by
      exact_mod_cast this
    positivity

/-- The rounding error of `toF64`: relative `2 ^ (-53)`, or half the subnormal
spacing. -/
theorem toF64_err (x : ℚ) : |toF64 x - x| ≤ |x| / 2 ^ 53 + 1 / 2 ^ 1075 := by
  by_cases h0 : x = 0
  · subst h0
    rw [toF64_zero]
    simp
  · obtain ⟨hb, -⟩ := binade_spec x h0
    refine (toF64_err_core x h0).trans ?_
    rcases le_total (binade x - 52) (-1074) with h | h
    · rw [max_eq_right h]
      have : (2 : ℚ) ^ (-1074 : ℤ) / 2 = 1 / 2 ^ 1075 := by
        rw [zpow_neg, zpow_ofNat]
        norm_num
      rw [this]
      have : 0 ≤ |x| / 2 ^ 53 := by positivity
      linarith
    · rw [max_eq_left h, zpow_sub₀ (by norm_num)]
      have h52 : (2 : ℚ) ^ (52 : ℤ) = 2 ^ 52 := by norm_num
      rw [h52]
      have h3 : (2 : ℚ) ^ binade x / 2 ^ 52 / 2 = 2 ^ binade x / 2 ^ 53 := by ring
      rw [h3]
      have : (2 : ℚ) ^ binade x / 2 ^ 53 ≤ |x| / 2 ^ 53 :=
        div_le_div_of_nonneg_right hb (by positivity)
      have : (0 : ℚ) ≤ 1 / 2 ^ 1075 := by positivity
      linarith

theorem sqrtF64_eq_none_iff (x : ℚ) : sqrtF64 x = none ↔ x < 0 := by
  unfold sqrtF64
  split_ifs with h1 h2
  · simp [h1]
  · simp [h1]
  · simp [h1]

theorem sqrtF64_nonneg {x r : ℚ} (h : sqrtF64 x = some r) : 0 ≤ r := by
  unfold sqrtF64 at h
  split_ifs at h with h1 h2
  · simp only [Option.some.injEq] at h
    rw [← h]
  · simp only [Option.some.injEq] at h
    rw [← h]
    apply toF64_nonneg
    apply div_nonneg _ (by positivity)
    have : (0 : ℚ) ≤ (isqrt ⌊x * 4 ^ (64 - binade x / 2)⌋.toNat : ℚ) := Nat.cast_nonneg _
    split_ifs <;> linarith

theorem toF64_one : toF64 1 = 1 := by decide!

theorem sqrtF64_zero : sqrtF64 0 = some 0 := by decide!

theorem sqrtF64_one : sqrtF64 1 = some 1 := by decide!

theorem toRad_zero : toRad 0 = some 0 := by decide!

/-- The two functions go through the same conversions to radians. -/
theorem calculateDistance_eq (m : JsMath) (lat1 lon1 lat2 lon2 : ℚ) :
    calculateDistance m lat1 lon1 lat2 lon2 =
      match (finiteF64 (subF64 lat2 lat1)).bind toRad, (finiteF64 (subF64 lon2 lon1)).bind toRad,
          toRad lat1, toRad lat2 with
      | some dLat, some dLon, some r1, some r2 =>
        match sqrtF64 (haversineA m dLat dLon r1 r2),
            sqrtF64 (subF64 1 (haversineA m dLat dLon r1 r2)) with
        | some y, some x => some (mulF64 6371 (mulF64 2 (m.atan2 y x)))
        | _, _ => none
      | _, _, _, _ => none := by
  unfold calculateDistance toRad
  cases h1 : finiteF64 (subF64 lat2 lat1) with
  | none => rfl
  | some latDiff =>
    cases h2 : finiteF64 (subF64 lon2 lon1) with
    | none =>
      rw [Option.some_bind, Option.none_bind]
      cases finiteF64 (mulF64 latDiff mathPI) <;> rfl
    | some lonDiff =>
      rw [Option.some_bind, Option.some_bind]
      cases h3 : finiteF64 (mulF64 lat1 mathPI) with
      | none =>
        cases finiteF64 (mulF64 latDiff mathPI) <;> cases finiteF64 (mulF64 lonDiff mathPI) <;> rfl
      | some p1 =>
        cases h4 : finiteF64 (mulF64 lat2 mathPI) with
        | none =>
          cases finiteF64 (mulF64 latDiff mathPI) <;>
            cases finiteF64 (mulF64 lonDiff mathPI) <;> rfl
        | some p2 =>
          dsimp only
          cases h5 : finiteF64 (mulF64 latDiff mathPI) with
          | none => rfl
          | some pLat =>
            cases h6 : finiteF64 (mulF64 lonDiff mathPI) with
            | none => rfl
            | some pLon => rfl

theorem finiteF64_zero : finiteF64 0 = some 0 := by decide!

theorem haversine_eq (m : JsMath) (lat1 lon1 lat2 lon2 dLat dLon r1 r2 : ℚ)
    (h1 : (finiteF64 (subF64 lat2 lat1)).bind toRad = some dLat)
    (h2 : (finiteF64 (subF64 lon2 lon1)).bind toRad = some dLon)
    (h3 : toRad lat1 = some r1) (h4 : toRad lat2 = some r2) :
    haversine m lat1 lon1 lat2 lon2 =
      match sqrtF64 (haversineA m dLat dLon r1 r2),
          sqrtF64 (subF64 1 (haversineA m dLat dLon r1 r2)) with
      | some y, some x => some (mulF64 6371000 (mulF64 2 (m.atan2 y x)))
      | _, _ => none := by
  unfold haversine
  rw [h1, h2, h3, h4]

theorem haversine_of_overflow (m : JsMath) (lat1 lon1 lat2 lon2 : ℚ)
    (h : (finiteF64 (subF64 lat2 lat1)).bind toRad = none ∨
      (finiteF64 (subF64 lon2 lon1)).bind toRad = none ∨
      toRad lat1 = none ∨ toRad lat2 = none) :
    haversine m lat1 lon1 lat2 lon2 = none := by
  unfold haversine
  rcases h with h | h | h | h
  · rw [h]
  · rw [h]
    cases (finiteF64 (subF64 lat2 lat1)).bind toRad <;> rfl
  · rw [h]
    cases (finiteF64 (subF64 lat2 lat1)).bind toRad <;>
      cases (finiteF64 (subF64 lon2 lon1)).bind toRad <;> rfl
  · rw [h]
    cases (finiteF64 (subF64 lat2 lat1)).bind toRad <;>
      cases (finiteF64 (subF64 lon2 lon1)).bind toRad <;> cases toRad lat1 <;> rfl

theorem haversineA_same (m : JsMath) (r : ℚ) (hsin0 : m.sin 0 = 0) :
    haversineA m 0 0 r r = 0 := by
  unfold haversineA divF64 mulF64 addF64
  simp only [zero_div, toF64_zero, hsin0, mul_zero, add_zero]

/-- C22 as amended: with the radian conversions `dLat`, `dLon`, `r1`, `r2`
and `a = sin(dLat/2)^2 + cos(r1)*cos(r2)*sin(dLon/2)^2` computed in doubles,
`haversine` returns `6371000 * (2 * atan2(sqrt(a), sqrt(1 - a)))`, each product
rounded to a double. The result is `NaN` exactly when the computed `a` is
negative or the computed `1 - a` is negative (then `a` is above 1), and when a
difference of coordinates or a conversion to radians overflows; every other
result is non-negative, and the
result is 0 when the two points are equal and the conversion of the latitude
does not overflow. The facts used about the engine are `atan2(y, x) >= 0` for
`y >= 0`, `sin(0) = 0` and `atan2(0, 1) = 0`. -/
theorem C22_amended_haversine (m : JsMath) (lat1 lon1 lat2 lon2 : ℚ)
    (hatan : ∀ y x, 0 ≤ y → 0 ≤ m.atan2 y x) (hsin0 : m.sin 0 = 0)
    (hatan0 : m.atan2 0 1 = 0) :
    (∀ dLat dLon r1 r2,
      (finiteF64 (subF64 lat2 lat1)).bind toRad = some dLat →
      (finiteF64 (subF64 lon2 lon1)).bind toRad = some dLon →
      toRad lat1 = some r1 → toRad lat2 = some r2 →
      (∀ y x, sqrtF64 (haversineA m dLat dLon r1 r2) = some y →
          sqrtF64 (subF64 1 (haversineA m dLat dLon r1 r2)) = some x →
          haversine m lat1 lon1 lat2 lon2 =
            some (mulF64 6371000 (mulF64 2 (m.atan2 y x)))) ∧
      (haversine m lat1 lon1 lat2 lon2 = none ↔
        haversineA m dLat dLon r1 r2 < 0 ∨ subF64 1 (haversineA m dLat dLon r1 r2) < 0) ∧
      (subF64 1 (haversineA m dLat dLon r1 r2) < 0 → 1 < haversineA m dLat dLon r1 r2)) ∧
    (((finiteF64 (subF64 lat2 lat1)).bind toRad = none ∨
        (finiteF64 (subF64 lon2 lon1)).bind toRad = none ∨
        toRad lat1 = none ∨ toRad lat2 = none) →
      haversine m lat1 lon1 lat2 lon2 = none) ∧
    (∀ v, haversine m lat1 lon1 lat2 lon2 = some v → 0 ≤ v) ∧
    (toRad lat1 ≠ none → haversine m lat1 lon1 lat1 lon1 = some 0) := by
  refine ⟨?_, haversine_of_overflow m lat1 lon1 lat2 lon2, ?_, ?_⟩
  · intro dLat dLon r1 r2 h1 h2 h3 h4
    rw [haversine_eq m lat1 lon1 lat2 lon2 dLat dLon r1 r2 h1 h2 h3 h4]
    refine ⟨?_, ?_, ?_⟩
    · intro y x hy hx
      rw [hy, hx]
    · rw [← sqrtF64_eq_none_iff, ← sqrtF64_eq_none_iff]
      cases sqrtF64 (haversineA m dLat dLon r1 r2) <;>
        cases sqrtF64 (subF64 1 (haversineA m dLat dLon r1 r2)) <;> simp
    · intro hneg
      by_contra hle
      push_neg at hle
      have : 0 ≤ subF64 1 (haversineA m dLat dLon r1 r2) := by
        unfold subF64
        exact toF64_nonneg (by linarith)
      linarith
  · intro v hv
    cases h1 : (finiteF64 (subF64 lat2 lat1)).bind toRad with
    | none => rw [haversine_of_overflow m _ _ _ _ (Or.inl h1)] at hv; simp at hv
    | some dLat =>
      cases h2 : (finiteF64 (subF64 lon2 lon1)).bind toRad with
      | none => rw [haversine_of_overflow m _ _ _ _ (Or.inr (Or.inl h2))] at hv; simp at hv
      | some dLon =>
        cases h3 : toRad lat1 with
        | none =>
          rw [haversine_of_overflow m _ _ _ _ (Or.inr (Or.inr (Or.inl h3)))] at hv; simp at hv
        | some r1 =>
          cases h4 : toRad lat2 with
          | none =>
            rw [haversine_of_overflow m _ _ _ _ (Or.inr (Or.inr (Or.inr h4)))] at hv
            simp at hv
          | some r2 =>
            rw [haversine_eq m lat1 lon1 lat2 lon2 dLat dLon r1 r2 h1 h2 h3 h4] at hv
            cases hy : sqrtF64 (haversineA m dLat dLon r1 r2) with
            | none => simp [hy] at hv
            | some y =>
              cases hx : sqrtF64 (subF64 1 (haversineA m dLat dLon r1 r2)) with
              | none => simp [hy, hx] at hv
              | some x =>
                simp only [hy, hx, Option.some.injEq] at hv
                rw [← hv]
                unfold mulF64
                exact toF64_nonneg (mul_nonneg (by norm_num)
                  (toF64_nonneg (mul_nonneg (by norm_num) (hatan y x (sqrtF64_nonneg hy)))))
  · intro hr
    obtain ⟨r, hr1⟩ := Option.ne_none_iff_exists'.mp hr
    have hsub : ∀ z : ℚ, (finiteF64 (subF64 z z)).bind toRad = some 0 := by
      intro z
      unfold subF64
      rw [sub_self, toF64_zero, finiteF64_zero, Option.some_bind, toRad_zero]
    rw [haversine_eq m lat1 lon1 lat1 lon1 0 0 r r (hsub lat1) (hsub lon1) hr1 hr1,
      haversineA_same m r hsin0]
    have h1 : subF64 1 0 = 1 := by unfold subF64; rw [sub_zero, toF64_one]
    rw [h1, sqrtF64_zero, sqrtF64_one]
    simp only [hatan0, mulF64, mul_zero, toF64_zero]

theorem sampleMath_atan2_nonneg (y x : ℚ) : 0 ≤ sampleMath.atan2 y x := by
  unfold sampleMath
  simp only
  split_ifs
  · decide!
  · exact le_rfl

/-- C22 as amended, for `sampleMath` and the points (0, 0) and (0, 0.25): the
distance is a number and non-negative, and the distance of (0, 0) from itself
is 0. -/
theorem C22_amended_haversine_witness :
    (∀ y x : ℚ, 0 ≤ y → 0 ≤ sampleMath.atan2 y x) ∧ sampleMath.sin 0 = 0 ∧
    sampleMath.atan2 0 1 = 0 ∧
    (∀ v, haversine sampleMath 0 0 0 (1 / 4) = some v → 0 ≤ v) ∧
    haversine sampleMath 0 0 0 0 = some 0 := by
  have h := C22_amended_haversine sampleMath 0 0 0 (1 / 4)
    (fun y x _ => sampleMath_atan2_nonneg y x) (by decide!) (by decide!)
  have h0 := C22_amended_haversine sampleMath 0 0 0 0
    (fun y x _ => sampleMath_atan2_nonneg y x) (by decide!) (by decide!)
  exact ⟨fun y x _ => sampleMath_atan2_nonneg y x, by decide!, by decide!, h.2.2.1,
    h0.2.2.2 (by decide!)⟩

/-- C22 fails: for the points (81.71, 0) and (-81.71, 180), which lie opposite
each other on the globe, the doubles `sin(dLat/2)^2 = 0.979...` and
`cos(r1)*cos(r2) = 0.0207...` add up to `a = 1.0000000000000002`; `1 - a` is
negative, `Math.sqrt(1 - a)` is `NaN` and so is the result, which is therefore
not a non-negative number. -/
theorem C22_antipodal_points_give_nan :
    (finiteF64 (subF64 (-(toF64 81.71)) (toF64 81.71))).bind toRad
      = some (-(toF64 2.8522170636091335)) ∧
    (finiteF64 (subF64 180 0)).bind toRad = some mathPI ∧
    toRad (toF64 81.71) = some (toF64 1.4261085318045668) ∧
    toRad (-(toF64 81.71)) = some (-(toF64 1.4261085318045668)) ∧
    haversineA sampleMath (-(toF64 2.8522170636091335)) mathPI (toF64 1.4261085318045668)
      (-(toF64 1.4261085318045668)) = toF64 1.0000000000000002 ∧
    (1 : ℚ) < toF64 1.0000000000000002 ∧
    sqrtF64 (subF64 1 (toF64 1.0000000000000002)) = none ∧
    haversine sampleMath (toF64 81.71) 0 (-(toF64 81.71)) 180 = none := by
  refine ⟨by decide!, by decide!, by decide!, by decide!, by decide!, by decide!, by decide!,
    by decide!⟩

theorem scaled_products_near (c : ℚ) :
    |mulF64 6371 c * 1000 - mulF64 6371000 c| ≤ 6371000 * |c| / 2 ^ 52 + 1001 / 2 ^ 1075 ∧
    |mulF64 (mulF64 6371 c) 1000 - mulF64 6371000 c| ≤
      6371000 * |c| / 2 ^ 51 + 1003 / 2 ^ 1075 := by
  unfold mulF64
  have e1 := toF64_err (6371 * c)
  have e2 := toF64_err (6371000 * c)
  have e3 := toF64_err (toF64 (6371 * c) * 1000)
  rw [abs_mul, abs_of_pos (by norm_num : (0 : ℚ) < 6371)] at e1
  rw [abs_mul, abs_of_pos (by norm_num : (0 : ℚ) < 6371000)] at e2
  rw [abs_mul, abs_of_pos (by norm_num : (0 : ℚ) < 1000)] at e3
  have hc : 0 ≤ |c| := abs_nonneg c
  generalize toF64 (toF64 (6371 * c) * 1000) = p at e3
  generalize toF64 (6371 * c) = km at e1 e3
  generalize toF64 (6371000 * c) = met at e2
  have a1 := abs_le.mp e1
  have a2 := abs_le.mp e2
  have hkm : |km| ≤ 6371 * |c| + (6371 * |c| / 2 ^ 53 + 1 / 2 ^ 1075) := by
    rw [abs_le]
    have c1 := neg_abs_le c
    have c2 := le_abs_self c
    constructor <;> linarith [a1.1, a1.2]
  have a3 := abs_le.mp e3
  generalize |km| = K at hkm a3
  generalize |c| = C at *
  have t1 : (0 : ℚ) < 1 / 2 ^ 1075 := by positivity
  have t2 : C / 2 ^ 53 / 2 ^ 53 ≤ C / 2 ^ 53 := by
    apply div_le_self (by positivity)
    norm_num
  have t3 : (1 : ℚ) / 2 ^ 1075 / 2 ^ 53 ≤ 1 / 2 ^ 1075 := by
    apply div_le_self (by positivity)
    norm_num
  have h1001 : (1001 : ℚ) / 2 ^ 1075 = 1001 * (1 / 2 ^ 1075) := by ring
  have h1003 : (1003 : ℚ) / 2 ^ 1075 = 1003 * (1 / 2 ^ 1075) := by ring
  rw [h1001, h1003]
  clear h1001 h1003
  generalize (1 : ℚ) / 2 ^ 1075 = T at *
  constructor
  · rw [abs_le]
    constructor <;> linarith [a1.1, a1.2, a2.1, a2.2]
  · rw [abs_le]
    constructor <;> linarith [a1.1, a1.2, a2.1, a2.2, a3.1, a3.2]

/-- C30 fails: for the points (0, 0) and (0, 0.25) the common angle is
`c = 0.004363323129985824`; `calculateDistance` returns
`6371 * c = 27.798731661139684`, whose product with 1000 rounds to
27798.73166113968, while `haversine` returns
`6371000 * c = 27798.731661139685`. -/
theorem C30_quarter_degree_differs :
    calculateDistance sampleMath 0 0 0 (1 / 4) = some (toF64 27.798731661139684) ∧
    haversine sampleMath 0 0 0 (1 / 4) = some (toF64 27798.731661139685) ∧
    toF64 27.798731661139684 * 1000 ≠ toF64 27798.731661139685 ∧
    mulF64 (toF64 27.798731661139684) 1000 = toF64 27798.73166113968 ∧
    toF64 27798.73166113968 ≠ toF64 27798.731661139685 := by
  refine ⟨by decide!, by decide!, by decide!, by decide!, by decide!⟩

/-- C30 as amended: the two implementations compute the same angle `c` by the
same operations and return `6371 * c` and `6371000 * c`, each rounded to a
double, so they are `NaN` on the same inputs and otherwise
`calculateDistance(...)`, in kilometres, multiplied by 1000 differs from
`haversine(...)`, in metres, by at most `6371000 * |c| / 2^52` (plus an
underflow term), and by at most `6371000 * |c| / 2^51` when the product with
1000 is itself rounded to a double. -/
theorem C30_amended_distance_functions (m : JsMath) (lat1 lon1 lat2 lon2 : ℚ) :
    (calculateDistance m lat1 lon1 lat2 lon2 = none ↔
      haversine m lat1 lon1 lat2 lon2 = none) ∧
    (∀ km met, calculateDistance m lat1 lon1 lat2 lon2 = some km →
      haversine m lat1 lon1 lat2 lon2 = some met →
      ∃ c, km = mulF64 6371 c ∧ met = mulF64 6371000 c ∧
        |km * 1000 - met| ≤ 6371000 * |c| / 2 ^ 52 + 1001 / 2 ^ 1075 ∧
        |mulF64 km 1000 - met| ≤ 6371000 * |c| / 2 ^ 51 + 1003 / 2 ^ 1075) := by
  rw [calculateDistance_eq]
  unfold haversine
  cases (finiteF64 (subF64 lat2 lat1)).bind toRad with
  | none => simp
  | some dLat =>
    cases (finiteF64 (subF64 lon2 lon1)).bind toRad with
    | none => simp
    | some dLon =>
      cases toRad lat1 with
      | none => simp
      | some r1 =>
        cases toRad lat2 with
        | none => simp
        | some r2 =>
          dsimp only
          cases sqrtF64 (haversineA m dLat dLon r1 r2) with
          | none => simp
          | some y =>
            cases sqrtF64 (subF64 1 (haversineA m dLat dLon r1 r2)) with
            | none => simp
            | some x =>
              refine ⟨by simp, ?_⟩
              intro km met hkm hmet
              simp only [Option.some.injEq] at hkm hmet
              subst hkm hmet
              exact ⟨mulF64 2 (m.atan2 y x), rfl, rfl,
                scaled_products_near (mulF64 2 (m.atan2 y x))⟩

/-! ## The two readings of the scorers

The double-precision reading issues the same requests and returns the same
details as the exact reading; the two can differ in the five scores only. -/

theorem environmentBodyF64_eq (o : Outcome OverpassData) :
    environmentBodyF64 o = (environmentBody o).map
      (fun r => { score := envScoreOfF64 r.details, details := r.details }) := by
  unfold environmentBodyF64 environmentBody
  match o with
  | .failure => rfl
  | .response .null => rfl
  | .response .noElements => rfl
  | .response (.elements els) =>
    simp only
    cases envLoop els { greenFeatures := 0, industrialFeatures := 0, nearestMajorRoad := none } <;>
      rfl

theorem safetyBodyF64_eq (o : Outcome OverpassData) :
    safetyBodyF64 o = (safetyBody o).map
      (fun r => { score := safetyScoreOfF64 r.details, details := r.details }) := by
  unfold safetyBodyF64 safetyBody
  match o with
  | .failure => rfl
  | .response .null => rfl
  | .response .noElements => rfl
  | .response (.elements els) =>
    simp only
    cases safetyLoop els { policeStations := 0, nearestPoliceDistance := none, cctvCameras := 0,
                           nightlifeSpots := 0 } <;> rfl

theorem calculateEnvironmentScoreF64_agree (lat lng : Coord) (o : Outcome OverpassData) :
    (calculateEnvironmentScoreF64 lat lng o).2 = (calculateEnvironmentScore lat lng o).2 ∧
    ∃ r rF, (calculateEnvironmentScore lat lng o).1 = .ok r ∧
      (calculateEnvironmentScoreF64 lat lng o).1 = .ok rF ∧ rF.details = r.details := by
  refine ⟨rfl, ?_⟩
  simp only [calculateEnvironmentScoreF64, calculateEnvironmentScore, environmentBodyF64_eq]
  cases environmentBody o with
  | error err => exact ⟨_, _, rfl, rfl, rfl⟩
  | ok r => exact ⟨_, _, rfl, rfl, rfl⟩

theorem calculateSafetyScoreF64_agree (lat lng : Coord) (o : Outcome OverpassData) :
    (calculateSafetyScoreF64 lat lng o).2 = (calculateSafetyScore lat lng o).2 ∧
    ∃ r rF, (calculateSafetyScore lat lng o).1 = .ok r ∧
      (calculateSafetyScoreF64 lat lng o).1 = .ok rF ∧ rF.details = r.details := by
  refine ⟨rfl, ?_⟩
  simp only [calculateSafetyScoreF64, calculateSafetyScore, safetyBodyF64_eq]
  cases safetyBody o with
  | error err => exact ⟨_, _, rfl, rfl, rfl⟩
  | ok r => exact ⟨_, _, rfl, rfl, rfl⟩

theorem calculatePollutionScoreF64_agree (lat lng : Coord) (aq : Outcome AQData)
    (envRetry : Outcome OverpassData) :
    (calculatePollutionScoreF64 lat lng aq envRetry).2 =
      (calculatePollutionScore lat lng aq envRetry).2 ∧
    ∃ r rF, (calculatePollutionScore lat lng aq envRetry).1 = .ok r ∧
      (calculatePollutionScoreF64 lat lng aq envRetry).1 = .ok rF ∧ rF.details = r.details := by
  obtain ⟨e, he⟩ := calculateEnvironmentScore_ok lat lng envRetry
  obtain ⟨eF, heF⟩ := calculateEnvironmentScoreF64_ok lat lng envRetry
  have hcalls := (calculateEnvironmentScoreF64_agree lat lng envRetry).1
  simp only [calculatePollutionScoreF64, calculatePollutionScore, pollutionBodyF64, pollutionBody]
  cases aq with
  | failure => exact ⟨rfl, _, _, rfl, rfl, rfl⟩
  | response data =>
    simp only
    cases readPm25 data with
    | error err => exact ⟨rfl, _, _, rfl, rfl, rfl⟩
    | ok reading =>
      cases reading with
      | some v => exact ⟨rfl, _, _, rfl, rfl, rfl⟩
      | none =>
        rw [he, heF, hcalls]
        exact ⟨rfl, _, _, rfl, rfl, rfl⟩

/-- The double-precision reading of `calculateAllScores` sends the same
requests as the exact reading, returns a result whenever it does, with the same
details and the same time stamp. -/
theorem calculateAllScoresF64_agree (lat lng : Coord) (w : World) (now : ℕ) :
    (calculateAllScoresF64 lat lng w now).2 = (calculateAllScores lat lng w now).2 ∧
    ∃ r rF, (calculateAllScores lat lng w now).1 = .ok r ∧
      (calculateAllScoresF64 lat lng w now).1 = .ok rF ∧
      rF.scoreDetails = r.scoreDetails ∧ rF.scoresCalculatedAt = r.scoresCalculatedAt := by
  obtain ⟨ce, e, eF, he, heF, hde⟩ := calculateEnvironmentScoreF64_agree lat lng w.environment
  obtain ⟨cs, s, sF, hs, hsF, hds⟩ := calculateSafetyScoreF64_agree lat lng w.safety
  obtain ⟨cp, p, pF, hp, hpF, hdp⟩ :=
    calculatePollutionScoreF64_agree lat lng w.airQuality w.environmentRetry
  obtain ⟨aF, haF, hdaF⟩ : ∃ aF, (calculateAmenityScoreF64 lat lng w.amenity).1 = .ok aF ∧
      aF.details = getAmenityCategories.map
        (fun c => amenityCategoryResult c (w.amenity c.name)) :=
    ⟨_, calculateAmenityScoreF64_eq lat lng w.amenity, rfl⟩
  obtain ⟨a, ha⟩ := calculateAmenityScore_ok lat lng w.amenity
  have hda : a.details = getAmenityCategories.map
      (fun c => amenityCategoryResult c (w.amenity c.name)) := by
    simp only [calculateAmenityScore, Except.ok.injEq] at ha
    rw [← ha]
  constructor
  · have h1 : (calculateAllScoresF64 lat lng w now).2 =
        (calculateAmenityScoreF64 lat lng w.amenity).2 ++
          (calculateEnvironmentScoreF64 lat lng w.environment).2 ++
          (calculateSafetyScoreF64 lat lng w.safety).2 ++
          (calculatePollutionScoreF64 lat lng w.airQuality w.environmentRetry).2 := by
      simp only [calculateAllScoresF64]
      split <;> rfl
    have h2 : (calculateAllScores lat lng w now).2 =
        (calculateAmenityScore lat lng w.amenity).2 ++
          (calculateEnvironmentScore lat lng w.environment).2 ++
          (calculateSafetyScore lat lng w.safety).2 ++
          (calculatePollutionScore lat lng w.airQuality w.environmentRetry).2 := by
      simp only [calculateAllScores]
      split <;> rfl
    rw [h1, h2, ce, cs, cp]
    rfl
  · refine ⟨combineScores a e s p now, combineScoresF64 aF eF sF pF now, ?_, ?_, ?_, rfl⟩
    · simp only [calculateAllScores, ha, he, hs, hp]
    · simp only [calculateAllScoresF64, haF, heF, hsF, hpF]
    · simp only [combineScoresF64, combineScores, hda, hdaF, hde, hds, hdp]

/-- In the double-precision reading, too, the five scores lie between 0 and 100
when the distances in the answers are non-negative. -/
theorem calculateAllScoresF64_range (lat lng : Coord) (w : World) (now : ℕ)
    (hw : w.distancesNonneg = true) :
    ∃ r, (calculateAllScoresF64 lat lng w now).1 = .ok r ∧
      (0 ≤ r.amenityScore ∧ r.amenityScore ≤ 100) ∧
      (0 ≤ r.environmentScore ∧ r.environmentScore ≤ 100) ∧
      (0 ≤ r.safetyScore ∧ r.safetyScore ≤ 100) ∧
      (0 ≤ r.pollutionScore ∧ r.pollutionScore ≤ 100) ∧
      (0 ≤ r.overallScore ∧ r.overallScore ≤ 100) := by
  obtain ⟨a, e, s, p, ha, he, hs, hp, h⟩ := calculateAllScoresF64_combine lat lng w now
  simp only [World.distancesNonneg, Bool.and_eq_true, List.all_eq_true] at hw
  obtain ⟨⟨⟨hwa, hwe⟩, -⟩, hwr⟩ := hw
  have hA := amenity_scoreF64_range lat lng w.amenity hwa a ha
  have hE := environment_scoreF64_range lat lng w.environment hwe e he
  have hS := safety_scoreF64_range lat lng w.safety s hs
  have hP := pollution_scoreF64_range lat lng w.airQuality w.environmentRetry hwr p hp
  refine ⟨_, h, hA, hE, hS, hP, ?_⟩
  have hnear := abs_le.mp (weightedSumF64_near a.score e.score s.score p.score hA hE hS hP)
  have ha0 : (0 : ℚ) ≤ a.score := by exact_mod_cast hA.1
  have ha1 : (a.score : ℚ) ≤ 100 := by exact_mod_cast hA.2
  have he0 : (0 : ℚ) ≤ e.score := by exact_mod_cast hE.1
  have he1 : (e.score : ℚ) ≤ 100 := by exact_mod_cast hE.2
  have hs0 : (0 : ℚ) ≤ s.score := by exact_mod_cast hS.1
  have hs1 : (s.score : ℚ) ≤ 100 := by exact_mod_cast hS.2
  have hp0 : (0 : ℚ) ≤ p.score := by exact_mod_cast hP.1
  have hp1 : (p.score : ℚ) ≤ 100 := by exact_mod_cast hP.2
  simp only [combineScoresF64, overallScoreF64]
  exact jsRound_mem_range (by linarith [hnear.1]) (by linarith [hnear.2])

end RealEstate
